import Mathlib

/-!
# portal-expose: reconciliation engine

A shallow embedding of the PortalExpose controller
(`internal/controller`, `internal/tunnel`, `internal/tunnelclass`,
`internal/util`) and theorems about it.

Conventions of the embedding:

* Go structs become Lean structures with the Go field names; an embedded
  `metav1.ObjectMeta` becomes `extends ObjectMeta`.
* `int32` and `int` values are `Int`; the code only compares and prints them.
* `metav1.Time` is a clock value in `Nat`; a nil `*metav1.Time` is `none`.
* Go maps are association lists in the order of the map literal.
* `time.Now()` is a parameter: the clock value read by the call.
* The cluster API store is the `World`; every client call may fail with an error
  chosen by a `Faults` oracle, and every write call issued in a pass is recorded
  in the pass's call list.
-/

set_option autoImplicit false

namespace Portal

/-! ## Data model (`api/v1alpha1`, and the parts of the Kubernetes API the code touches) -/

/-- The `metav1.Condition` record. `Status` is the string behind `metav1.ConditionStatus`. -/
structure Condition where
  Type_ : String
  Status : String
  ObservedGeneration : Int
  LastTransitionTime : Nat
  Reason : String
  Message : String
deriving DecidableEq, Repr

/-- Value `metav1.ConditionTrue`. -/
def ConditionTrue : String := "True"
/-- Value `metav1.ConditionFalse`. -/
def ConditionFalse : String := "False"

/-- The `metav1.OwnerReference` record. -/
structure OwnerReference where
  APIVersion : String
  Kind : String
  Name : String
  Controller : Bool
  BlockOwnerDeletion : Bool
deriving DecidableEq, Repr

/-- The fields of `metav1.ObjectMeta` that the controller reads or writes. -/
structure ObjectMeta where
  Name : String
  Namespace : String
  Labels : List (String × String) := []
  Annotations : Option (List (String × String)) := none
  DeletionTimestamp : Option Nat := none
  Finalizers : List String := []
  OwnerReferences : List OwnerReference := []
deriving DecidableEq, Repr

structure ServiceRef where
  Name : String
  Port : Int
deriving DecidableEq, Repr

structure AppSpec where
  Name : String
  Service : ServiceRef
deriving DecidableEq, Repr

structure RelayTarget where
  Name : String
  URL : String
deriving DecidableEq, Repr

structure RelaySpec where
  Targets : List RelayTarget
deriving DecidableEq, Repr

structure PortalExposeSpec where
  App : AppSpec
  Relay : RelaySpec
  TunnelClassName : String := ""
deriving DecidableEq, Repr

structure TunnelPodStatus where
  Ready : Int := 0
  Total : Int := 0
deriving DecidableEq, Repr

structure RelayConnectionStatus where
  Name : String
  Status : String
  ConnectedAt : Option Nat := none
  LastError : String := ""
deriving DecidableEq, Repr

structure RelayStatus where
  Connected : List RelayConnectionStatus := []
deriving DecidableEq, Repr

structure PortalExposeStatus where
  Phase : String := ""
  PublicURL : String := ""
  TunnelPods : TunnelPodStatus := {}
  Relay : RelayStatus := {}
  Conditions : List Condition := []
deriving DecidableEq, Repr

/-- The exposure resource. -/
structure PortalExpose extends ObjectMeta where
  Spec : PortalExposeSpec
  Status : PortalExposeStatus := {}
deriving DecidableEq, Repr

/-- The `corev1.Toleration` record, carried through unchanged. -/
structure Toleration where
  Key : String
  Operator : String
  Value : String
  Effect : String
deriving DecidableEq, Repr

structure TunnelClassSpec where
  Replicas : Int
  Size : String
  NodeSelector : List (String × String) := []
  Tolerations : List Toleration := []
deriving DecidableEq, Repr

/-- The configuration tier resource. -/
structure TunnelClass extends ObjectMeta where
  Spec : TunnelClassSpec
deriving DecidableEq, Repr

/-- Suffix family of a `resource.Quantity`; it does not take part in `Equal`. -/
inductive Format where
  | DecimalSI
  | BinarySI
  | DecimalExponent
deriving DecidableEq, Repr

/-- A `resource.Quantity`: its numeric value in thousandths of a unit (so `100m` is 100
and `128Mi` is 134217728000) and the suffix family it was written in. -/
structure Quantity where
  milli : Int
  format : Format
deriving DecidableEq, Repr

/-- Method `Quantity.Equal`: numeric comparison, the format is ignored. -/
def Quantity.Equal (a b : Quantity) : Bool := a.milli == b.milli

/-- A `corev1.ResourceList` restricted to the two resource names the code reads;
an absent key is `none`. -/
structure ResourceList where
  cpu : Option Quantity := none
  memory : Option Quantity := none
deriving DecidableEq, Repr

/-- Method `ResourceList.Cpu`: the stored quantity, or the zero quantity in decimal format. -/
def ResourceList.Cpu (rl : ResourceList) : Quantity :=
  match rl.cpu with
  | some q => q
  | none => { milli := 0, format := Format.DecimalSI }

/-- Method `ResourceList.Memory`: the stored quantity, or the zero quantity in binary format. -/
def ResourceList.Memory (rl : ResourceList) : Quantity :=
  match rl.memory with
  | some q => q
  | none => { milli := 0, format := Format.BinarySI }

structure ResourceRequirements where
  Requests : ResourceList := {}
  Limits : ResourceList := {}
deriving DecidableEq, Repr

structure Container where
  Name : String
  Image : String
  Args : List String := []
  Resources : ResourceRequirements := {}
deriving DecidableEq, Repr

structure PodSpec where
  Containers : List Container
  NodeSelector : List (String × String) := []
  Tolerations : List Toleration := []
deriving DecidableEq, Repr

structure PodTemplateSpec where
  Labels : List (String × String) := []
  Spec : PodSpec
deriving DecidableEq, Repr

structure LabelSelector where
  MatchLabels : List (String × String) := []
deriving DecidableEq, Repr

structure RollingUpdateDeployment where
  MaxSurge : String
  MaxUnavailable : String
deriving DecidableEq, Repr

structure DeploymentStrategy where
  Type_ : String := ""
  RollingUpdate : Option RollingUpdateDeployment := none
deriving DecidableEq, Repr

structure DeploymentSpec where
  Replicas : Option Int
  Selector : Option LabelSelector := none
  Strategy : DeploymentStrategy := {}
  Template : PodTemplateSpec
deriving DecidableEq, Repr

structure DeploymentStatus where
  Replicas : Int := 0
  UpdatedReplicas : Int := 0
  ReadyReplicas : Int := 0
deriving DecidableEq, Repr

/-- The managed workload (`appsv1.Deployment`). -/
structure Deployment extends ObjectMeta where
  Spec : DeploymentSpec
  Status : DeploymentStatus := {}
deriving DecidableEq, Repr

/-- A `corev1.Service`; the controller only checks that it exists. -/
structure Service extends ObjectMeta where
deriving DecidableEq, Repr

/-! ## `internal/util/conditions.go` -/

def PhaseReady : String := "Ready"
def PhasePending : String := "Pending"
def PhaseDegraded : String := "Degraded"
def PhaseFailed : String := "Failed"

def ConditionAvailable : String := "Available"
def ConditionProgressing : String := "Progressing"
def ConditionTunnelDeploymentReady : String := "TunnelDeploymentReady"
def ConditionRelayConnected : String := "RelayConnected"
def ConditionServiceExists : String := "ServiceExists"

/-- Function `SetCondition`: the loop returns at the first entry of the given type, after
overwriting it in place; when the loop finds none, a new entry is appended. `now` is the
value of `time.Now()` read on entry. -/
def SetCondition (conditions : List Condition) (now : Nat)
    (conditionType status reason message : String) : List Condition :=
  match conditions with
  | [] =>
    [{ Type_ := conditionType, Status := status, LastTransitionTime := now,
       Reason := reason, Message := message, ObservedGeneration := 0 }]
  | existing :: rest =>
    if existing.Type_ = conditionType then
      { Type_ := existing.Type_,
        LastTransitionTime :=
          if existing.Status ≠ status then now else existing.LastTransitionTime,
        Status := status, Reason := reason, Message := message,
        ObservedGeneration := 0 } :: rest
    else
      existing :: SetCondition rest now conditionType status reason message

/-- Function `FindCondition`: the first entry of the given type, if any. -/
def FindCondition (conditions : List Condition) (conditionType : String) : Option Condition :=
  match conditions with
  | [] => none
  | c :: rest => if c.Type_ = conditionType then some c else FindCondition rest conditionType

/-- Function `IsConditionTrue`. -/
def IsConditionTrue (conditions : List Condition) (conditionType : String) : Bool :=
  match FindCondition conditions conditionType with
  | some c => c.Status == ConditionTrue
  | none => false

/-! ## `internal/tunnel/status.go` -/

/-- Function `ComputePhase`. -/
def ComputePhase (readyPods totalPods : Int) (relayConnected totalRelays : Int) : String :=
  let allPodsReady : Bool := (readyPods == totalPods && totalPods > 0)
  let somePodsReady : Bool := (readyPods > 0)
  let allRelaysConnected : Bool := (relayConnected == totalRelays && totalRelays > 0)
  let someRelaysConnected : Bool := (relayConnected > 0)
  if allPodsReady && allRelaysConnected then
    PhaseReady
  else if somePodsReady || someRelaysConnected then
    PhaseDegraded
  else if readyPods == 0 && totalPods > 0 then
    PhasePending
  else
    PhaseFailed

/-- The result of `regexp.MustCompile("^wss://([^/]+)").FindStringSubmatch(s)`: when `s`
starts with `wss://` followed by at least one character other than `/`, the whole match
and the capture group (the longest run of characters other than `/`); otherwise nil. -/
def FindStringSubmatch (s : List Char) : List (List Char) :=
  if "wss://".data.isPrefixOf s then
    let group := (s.drop "wss://".data.length).takeWhile (fun c => c != '/')
    if group.isEmpty then [] else ["wss://".data ++ group, group]
  else
    []

/-- Function `strings.TrimPrefix`. -/
def TrimPrefix (s pre : List Char) : List Char :=
  if pre.isPrefixOf s then s.drop pre.length else s

/-- Function `strings.Split` for a one-character separator. -/
def Split (s : List Char) (sep : Char) : List (List Char) :=
  match s with
  | [] => [[]]
  | c :: cs =>
    if c = sep then [] :: Split cs sep
    else
      match Split cs sep with
      | [] => [[c]]
      | first :: more => (c :: first) :: more

/-- Function `ConstructPublicURL`. -/
def ConstructPublicURL (appName : String) (relayURL : String) : String :=
  let found := FindStringSubmatch relayURL.data
  if found.length < 2 then
    let domain := TrimPrefix relayURL.data "wss://".data
    let domain := (Split domain '/').headD []
    "https://" ++ appName ++ "." ++ String.mk domain
  else
    let domain := found.getD 1 []
    "https://" ++ appName ++ "." ++ String.mk domain

/-- Function `ComputeRelayStatuses`: the loop appends one status per target. -/
def ComputeRelayStatuses (relayTargets : List RelayTarget) (podsReady : Bool) :
    List RelayConnectionStatus :=
  relayTargets.foldl
    (fun statuses target =>
      statuses ++ [{ Name := target.Name,
                     Status := if podsReady then "Connected" else "Disconnected" }])
    []

/-! ## `internal/tunnel/deployment.go` -/

def TunnelImage : String := "ghcr.io/gosuda/portal-tunnel:1.0.0"

/-- `resource.MustParse` of a decimal number with suffix `m`, as in `"100m"`. -/
def MustParse_m (n : Int) : Quantity := { milli := n, format := Format.DecimalSI }
/-- `resource.MustParse` of a decimal number with suffix `Mi`, as in `"128Mi"`. -/
def MustParse_Mi (n : Int) : Quantity := { milli := n * 1048576 * 1000, format := Format.BinarySI }
/-- `resource.MustParse` of a decimal number with suffix `Gi`, as in `"1Gi"`. -/
def MustParse_Gi (n : Int) : Quantity :=
  { milli := n * 1073741824 * 1000, format := Format.BinarySI }

/-- Function `GetResourcesForSize`; the default case calls the function again on `"small"`. -/
def GetResourcesForSize (size : String) : ResourceRequirements :=
  if _h1 : size = "small" then
    { Requests := { cpu := some (MustParse_m 100), memory := some (MustParse_Mi 128) },
      Limits := { cpu := some (MustParse_m 500), memory := some (MustParse_Mi 512) } }
  else if _h2 : size = "medium" then
    { Requests := { cpu := some (MustParse_m 250), memory := some (MustParse_Mi 256) },
      Limits := { cpu := some (MustParse_m 1000), memory := some (MustParse_Gi 1) } }
  else if _h3 : size = "large" then
    { Requests := { cpu := some (MustParse_m 500), memory := some (MustParse_Mi 512) },
      Limits := { cpu := some (MustParse_m 2000), memory := some (MustParse_Gi 2) } }
  else
    GetResourcesForSize "small"
termination_by (if size = "small" then 0 else 1)
decreasing_by simp [_h1]

/-- Format verb `%d` of `fmt.Sprintf`. -/
def Sprintf_d (n : Int) : String := toString n

/-- Function `BuildDeployment`. -/
def BuildDeployment (portalExpose : PortalExpose) (tunnelClass : TunnelClass) : Deployment :=
  let name := portalExpose.Name ++ "-tunnel"
  let namespace_ := portalExpose.Namespace
  let labels : List (String × String) :=
    [("app.kubernetes.io/name", "portal-tunnel"),
     ("app.kubernetes.io/component", "tunnel"),
     ("app.kubernetes.io/managed-by", "portal-expose-controller"),
     ("portal.gosuda.org/portalexpose", portalExpose.Name)]
  let args : List String :=
    ["expose",
     "--name", portalExpose.Spec.App.Name,
     "--host", portalExpose.Spec.App.Service.Name ++ "." ++ portalExpose.Namespace
                 ++ ".svc.cluster.local",
     "--port", Sprintf_d portalExpose.Spec.App.Service.Port]
  let args := portalExpose.Spec.Relay.Targets.foldl
    (fun args target => args ++ ["--relay", target.URL]) args
  let resources := GetResourcesForSize tunnelClass.Spec.Size
  { Name := name,
    Namespace := namespace_,
    Labels := labels,
    Spec :=
      { Replicas := some tunnelClass.Spec.Replicas,
        Selector := some { MatchLabels := labels },
        Strategy :=
          { Type_ := "RollingUpdate",
            RollingUpdate := some { MaxSurge := "25%", MaxUnavailable := "25%" } },
        Template :=
          { Labels := labels,
            Spec :=
              { Containers :=
                  [{ Name := "tunnel", Image := TunnelImage, Args := args,
                     Resources := resources }],
                NodeSelector := tunnelClass.Spec.NodeSelector,
                Tolerations := tunnelClass.Spec.Tolerations } } } }

/-! ## `internal/util/finalizer.go` -/

def FinalizerName : String := "portal.gosuda.org/cleanup-tunnel-deployment"

/-- Function `controllerutil.ContainsFinalizer`. -/
def ContainsFinalizer (obj : ObjectMeta) (finalizer : String) : Bool :=
  obj.Finalizers.contains finalizer

/-- Function `HasFinalizer`. -/
def HasFinalizer (obj : ObjectMeta) (finalizer : String) : Bool :=
  ContainsFinalizer obj finalizer

/-- Function `AddFinalizer`: the object after the call and the returned flag.
`controllerutil.AddFinalizer` appends the finalizer at the end. -/
def AddFinalizer (obj : ObjectMeta) (finalizer : String) : ObjectMeta × Bool :=
  if !ContainsFinalizer obj finalizer then
    ({ obj with Finalizers := obj.Finalizers ++ [finalizer] }, true)
  else
    (obj, false)

/-- Function `RemoveFinalizer`: the object after the call and the returned flag.
`controllerutil.RemoveFinalizer` keeps the entries different from the finalizer. -/
def RemoveFinalizer (obj : ObjectMeta) (finalizer : String) : ObjectMeta × Bool :=
  if ContainsFinalizer obj finalizer then
    ({ obj with Finalizers := obj.Finalizers.filter (fun f => f != finalizer) }, true)
  else
    (obj, false)

/-! ## The cluster API store and the client (external collaborators) -/

/-- A Go `error` value as the controller sees it: a not-found API error, any other
error, or an error built by `fmt.Errorf("...%w", inner)`. -/
inductive Err where
  | NotFound (msg : String)
  | Other (msg : String)
  | Wrap (msg : String) (inner : Err)
deriving DecidableEq, Repr

/-- Method `Error()`: the text of the error. -/
def Err.Error : Err → String
  | Err.NotFound msg => msg
  | Err.Other msg => msg
  | Err.Wrap msg inner => msg ++ inner.Error

/-- Function `errors.IsNotFound`, which looks through wrapped errors. -/
def Err.IsNotFound : Err → Bool
  | Err.NotFound _ => true
  | Err.Other _ => false
  | Err.Wrap _ inner => inner.IsNotFound

/-- The client calls a pass can issue; `UpdateTunnelClass` carries the name of the tier. -/
inductive Op where
  | GetPortalExpose
  | UpdatePortalExpose
  | StatusUpdatePortalExpose
  | GetService
  | GetTunnelClass
  | ListTunnelClasses
  | UpdateTunnelClass (name : String)
  | GetDeployment
  | CreateDeployment
  | UpdateDeployment
  | DeleteDeployment
  | SetControllerReference
deriving DecidableEq, Repr

/-- The error, if any, with which each client call of a pass fails. A failing call has
no effect on the store. -/
abbrev Faults := Op → Option Err

/-- No call fails. -/
def noFaults : Faults := fun _ => none

/-- The key `types.NamespacedName`. -/
structure NamespacedName where
  Namespace : String := ""
  Name : String
deriving DecidableEq, Repr

/-- The objects held by the cluster API store. -/
structure World where
  PortalExposes : List PortalExpose := []
  Services : List Service := []
  TunnelClasses : List TunnelClass := []
  Deployments : List Deployment := []
deriving DecidableEq, Repr

/-- A write call or event issued by a pass, with the object handed to the call. -/
inductive Call where
  | UpdatePortalExpose (obj : PortalExpose)
  | StatusUpdate (obj : PortalExpose)
  | CreateDeployment (obj : Deployment)
  | UpdateDeployment (obj : Deployment)
  | DeleteDeployment (obj : Deployment)
  | UpdateTunnelClass (obj : TunnelClass)
  | Event (eventtype reason message : String)
deriving DecidableEq, Repr

/-- Whether an object carries the given key. -/
def hasKey (key : NamespacedName) (obj : ObjectMeta) : Bool :=
  obj.Name == key.Name && obj.Namespace == key.Namespace

/-- The key of an object. -/
def keyOf (obj : ObjectMeta) : NamespacedName :=
  { Namespace := obj.Namespace, Name := obj.Name }

/-- Method `Time.IsZero` on a `*metav1.Time`: nil or the zero time. -/
def Time.IsZero (t : Option Nat) : Bool :=
  match t with
  | none => true
  | some v => v == 0

/-- Client call `Get` for an exposure. -/
def Client.GetPortalExpose (faults : Faults) (w : World) (key : NamespacedName) :
    Except Err PortalExpose :=
  match faults Op.GetPortalExpose with
  | some err => Except.error err
  | none =>
    match w.PortalExposes.find? (fun o => hasKey key o.toObjectMeta) with
    | some obj => Except.ok obj
    | none => Except.error (Err.NotFound ("portalexposes \"" ++ key.Name ++ "\" not found"))

/-- Client call `Update` for an exposure. The status subresource is enabled, so the stored
status is kept; an object marked for deletion whose last finalizer is removed is erased. -/
def Client.UpdatePortalExpose (faults : Faults) (w : World) (obj : PortalExpose) :
    Except Err World :=
  match faults Op.UpdatePortalExpose with
  | some err => Except.error err
  | none =>
    if w.PortalExposes.any (fun o => hasKey (keyOf obj.toObjectMeta) o.toObjectMeta) then
      Except.ok { w with PortalExposes := w.PortalExposes.filterMap (fun o =>
        if hasKey (keyOf obj.toObjectMeta) o.toObjectMeta then
          if !Time.IsZero obj.DeletionTimestamp && obj.Finalizers.isEmpty then none
          else some { obj with Status := o.Status }
        else some o) }
    else
      Except.error (Err.NotFound ("portalexposes \"" ++ obj.Name ++ "\" not found"))

/-- Client call `Status().Update` for an exposure: only the status is stored. -/
def Client.StatusUpdate (faults : Faults) (w : World) (obj : PortalExpose) :
    Except Err World :=
  match faults Op.StatusUpdatePortalExpose with
  | some err => Except.error err
  | none =>
    if w.PortalExposes.any (fun o => hasKey (keyOf obj.toObjectMeta) o.toObjectMeta) then
      Except.ok { w with PortalExposes := w.PortalExposes.map (fun o =>
        if hasKey (keyOf obj.toObjectMeta) o.toObjectMeta then { o with Status := obj.Status }
        else o) }
    else
      Except.error (Err.NotFound ("portalexposes \"" ++ obj.Name ++ "\" not found"))

/-- Client call `Get` for a service. -/
def Client.GetService (faults : Faults) (w : World) (key : NamespacedName) :
    Except Err Service :=
  match faults Op.GetService with
  | some err => Except.error err
  | none =>
    match w.Services.find? (fun o => hasKey key o.toObjectMeta) with
    | some obj => Except.ok obj
    | none => Except.error (Err.NotFound ("services \"" ++ key.Name ++ "\" not found"))

/-- Client call `Get` for a tier. -/
def Client.GetTunnelClass (faults : Faults) (w : World) (key : NamespacedName) :
    Except Err TunnelClass :=
  match faults Op.GetTunnelClass with
  | some err => Except.error err
  | none =>
    match w.TunnelClasses.find? (fun o => hasKey key o.toObjectMeta) with
    | some obj => Except.ok obj
    | none => Except.error (Err.NotFound ("tunnelclasses \"" ++ key.Name ++ "\" not found"))

/-- Client call `List` for tiers: the stored tiers in listing order. -/
def Client.ListTunnelClasses (faults : Faults) (w : World) : Except Err (List TunnelClass) :=
  match faults Op.ListTunnelClasses with
  | some err => Except.error err
  | none => Except.ok w.TunnelClasses

/-- Client call `Get` for a workload. -/
def Client.GetDeployment (faults : Faults) (w : World) (key : NamespacedName) :
    Except Err Deployment :=
  match faults Op.GetDeployment with
  | some err => Except.error err
  | none =>
    match w.Deployments.find? (fun o => hasKey key o.toObjectMeta) with
    | some obj => Except.ok obj
    | none => Except.error (Err.NotFound ("deployments.apps \"" ++ key.Name ++ "\" not found"))

/-- Client call `Create` for a workload. -/
def Client.CreateDeployment (faults : Faults) (w : World) (obj : Deployment) :
    Except Err World :=
  match faults Op.CreateDeployment with
  | some err => Except.error err
  | none =>
    if w.Deployments.any (fun o => hasKey (keyOf obj.toObjectMeta) o.toObjectMeta) then
      Except.error (Err.Other ("deployments.apps \"" ++ obj.Name ++ "\" already exists"))
    else
      Except.ok { w with Deployments := w.Deployments ++ [obj] }

/-- Client call `Update` for a workload: metadata and spec are stored, the stored status
is kept. -/
def Client.UpdateDeployment (faults : Faults) (w : World) (obj : Deployment) :
    Except Err World :=
  match faults Op.UpdateDeployment with
  | some err => Except.error err
  | none =>
    if w.Deployments.any (fun o => hasKey (keyOf obj.toObjectMeta) o.toObjectMeta) then
      Except.ok { w with Deployments := w.Deployments.map (fun o =>
        if hasKey (keyOf obj.toObjectMeta) o.toObjectMeta then { obj with Status := o.Status }
        else o) }
    else
      Except.error (Err.NotFound ("deployments.apps \"" ++ obj.Name ++ "\" not found"))

/-- Client call `Delete` for a workload. -/
def Client.DeleteDeployment (faults : Faults) (w : World) (obj : Deployment) :
    Except Err World :=
  match faults Op.DeleteDeployment with
  | some err => Except.error err
  | none =>
    if w.Deployments.any (fun o => hasKey (keyOf obj.toObjectMeta) o.toObjectMeta) then
      Except.ok { w with Deployments := w.Deployments.filter (fun o =>
        !hasKey (keyOf obj.toObjectMeta) o.toObjectMeta) }
    else
      Except.error (Err.NotFound ("deployments.apps \"" ++ obj.Name ++ "\" not found"))

/-- Function `controllerutil.SetControllerReference` for a freshly built workload: the
exposure becomes its single controller owner, unless the call fails. -/
def SetControllerReference (faults : Faults) (owner : PortalExpose) (controlled : Deployment) :
    Except Err Deployment :=
  match faults Op.SetControllerReference with
  | some err => Except.error err
  | none =>
    Except.ok { controlled with OwnerReferences :=
      [{ APIVersion := "portal.gosuda.org/v1alpha1", Kind := "PortalExpose",
         Name := owner.Name, Controller := true, BlockOwnerDeletion := true }] }

/-! ## `internal/tunnelclass/selector.go` -/

def DefaultClassAnnotation : String := "portal.gosuda.org/is-default-class"

/-- Map index `m[k]` on a possibly nil `map[string]string`: the empty string when absent. -/
def mapIndex (m : Option (List (String × String))) (k : String) : String :=
  match m with
  | none => ""
  | some l => (l.lookup k).getD ""

/-- Table `lowerhex` of `strconv`: the hexadecimal digit of a number below 16. -/
def lowerhex (n : Nat) : Char := "0123456789abcdef".toList.getD n '0'

/-- Function `strconv.IsPrint`, exact up to U+00FF (the Latin-1 fast path); the tables for
the runes above U+00FF are not reproduced and such runes are taken as printable. -/
def IsPrint (r : Char) : Bool :=
  if r.toNat ≤ 0xFF then
    if 0x20 ≤ r.toNat && r.toNat ≤ 0x7E then true
    else if 0xA1 ≤ r.toNat && r.toNat ≤ 0xFF then r.toNat != 0xAD
    else false
  else true

/-- Function `appendEscapedRune` of `strconv` for the double quote: the quote (34) and the
backslash (92) are backslashed, printable runes stand for themselves, the control
characters 7 to 13 get their letter, and every other rune is written in hexadecimal. -/
def appendEscapedRune (r : Char) : List Char :=
  if r.toNat = 34 || r.toNat = 92 then [Char.ofNat 92, r]
  else if IsPrint r then [r]
  else if r.toNat = 7 then [Char.ofNat 92, 'a']
  else if r.toNat = 8 then [Char.ofNat 92, 'b']
  else if r.toNat = 12 then [Char.ofNat 92, 'f']
  else if r.toNat = 10 then [Char.ofNat 92, 'n']
  else if r.toNat = 13 then [Char.ofNat 92, 'r']
  else if r.toNat = 9 then [Char.ofNat 92, 't']
  else if r.toNat = 11 then [Char.ofNat 92, 'v']
  else if r.toNat < 0x20 || r.toNat = 0x7F then
    [Char.ofNat 92, 'x', lowerhex (r.toNat / 16 % 16), lowerhex (r.toNat % 16)]
  else if r.toNat < 0x10000 then
    [Char.ofNat 92, 'u'] ++ [3, 2, 1, 0].map (fun k => lowerhex (r.toNat / 16 ^ k % 16))
  else
    [Char.ofNat 92, 'U']
      ++ [7, 6, 5, 4, 3, 2, 1, 0].map (fun k => lowerhex (r.toNat / 16 ^ k % 16))

/-- Format verb `%q` of `fmt` on a string (`strconv.Quote`): the escaped runes between
double quotes. -/
def Sprintf_q (s : String) : String :=
  String.mk ([Char.ofNat 34] ++ s.toList.flatMap appendEscapedRune ++ [Char.ofNat 34])

/-- Function `GetDefaultTunnelClass`. -/
def GetDefaultTunnelClass (faults : Faults) (w : World) : Except Err TunnelClass :=
  match Client.ListTunnelClasses faults w with
  | Except.error err => Except.error (Err.Wrap "failed to list TunnelClasses: " err)
  | Except.ok items =>
    match items.find? (fun tc =>
        tc.Annotations != none && mapIndex tc.Annotations DefaultClassAnnotation == "true") with
    | some tc => Except.ok tc
    | none =>
      Except.error (Err.Other ("no default TunnelClass found (annotate one with "
        ++ DefaultClassAnnotation ++ ": \"true\")"))

/-- Function `GetTunnelClass`. -/
def GetTunnelClass (faults : Faults) (w : World) (tunnelClassName : String) :
    Except Err TunnelClass :=
  if tunnelClassName != "" then
    match Client.GetTunnelClass faults w { Name := tunnelClassName } with
    | Except.error err =>
      Except.error (Err.Wrap ("failed to get TunnelClass " ++ Sprintf_q tunnelClassName ++ ": ") err)
    | Except.ok tunnelClass => Except.ok tunnelClass
  else
    GetDefaultTunnelClass faults w

/-! ## `internal/controller/portalexpose_controller.go` -/

/-- The value `ctrl.Result`. -/
structure Result where
  Requeue : Bool := false
  RequeueAfter : Nat := 0
deriving DecidableEq, Repr

/-- What a pass leaves behind: the store after the pass, the write calls and events it
issued in order, and what it returned. When `panic` is set the pass was aborted by a
run-time panic and returned nothing. -/
structure Outcome where
  world : World
  calls : List Call := []
  result : Result := {}
  err : Option Err := none
  panic : Option String := none
deriving DecidableEq, Repr

/-- The loop of `deploymentSpecEqual` over the container index, for lists of equal length. -/
def containersEqual : List Container → List Container → Bool
  | existingContainer :: es, desiredContainer :: ds =>
    if existingContainer.Image != desiredContainer.Image then false
    else if !existingContainer.Resources.Requests.Cpu.Equal
        desiredContainer.Resources.Requests.Cpu then false
    else if !existingContainer.Resources.Requests.Memory.Equal
        desiredContainer.Resources.Requests.Memory then false
    else containersEqual es ds
  | _, _ => true

/-- Function `deploymentSpecEqual`; `none` is the nil-pointer panic of dereferencing an
unset replica count. -/
def deploymentSpecEqual (existing desired : Deployment) : Option Bool :=
  match existing.Spec.Replicas, desired.Spec.Replicas with
  | some existingReplicas, some desiredReplicas =>
    if existingReplicas != desiredReplicas then some false
    else if existing.Spec.Template.Spec.Containers.length
        != desired.Spec.Template.Spec.Containers.length then some false
    else some (containersEqual existing.Spec.Template.Spec.Containers
        desired.Spec.Template.Spec.Containers)
  | _, _ => none

/-- Method `handleDeletion`. -/
def handleDeletion (faults : Faults) (w : World) (portalExpose : PortalExpose) : Outcome :=
  if !HasFinalizer portalExpose.toObjectMeta FinalizerName then
    { world := w }
  else
    let deploymentKey : NamespacedName :=
      { Name := portalExpose.Name ++ "-tunnel", Namespace := portalExpose.Namespace }
    match Client.GetDeployment faults w deploymentKey with
    | Except.error err =>
      if !err.IsNotFound then
        { world := w, err := some err }
      else
        let portalExpose : PortalExpose :=
          { portalExpose with
            toObjectMeta := (RemoveFinalizer portalExpose.toObjectMeta FinalizerName).1 }
        match Client.UpdatePortalExpose faults w portalExpose with
        | Except.error err =>
          { world := w, calls := [Call.UpdatePortalExpose portalExpose], err := some err }
        | Except.ok w1 =>
          { world := w1,
            calls := [Call.UpdatePortalExpose portalExpose,
                      Call.Event "Normal" "Deleted" "PortalExpose deleted, tunnel pods cleaned up"] }
    | Except.ok deployment =>
      match Client.DeleteDeployment faults w deployment with
      | Except.error err =>
        { world := w, calls := [Call.DeleteDeployment deployment], err := some err }
      | Except.ok w1 =>
        { world := w1, calls := [Call.DeleteDeployment deployment],
          result := { Requeue := true } }

/-- The count loop of step 9 of `Reconcile`. -/
def countConnected (relayStatuses : List RelayConnectionStatus) : Int :=
  relayStatuses.foldl (fun n rs => if rs.Status == "Connected" then n + 1 else n) 0

/-- Steps 7 to 11 of `Reconcile`: the in-memory exposure with the computed status.
`clock k` is the value of the `k`-th reading of `time.Now()` in the pass; `none` is the
index-out-of-range panic of `Targets[0]` on an empty target list. -/
def Reconcile.steadyStatus (clock : Nat → Nat) (portalExpose : PortalExpose)
    (tunnelClass : TunnelClass) (existingDeployment : Deployment) : Option PortalExpose :=
  let readyReplicas := existingDeployment.Status.ReadyReplicas
  let desiredReplicas := tunnelClass.Spec.Replicas
  let portalExpose : PortalExpose :=
    { portalExpose with Status.TunnelPods.Ready := readyReplicas }
  let portalExpose : PortalExpose :=
    { portalExpose with Status.TunnelPods.Total := desiredReplicas }
  let podsReady : Bool := (readyReplicas > 0)
  let relayStatuses := ComputeRelayStatuses portalExpose.Spec.Relay.Targets podsReady
  let portalExpose : PortalExpose :=
    { portalExpose with Status.Relay.Connected := relayStatuses }
  let connectedRelays : Int := countConnected relayStatuses
  let totalRelays : Int := relayStatuses.length
  let portalExpose : PortalExpose :=
    { portalExpose with
      Status.Phase := ComputePhase readyReplicas desiredReplicas connectedRelays totalRelays }
  let withURL : Option PortalExpose :=
    if portalExpose.Status.PublicURL == "" then
      match portalExpose.Spec.Relay.Targets with
      | [] => none
      | target0 :: _ =>
        some { portalExpose with
               Status.PublicURL := ConstructPublicURL portalExpose.Spec.App.Name target0.URL }
    else some portalExpose
  match withURL with
  | none => none
  | some portalExpose =>
    let allPodsReady : Bool := (readyReplicas == desiredReplicas && desiredReplicas > 0)
    let allRelaysConnected : Bool := (connectedRelays == totalRelays && totalRelays > 0)
    let portalExpose : PortalExpose :=
      if allPodsReady then
        { portalExpose with
          Status.Conditions :=
            SetCondition portalExpose.Status.Conditions (clock 1)
              ConditionTunnelDeploymentReady ConditionTrue "AllPodsReady"
              (Sprintf_d readyReplicas ++ "/" ++ Sprintf_d desiredReplicas
                ++ " tunnel pods ready") }
      else
        { portalExpose with
          Status.Conditions :=
            SetCondition portalExpose.Status.Conditions (clock 1)
              ConditionTunnelDeploymentReady ConditionFalse "PodsNotReady"
              ("Only " ++ Sprintf_d readyReplicas ++ "/" ++ Sprintf_d desiredReplicas
                ++ " tunnel pods ready") }
    let portalExpose : PortalExpose :=
      if allRelaysConnected then
        { portalExpose with
          Status.Conditions :=
            SetCondition portalExpose.Status.Conditions (clock 2) ConditionRelayConnected
              ConditionTrue "AllRelaysConnected"
              ("Connected to " ++ Sprintf_d connectedRelays ++ "/" ++ Sprintf_d totalRelays
                ++ " relays") }
      else
        { portalExpose with
          Status.Conditions :=
            SetCondition portalExpose.Status.Conditions (clock 2) ConditionRelayConnected
              ConditionFalse "PartialRelayConnection"
              ("Only " ++ Sprintf_d connectedRelays ++ "/" ++ Sprintf_d totalRelays
                ++ " relays connected") }
    let portalExpose : PortalExpose :=
      if portalExpose.Status.Phase == "Ready" || portalExpose.Status.Phase == "Degraded" then
        { portalExpose with
          Status.Conditions :=
            SetCondition portalExpose.Status.Conditions (clock 3) ConditionAvailable
              ConditionTrue "PortalExposeAvailable" "PortalExpose is available" }
      else
        { portalExpose with
          Status.Conditions :=
            SetCondition portalExpose.Status.Conditions (clock 3) ConditionAvailable
              ConditionFalse "PortalExposeNotAvailable"
              ("PortalExpose is " ++ portalExpose.Status.Phase) }
    let updating : Bool := (existingDeployment.Status.UpdatedReplicas < desiredReplicas)
    let portalExpose : PortalExpose :=
      if updating then
        { portalExpose with
          Status.Conditions :=
            SetCondition portalExpose.Status.Conditions (clock 4) ConditionProgressing
              ConditionTrue "RollingUpdate" "Deployment rolling update in progress" }
      else
        { portalExpose with
          Status.Conditions :=
            SetCondition portalExpose.Status.Conditions (clock 4) ConditionProgressing
              ConditionFalse "DeploymentStable" "No rolling update in progress" }
    some portalExpose

/-- Steps 7 to 13 of `Reconcile` (the steady state): compute the status, persist it and
emit the event of the phase. The locals `relayStatuses` and `connectedRelays` of steps 8
and 9 are read back from the computed status, where step 8 stored them. -/
def Reconcile.computeStatus (faults : Faults) (clock : Nat → Nat) (w : World)
    (portalExpose : PortalExpose) (tunnelClass : TunnelClass)
    (existingDeployment : Deployment) : Outcome :=
  match Reconcile.steadyStatus clock portalExpose tunnelClass existingDeployment with
  | none => { world := w, panic := some "index out of range [0] with length 0" }
  | some portalExpose =>
    let readyReplicas := existingDeployment.Status.ReadyReplicas
    let desiredReplicas := tunnelClass.Spec.Replicas
    let relayStatuses := portalExpose.Status.Relay.Connected
    let connectedRelays : Int := countConnected relayStatuses
    let totalRelays : Int := relayStatuses.length
    match Client.StatusUpdate faults w portalExpose with
    | Except.error err =>
      { world := w, calls := [Call.StatusUpdate portalExpose], err := some err }
    | Except.ok w1 =>
      let events : List Call :=
        if portalExpose.Status.Phase == "Ready" then
          [Call.Event "Normal" "Ready" "All tunnel pods and relays are healthy"]
        else if portalExpose.Status.Phase == "Degraded" then
          [Call.Event "Warning" "Degraded"
            ("Partial failure: " ++ Sprintf_d readyReplicas ++ "/" ++ Sprintf_d desiredReplicas
              ++ " pods ready, " ++ Sprintf_d connectedRelays ++ "/" ++ Sprintf_d totalRelays
              ++ " relays connected")]
        else if portalExpose.Status.Phase == "Failed" then
          [Call.Event "Warning" "Failed" "All tunnel pods or relays unavailable"]
        else []
      { world := w1, calls := Call.StatusUpdate portalExpose :: events }

/-- Steps 5 and 6 of `Reconcile`: build the desired workload, then create, update or keep
the live one. -/
def Reconcile.reconcileDeployment (faults : Faults) (clock : Nat → Nat) (w : World)
    (portalExpose : PortalExpose) (tunnelClass : TunnelClass) : Outcome :=
  let desiredDeployment := BuildDeployment portalExpose tunnelClass
  match SetControllerReference faults portalExpose desiredDeployment with
  | Except.error err => { world := w, err := some err }
  | Except.ok desiredDeployment =>
    let deploymentKey : NamespacedName :=
      { Name := desiredDeployment.Name, Namespace := desiredDeployment.Namespace }
    match Client.GetDeployment faults w deploymentKey with
    | Except.error err =>
      if err.IsNotFound then
        match Client.CreateDeployment faults w desiredDeployment with
        | Except.error err =>
          { world := w, calls := [Call.CreateDeployment desiredDeployment], err := some err }
        | Except.ok w1 =>
          let portalExpose : PortalExpose := { portalExpose with Status.Phase := "Pending" }
          let portalExpose : PortalExpose :=
            { portalExpose with
              Status.Conditions :=
                SetCondition portalExpose.Status.Conditions (clock 1) ConditionProgressing
                  ConditionTrue "DeploymentCreated" "Tunnel Deployment created, waiting for pods" }
          let created : List Call :=
            [Call.CreateDeployment desiredDeployment,
             Call.Event "Normal" "Created" "PortalExpose created, deploying tunnel pods"]
          match portalExpose.Spec.Relay.Targets with
          | [] =>
            { world := w1, calls := created,
              panic := some "index out of range [0] with length 0" }
          | target0 :: _ =>
            let primaryRelayURL := target0.URL
            let portalExpose : PortalExpose :=
              { portalExpose with
                Status.PublicURL := ConstructPublicURL portalExpose.Spec.App.Name primaryRelayURL }
            match Client.StatusUpdate faults w1 portalExpose with
            | Except.error err =>
              { world := w1, calls := created ++ [Call.StatusUpdate portalExpose],
                err := some err }
            | Except.ok w2 =>
              { world := w2, calls := created ++ [Call.StatusUpdate portalExpose],
                result := { Requeue := true } }
      else
        { world := w, err := some err }
    | Except.ok existingDeployment =>
      match deploymentSpecEqual existingDeployment desiredDeployment with
      | none =>
        { world := w, panic := some "invalid memory address or nil pointer dereference" }
      | some false =>
        let existingDeployment : Deployment :=
          { existingDeployment with Spec := desiredDeployment.Spec }
        match Client.UpdateDeployment faults w existingDeployment with
        | Except.error err =>
          { world := w, calls := [Call.UpdateDeployment existingDeployment], err := some err }
        | Except.ok w1 =>
          let portalExpose : PortalExpose :=
            { portalExpose with
              Status.Conditions :=
                SetCondition portalExpose.Status.Conditions (clock 1) ConditionProgressing
                  ConditionTrue "DeploymentUpdating" "Rolling update in progress" }
          match Client.StatusUpdate faults w1 portalExpose with
          | Except.error err =>
            { world := w1,
              calls := [Call.UpdateDeployment existingDeployment, Call.StatusUpdate portalExpose],
              err := some err }
          | Except.ok w2 =>
            { world := w2,
              calls := [Call.UpdateDeployment existingDeployment, Call.StatusUpdate portalExpose],
              result := { Requeue := true } }
      | some true =>
        Reconcile.computeStatus faults clock w portalExpose tunnelClass existingDeployment

/-- Method `resolveTunnelClass`. -/
def resolveTunnelClass (faults : Faults) (w : World) (portalExpose : PortalExpose) :
    Except Err TunnelClass :=
  GetTunnelClass faults w portalExpose.Spec.TunnelClassName

/-- Step 4 of `Reconcile`: resolve the tier, or report the failure in the status. -/
def Reconcile.resolveClass (faults : Faults) (clock : Nat → Nat) (w : World)
    (portalExpose : PortalExpose) : Outcome :=
  match resolveTunnelClass faults w portalExpose with
  | Except.error err =>
    let portalExpose : PortalExpose := { portalExpose with Status.Phase := "Failed" }
    let portalExpose : PortalExpose :=
      { portalExpose with
        Status.Conditions :=
          SetCondition portalExpose.Status.Conditions (clock 1) "TunnelClassExists"
            ConditionFalse "TunnelClassNotFound" err.Error }
    let event := Call.Event "Warning" "TunnelClassNotFound" err.Error
    match Client.StatusUpdate faults w portalExpose with
    | Except.error statusErr =>
      { world := w, calls := [event, Call.StatusUpdate portalExpose], err := some statusErr }
    | Except.ok w1 =>
      { world := w1, calls := [event, Call.StatusUpdate portalExpose] }
  | Except.ok tunnelClass =>
    Reconcile.reconcileDeployment faults clock w portalExpose tunnelClass

/-- Method `Reconcile` of `PortalExposeReconciler`: one pass for the exposure named by
`req` against the store `w`. -/
def Reconcile (faults : Faults) (clock : Nat → Nat) (w : World) (req : NamespacedName) :
    Outcome :=
  match Client.GetPortalExpose faults w req with
  | Except.error err =>
    if err.IsNotFound then { world := w }
    else { world := w, err := some err }
  | Except.ok portalExpose =>
    if !Time.IsZero portalExpose.DeletionTimestamp then
      handleDeletion faults w portalExpose
    else if !HasFinalizer portalExpose.toObjectMeta FinalizerName then
      let portalExpose : PortalExpose :=
        { portalExpose with
          toObjectMeta := (AddFinalizer portalExpose.toObjectMeta FinalizerName).1 }
      match Client.UpdatePortalExpose faults w portalExpose with
      | Except.error err =>
        { world := w, calls := [Call.UpdatePortalExpose portalExpose], err := some err }
      | Except.ok w1 =>
        { world := w1, calls := [Call.UpdatePortalExpose portalExpose],
          result := { Requeue := true } }
    else
      let serviceKey : NamespacedName :=
        { Name := portalExpose.Spec.App.Service.Name, Namespace := portalExpose.Namespace }
      match Client.GetService faults w serviceKey with
      | Except.error err =>
        if err.IsNotFound then
          let portalExpose : PortalExpose := { portalExpose with Status.Phase := "Failed" }
          let portalExpose : PortalExpose :=
            { portalExpose with
              Status.Conditions :=
                SetCondition portalExpose.Status.Conditions (clock 0) ConditionServiceExists
                  ConditionFalse "ServiceNotFound"
                  ("Service '" ++ portalExpose.Spec.App.Service.Name
                    ++ "' not found in namespace '" ++ portalExpose.Namespace ++ "'") }
          let portalExpose : PortalExpose :=
            { portalExpose with
              Status.Conditions :=
                SetCondition portalExpose.Status.Conditions (clock 1) ConditionAvailable
                  ConditionFalse "ServiceNotFound" "PortalExpose failed due to missing Service" }
          let event := Call.Event "Warning" "ServiceNotFound"
            ("Referenced Service '" ++ portalExpose.Spec.App.Service.Name ++ "' not found")
          match Client.StatusUpdate faults w portalExpose with
          | Except.error err =>
            { world := w, calls := [event, Call.StatusUpdate portalExpose], err := some err }
          | Except.ok w1 =>
            { world := w1, calls := [event, Call.StatusUpdate portalExpose] }
        else
          { world := w, err := some err }
      | Except.ok _service =>
        let portalExpose : PortalExpose :=
          { portalExpose with
            Status.Conditions :=
              SetCondition portalExpose.Status.Conditions (clock 0) ConditionServiceExists
                ConditionTrue "ServiceFound" "Service exists" }
        Reconcile.resolveClass faults clock w portalExpose

/-! ## `internal/controller/tunnelclass_controller.go` -/

/-- Client call `Update` for a tier: the stored object under the key is replaced. -/
def Client.UpdateTunnelClass (faults : Faults) (w : World) (obj : TunnelClass) :
    Except Err World :=
  match faults (Op.UpdateTunnelClass obj.Name) with
  | some err => Except.error err
  | none =>
    if w.TunnelClasses.any (fun o => hasKey (keyOf obj.toObjectMeta) o.toObjectMeta) then
      Except.ok { w with TunnelClasses := w.TunnelClasses.map (fun o =>
        if hasKey (keyOf obj.toObjectMeta) o.toObjectMeta then obj else o) }
    else
      Except.error (Err.NotFound ("tunnelclasses \"" ++ obj.Name ++ "\" not found"))

/-- Built-in `delete(m, k)` on a `map[string]string`; a nil map stays nil. -/
def mapDelete (m : Option (List (String × String))) (k : String) :
    Option (List (String × String)) :=
  match m with
  | none => none
  | some l => some (l.filter (fun p => p.1 != k))

/-- The loop of `ensureOnlyOneDefault` over the listed tiers: the store and the calls so
far are threaded through; the loop stops at the first failing update. -/
def ensureOnlyOneDefault.loop (faults : Faults) (newDefault : TunnelClass) :
    List TunnelClass → World → List Call → World × List Call × Option Err
  | [], w, calls => (w, calls, none)
  | tc :: rest, w, calls =>
    if tc.Name == newDefault.Name then
      ensureOnlyOneDefault.loop faults newDefault rest w calls
    else if tc.Annotations != none
        && mapIndex tc.Annotations "portal.gosuda.org/is-default-class" == "true" then
      let tc : TunnelClass :=
        { tc with
          Annotations := mapDelete tc.Annotations "portal.gosuda.org/is-default-class" }
      match Client.UpdateTunnelClass faults w tc with
      | Except.error err => (w, calls ++ [Call.UpdateTunnelClass tc], some err)
      | Except.ok w1 =>
        ensureOnlyOneDefault.loop faults newDefault rest w1 (calls ++ [Call.UpdateTunnelClass tc])
    else
      ensureOnlyOneDefault.loop faults newDefault rest w calls

/-- Method `ensureOnlyOneDefault`: the store after the call, the updates issued and the
returned error. -/
def ensureOnlyOneDefault (faults : Faults) (w : World) (newDefault : TunnelClass) :
    World × List Call × Option Err :=
  match Client.ListTunnelClasses faults w with
  | Except.error err => (w, [], some err)
  | Except.ok items => ensureOnlyOneDefault.loop faults newDefault items w []

/-- Method `Reconcile` of `TunnelClassReconciler`. -/
def TunnelClassReconciler.Reconcile (faults : Faults) (w : World) (req : NamespacedName) :
    Outcome :=
  match Client.GetTunnelClass faults w req with
  | Except.error err =>
    if !err.IsNotFound then { world := w, err := some err }
    else { world := w }
  | Except.ok tunnelClass =>
    let isDefault : Bool := tunnelClass.Annotations != none
      && mapIndex tunnelClass.Annotations "portal.gosuda.org/is-default-class" == "true"
    if isDefault then
      match ensureOnlyOneDefault faults w tunnelClass with
      | (w1, calls, some err) => { world := w1, calls := calls, err := some err }
      | (w1, calls, none) => { world := w1, calls := calls }
    else
      { world := w }

/-! ## Abbreviations used in the statements -/

/-- The in-memory exposure after step 3 of `Reconcile` found the service. -/
def serviceFound (clock : Nat → Nat) (portalExpose : PortalExpose) : PortalExpose :=
  { portalExpose with
    Status.Conditions :=
      SetCondition portalExpose.Status.Conditions (clock 0) ConditionServiceExists
        ConditionTrue "ServiceFound" "Service exists" }

/-- The desired workload of step 5 of `Reconcile`: the built workload with the exposure as
its controller owner. -/
def ownedDeployment (portalExpose : PortalExpose) (tunnelClass : TunnelClass) : Deployment :=
  { BuildDeployment portalExpose tunnelClass with
    OwnerReferences :=
      [{ APIVersion := "portal.gosuda.org/v1alpha1", Kind := "PortalExpose",
         Name := portalExpose.Name, Controller := true, BlockOwnerDeletion := true }] }

/-- The schema marker `+kubebuilder:validation:MinItems=1` on `RelaySpec.Targets`. -/
def RelaySpec.MinItems (r : RelaySpec) : Prop := 1 ≤ r.Targets.length

instance (r : RelaySpec) : Decidable r.MinItems := by
  unfold RelaySpec.MinItems; infer_instance

/-- The store after `n` consecutive passes of `Reconcile` for the same request. -/
def ReconcileN (faults : Faults) (clock : Nat → Nat) (w : World) (req : NamespacedName) :
    Nat → World
  | 0 => w
  | n + 1 => ReconcileN faults clock (Reconcile faults clock w req).world req n

/-- A fault oracle under which only the listing of tiers fails, with a connection error. -/
def listFails : Faults := fun op =>
  if op = Op.ListTunnelClasses then some (Err.Other "connection refused") else none

/-- The test for the default marker used by `GetDefaultTunnelClass` and by the tier
controller: the annotation map is set and holds `"true"` under the marker key. -/
def isDefaultClass (tc : TunnelClass) : Bool :=
  tc.Annotations != none && mapIndex tc.Annotations DefaultClassAnnotation == "true"

/-- A tier with the default marker stripped, as `ensureOnlyOneDefault` writes it. -/
def stripDefault (tc : TunnelClass) : TunnelClass :=
  { tc with Annotations := mapDelete tc.Annotations DefaultClassAnnotation }

/-! ## Sample objects used to instantiate the theorems -/

/-- An exposure `web` in namespace `prod` with one relay target, carrying the cleanup
finalizer. -/
def sampleExpose : PortalExpose :=
  { Name := "web", Namespace := "prod",
    Finalizers := [FinalizerName],
    Spec := { App := { Name := "my-app", Service := { Name := "svc", Port := 80 } },
              Relay := { Targets := [{ Name := "r1", URL := "wss://portal.example.org/relay" }] } } }

/-- The sample exposure before the finalizer was added. -/
def sampleExposeFresh : PortalExpose := { sampleExpose with Finalizers := [] }

/-- The sample exposure once marked for deletion. -/
def sampleExposeDeleting : PortalExpose := { sampleExpose with DeletionTimestamp := some 5 }

/-- A default tier with one replica of size `small`. -/
def sampleClass : TunnelClass :=
  { Name := "standard", Namespace := "",
    Annotations := some [( DefaultClassAnnotation, "true")],
    Spec := { Replicas := 1, Size := "small" } }

/-- An older tier that also carries the default marker. -/
def sampleClassOld : TunnelClass :=
  { Name := "legacy", Namespace := "",
    Annotations := some [( DefaultClassAnnotation, "true"), ("team", "net")],
    Spec := { Replicas := 2, Size := "medium" } }

/-- The sample tier stored in namespace `team-a`. -/
def sampleClassTeamA : TunnelClass := { sampleClass with Namespace := "team-a" }

/-- The sample tier stored in namespace `team-b`: same name, another namespace. -/
def sampleClassTeamB : TunnelClass := { sampleClass with Namespace := "team-b" }

/-- A store that holds the two tiers `team-a/standard` and `team-b/standard`, both
carrying the default marker. -/
def sampleWorldTwoNamespaces : World :=
  { TunnelClasses := [sampleClassTeamA, sampleClassTeamB] }

/-- The service the sample exposure refers to. -/
def sampleService : Service := { Name := "svc", Namespace := "prod" }

/-- The live workload of the sample exposure, as built and owned, with one ready pod. -/
def sampleDeployment : Deployment :=
  { BuildDeployment sampleExpose sampleClass with
    OwnerReferences :=
      [{ APIVersion := "portal.gosuda.org/v1alpha1", Kind := "PortalExpose",
         Name := "web", Controller := true, BlockOwnerDeletion := true }],
    Status := { Replicas := 1, UpdatedReplicas := 1, ReadyReplicas := 1 } }

/-- The live workload after an out-of-band edit of its replica count. -/
def sampleDrifted : Deployment :=
  { sampleDeployment with Spec.Replicas := some 3 }

/-- A store holding the sample exposure, its service, the default tier and the given
workloads. -/
def sampleWorld (deployments : List Deployment) : World :=
  { PortalExposes := [sampleExpose], Services := [sampleService],
    TunnelClasses := [sampleClass], Deployments := deployments }

/-- The sample exposure as an earlier steady-state pass left it: phase Ready and the
condition `Available` at True. -/
def sampleExposeWasReady : PortalExpose :=
  { sampleExpose with
    Status :=
      { Phase := "Ready", PublicURL := "https://my-app.portal.example.org",
        TunnelPods := { Ready := 1, Total := 1 },
        Relay := { Connected := [{ Name := "r1", Status := "Connected" }] },
        Conditions :=
          [{ Type_ := "ServiceExists", Status := "True", ObservedGeneration := 0,
             LastTransitionTime := 10, Reason := "ServiceFound", Message := "Service exists" },
           { Type_ := "Available", Status := "True", ObservedGeneration := 0,
             LastTransitionTime := 13, Reason := "PortalExposeAvailable",
             Message := "PortalExpose is available" }] } }

/-- The sample exposure after its owner changed app name, service port and relay target. -/
def sampleExposeEdited : PortalExpose :=
  { sampleExpose with
    Spec := { App := { Name := "renamed", Service := { Name := "svc", Port := 8080 } },
              Relay := { Targets := [{ Name := "r2", URL := "wss://relay.example.com:8443/x" }] } } }

/-- The request key of the sample exposure. -/
def sampleReq : NamespacedName := { Namespace := "prod", Name := "web" }

/-- A clock that reads `100 + k` at the `k`-th reading of a pass. -/
def sampleClock : Nat → Nat := fun k => 100 + k

/-- The priority table of the specification, as a proposition-level decision list:
the first rule whose guard holds gives the phase. -/
def phaseTable (readyPods totalPods connectedRelays totalRelays : Int) : String :=
  if readyPods = totalPods ∧ totalPods > 0 ∧ connectedRelays = totalRelays ∧ totalRelays > 0 then
    "Ready"
  else if readyPods > 0 ∨ connectedRelays > 0 then
    "Degraded"
  else if readyPods = 0 ∧ totalPods > 0 then
    "Pending"
  else
    "Failed"

/-! ## Theorems -/

/-- C1: `ComputePhase` is the priority table Ready / Degraded / Pending / Failed on every
input, so it is total and its value is one of the four (pairwise distinct) phase strings. -/
theorem ComputePhase_table (readyPods totalPods relayConnected totalRelays : Int) :
    ComputePhase readyPods totalPods relayConnected totalRelays
        = phaseTable readyPods totalPods relayConnected totalRelays
      ∧ ComputePhase readyPods totalPods relayConnected totalRelays
        ∈ ["Ready", "Degraded", "Pending", "Failed"]
      ∧ ["Ready", "Degraded", "Pending", "Failed"].Nodup := by
  refine ⟨?_, ?_, by decide⟩
  · unfold ComputePhase phaseTable PhaseReady PhaseDegraded PhasePending PhaseFailed
    by_cases h1 : readyPods = totalPods <;> by_cases h2 : totalPods > 0 <;>
      by_cases h3 : relayConnected = totalRelays <;> by_cases h4 : totalRelays > 0 <;>
      by_cases h5 : readyPods > 0 <;> by_cases h6 : relayConnected > 0 <;>
      by_cases h7 : readyPods = 0 <;> simp [h1, h2, h3, h4, h5, h6, h7]
  · unfold ComputePhase PhaseReady PhaseDegraded PhasePending PhaseFailed
    dsimp only
    split_ifs <;> simp

/-- C2: when the list holds an entry of type `T` (the first one at index `i`),
`SetCondition` overwrites that entry with the new status, reason and message, moves its
`LastTransitionTime` to `now` exactly when the status differs, and leaves the length and
every other entry as they were. -/
theorem SetCondition_existing (conditions : List Condition) (now : Nat)
    (T s r m : String) (i : Nat) (old : Condition)
    (hi : conditions[i]? = some old) (hT : old.Type_ = T)
    (hfirst : ∀ j c, j < i → conditions[j]? = some c → c.Type_ ≠ T) :
    (SetCondition conditions now T s r m).length = conditions.length
      ∧ (SetCondition conditions now T s r m)[i]?
          = some { Type_ := T, Status := s, Reason := r, Message := m,
                   ObservedGeneration := 0,
                   LastTransitionTime :=
                     if old.Status ≠ s then now else old.LastTransitionTime }
      ∧ ∀ j, j ≠ i → (SetCondition conditions now T s r m)[j]? = conditions[j]? := by
  induction conditions generalizing i with
  | nil => simp at hi
  | cons c rest ih =>
    cases i with
    | zero =>
      simp only [List.getElem?_cons_zero, Option.some.injEq] at hi
      subst hi
      simp only [SetCondition, hT, if_true]
      refine ⟨by simp, by simp, ?_⟩
      intro j hj
      cases j with
      | zero => exact absurd rfl hj
      | succ k => simp
    | succ k =>
      have hc : c.Type_ ≠ T := hfirst 0 c (Nat.succ_pos k) (by simp)
      have hi1 : rest[k]? = some old := by simpa using hi
      have hfirst1 : ∀ j c1, j < k → rest[j]? = some c1 → c1.Type_ ≠ T := by
        intro j c1 hj hc1
        exact hfirst (j + 1) c1 (Nat.succ_lt_succ hj) (by simpa using hc1)
      obtain ⟨h1, h2, h3⟩ := ih k hi1 hfirst1
      simp only [SetCondition, hc, if_false]
      refine ⟨by simp [h1], by simpa using h2, ?_⟩
      intro j hj
      cases j with
      | zero => simp
      | succ j1 =>
        have : j1 ≠ k := fun h => hj (by rw [h])
        simpa using h3 j1 this

/-- Witness for C2 on a two-entry list whose second entry has the type that is set. -/
theorem SetCondition_existing_witness :
    (SetCondition
        [{ Type_ := "Available", Status := "True", ObservedGeneration := 3,
           LastTransitionTime := 5, Reason := "a", Message := "b" },
         { Type_ := "Progressing", Status := "True", ObservedGeneration := 2,
           LastTransitionTime := 7, Reason := "c", Message := "d" }]
        9 "Progressing" "False" "r" "m").length = 2
      ∧ (SetCondition
        [{ Type_ := "Available", Status := "True", ObservedGeneration := 3,
           LastTransitionTime := 5, Reason := "a", Message := "b" },
         { Type_ := "Progressing", Status := "True", ObservedGeneration := 2,
           LastTransitionTime := 7, Reason := "c", Message := "d" }]
        9 "Progressing" "False" "r" "m")[1]?
          = some { Type_ := "Progressing", Status := "False", Reason := "r", Message := "m",
                   ObservedGeneration := 0, LastTransitionTime := 9 } := by
  have h := SetCondition_existing
    [{ Type_ := "Available", Status := "True", ObservedGeneration := 3,
       LastTransitionTime := 5, Reason := "a", Message := "b" },
     { Type_ := "Progressing", Status := "True", ObservedGeneration := 2,
       LastTransitionTime := 7, Reason := "c", Message := "d" }]
    9 "Progressing" "False" "r" "m" 1
    { Type_ := "Progressing", Status := "True", ObservedGeneration := 2,
      LastTransitionTime := 7, Reason := "c", Message := "d" }
    (by decide) (by decide)
    (by
      intro j c hj hc
      have hj0 : j = 0 := by omega
      subst hj0
      simp only [List.getElem?_cons_zero, Option.some.injEq] at hc
      subst hc
      decide)
  refine ⟨h.1, ?_⟩
  have h2 := h.2.1
  simpa using h2

/-! ### The deletion and finalizer protocols -/

/-- An object found under a key carries that key. -/
theorem keyOf_eq_of_hasKey (key : NamespacedName) (obj : ObjectMeta)
    (h : hasKey key obj = true) : keyOf obj = key := by
  cases key
  simp only [hasKey, Bool.and_eq_true, beq_iff_eq] at h
  simp [keyOf, h.1, h.2]

/-- A successful lookup of a workload returns a stored object with the requested key. -/
theorem GetDeployment_ok (faults : Faults) (w : World) (key : NamespacedName)
    (d : Deployment) (h : Client.GetDeployment faults w key = Except.ok d) :
    faults Op.GetDeployment = none ∧ d ∈ w.Deployments ∧ hasKey key d.toObjectMeta = true := by
  unfold Client.GetDeployment at h
  cases hf : faults Op.GetDeployment with
  | some e => simp [hf] at h
  | none =>
    simp only [hf] at h
    cases hfind : w.Deployments.find? (fun o => hasKey key o.toObjectMeta) with
    | none => simp [hfind] at h
    | some obj =>
      simp only [hfind, Except.ok.injEq] at h
      subst h
      exact ⟨rfl, List.mem_of_find?_eq_some hfind, by simpa using List.find?_some hfind⟩

/-- C3: in a pass for an exposure that is marked for deletion and carries the cleanup
finalizer, `Reconcile` runs `handleDeletion`; if the lookup of `{name}-tunnel` finds the
workload, the pass issues exactly one call, the deletion of that workload, writes no
exposure (the finalizer stays) and, when the deletion succeeds, erases the workload and
returns requeue; and whenever a pass issues the exposure update that drops the finalizer,
the lookup of the workload in that pass reported not-found. -/
theorem handleDeletion_two_pass (faults : Faults) (clock : Nat → Nat) (w : World)
    (req : NamespacedName) (pe : PortalExpose)
    (hget : Client.GetPortalExpose faults w req = Except.ok pe)
    (hdel : Time.IsZero pe.DeletionTimestamp = false)
    (hfin : HasFinalizer pe.toObjectMeta FinalizerName = true) :
    Reconcile faults clock w req = handleDeletion faults w pe
      ∧ (∀ d, Client.GetDeployment faults w
              { Name := pe.Name ++ "-tunnel", Namespace := pe.Namespace } = Except.ok d →
          (handleDeletion faults w pe).calls = [Call.DeleteDeployment d]
            ∧ (handleDeletion faults w pe).world.PortalExposes = w.PortalExposes
            ∧ (faults Op.DeleteDeployment = none →
                (handleDeletion faults w pe).result.Requeue = true
                  ∧ (handleDeletion faults w pe).err = none
                  ∧ (handleDeletion faults w pe).panic = none
                  ∧ (handleDeletion faults w pe).world.Deployments
                      = w.Deployments.filter (fun o =>
                          !hasKey { Name := pe.Name ++ "-tunnel", Namespace := pe.Namespace }
                            o.toObjectMeta)))
      ∧ (∀ x, Call.UpdatePortalExpose x ∈ (handleDeletion faults w pe).calls →
          x = { pe with toObjectMeta := (RemoveFinalizer pe.toObjectMeta FinalizerName).1 }
            ∧ FinalizerName ∉ x.Finalizers
            ∧ ∃ err, Client.GetDeployment faults w
                  { Name := pe.Name ++ "-tunnel", Namespace := pe.Namespace } = Except.error err
                ∧ err.IsNotFound = true) := by
  refine ⟨?_, ?_, ?_⟩
  · unfold Reconcile
    simp [hget, hdel]
  · intro d hd
    obtain ⟨_, hmem, hkey⟩ := GetDeployment_ok faults w _ d hd
    have hk := keyOf_eq_of_hasKey _ _ hkey
    unfold handleDeletion
    simp only [hfin, hd, Bool.not_true, Bool.false_eq_true, if_false]
    cases hD : Client.DeleteDeployment faults w d with
    | error e =>
      refine ⟨rfl, rfl, ?_⟩
      intro hnf
      unfold Client.DeleteDeployment at hD
      have hany : (w.Deployments.any fun o => hasKey (keyOf d.toObjectMeta) o.toObjectMeta)
          = true := by
        rw [hk]
        exact List.any_eq_true.mpr ⟨d, hmem, hkey⟩
      simp [hnf, hany] at hD
    | ok w1 =>
      refine ⟨rfl, ?_, ?_⟩
      · unfold Client.DeleteDeployment at hD
        cases hf : faults Op.DeleteDeployment with
        | some e => simp [hf] at hD
        | none =>
          simp only [hf] at hD
          split at hD
          · simp only [Except.ok.injEq] at hD
            subst hD
            rfl
          · simp at hD
      · intro hnf
        unfold Client.DeleteDeployment at hD
        simp only [hnf] at hD
        split at hD
        · simp only [Except.ok.injEq] at hD
          subst hD
          rw [hk]
          exact ⟨rfl, rfl, rfl, rfl⟩
        · simp at hD
  · intro x hx
    unfold handleDeletion at hx
    simp only [hfin, Bool.not_true, Bool.false_eq_true, if_false] at hx
    cases hG : Client.GetDeployment faults w
        { Name := pe.Name ++ "-tunnel", Namespace := pe.Namespace } with
    | ok d =>
      simp only [hG] at hx
      cases hD : Client.DeleteDeployment faults w d <;> simp [hD] at hx
    | error err =>
      simp only [hG] at hx
      cases hnf : err.IsNotFound with
      | false => simp [hnf] at hx
      | true =>
        simp only [hnf, Bool.not_true, Bool.false_eq_true, if_false] at hx
        have hx1 : x = { pe with
            toObjectMeta := (RemoveFinalizer pe.toObjectMeta FinalizerName).1 } := by
          cases hU : Client.UpdatePortalExpose faults w
              { pe with toObjectMeta := (RemoveFinalizer pe.toObjectMeta FinalizerName).1 } with
          | error e => simpa [hU] using hx
          | ok w1 => simpa [hU] using hx
        refine ⟨hx1, ?_, err, rfl, hnf⟩
        subst hx1
        have hc : ContainsFinalizer pe.toObjectMeta FinalizerName = true := hfin
        simp [RemoveFinalizer, hc]

/-- Witness for C3: the sample exposure, marked for deletion, with its workload alive. -/
theorem handleDeletion_two_pass_witness :
    (handleDeletion noFaults
        { Deployments := [sampleDeployment], PortalExposes := [sampleExposeDeleting] }
        sampleExposeDeleting).calls = [Call.DeleteDeployment sampleDeployment]
      ∧ (handleDeletion noFaults
        { Deployments := [sampleDeployment], PortalExposes := [sampleExposeDeleting] }
        sampleExposeDeleting).result.Requeue = true := by
  have h := handleDeletion_two_pass noFaults sampleClock
    { Deployments := [sampleDeployment], PortalExposes := [sampleExposeDeleting] }
    sampleReq sampleExposeDeleting rfl (by decide) (by decide)
  have h2 := h.2.1 sampleDeployment rfl
  exact ⟨h2.1, (h2.2.2 rfl).1⟩

/-- A successful fetch of an exposure returns the first stored object with the key. -/
theorem GetPortalExpose_ok (faults : Faults) (w : World) (key : NamespacedName)
    (pe : PortalExpose) (h : Client.GetPortalExpose faults w key = Except.ok pe) :
    faults Op.GetPortalExpose = none
      ∧ w.PortalExposes.find? (fun o => hasKey key o.toObjectMeta) = some pe
      ∧ hasKey key pe.toObjectMeta = true := by
  unfold Client.GetPortalExpose at h
  cases hf : faults Op.GetPortalExpose with
  | some e => simp [hf] at h
  | none =>
    simp only [hf] at h
    cases hfind : w.PortalExposes.find? (fun o => hasKey key o.toObjectMeta) with
    | none => simp [hfind] at h
    | some obj =>
      simp only [hfind, Except.ok.injEq] at h
      subst h
      exact ⟨rfl, rfl, by simpa using List.find?_some hfind⟩

/-- The deletion protocol never creates a workload. -/
theorem handleDeletion_no_create (faults : Faults) (w : World) (pe : PortalExpose)
    (d : Deployment) : Call.CreateDeployment d ∉ (handleDeletion faults w pe).calls := by
  unfold handleDeletion
  dsimp only
  split
  · simp
  · split
    · split
      · simp
      · split <;> simp
    · split <;> simp

/-- Reading back an exposure after an update that does not finish its deletion. -/
theorem find_after_update (l : List PortalExpose) (key : NamespacedName)
    (pe obj : PortalExpose)
    (hfind : l.find? (fun o => hasKey key o.toObjectMeta) = some pe)
    (hkey : keyOf obj.toObjectMeta = key)
    (hlive : (!Time.IsZero obj.DeletionTimestamp && obj.Finalizers.isEmpty) = false) :
    (l.filterMap (fun o =>
        if hasKey (keyOf obj.toObjectMeta) o.toObjectMeta then
          if !Time.IsZero obj.DeletionTimestamp && obj.Finalizers.isEmpty then none
          else some { obj with Status := o.Status }
        else some o)).find? (fun o => hasKey key o.toObjectMeta)
      = some { obj with Status := pe.Status } := by
  have hobj : hasKey key obj.toObjectMeta = true := by
    rw [← hkey]; simp [hasKey, keyOf]
  induction l with
  | nil => simp at hfind
  | cons a rest ih =>
    rw [hkey]
    by_cases ha : hasKey key a.toObjectMeta = true
    · have hpe : a = pe := by simpa [List.find?, ha] using hfind
      subst hpe
      simp only [List.filterMap_cons, ha, hlive, if_true, Bool.false_eq_true, if_false,
        List.find?_cons, hobj]
    · have hrest : rest.find? (fun o => hasKey key o.toObjectMeta) = some pe := by
        simpa [List.find?, ha] using hfind
      have := ih hrest
      rw [hkey] at this
      simp only [Bool.not_eq_true] at ha
      simp only [List.filterMap_cons, ha, Bool.false_eq_true, if_false, List.find?_cons, this]

/-- C4: in a pass for an exposure that is not marked for deletion and lacks the cleanup
finalizer, `Reconcile` issues exactly one call, the update of the exposure with the
finalizer appended; no workload is touched and no stored status changes; when the update
succeeds the pass returns requeue and the stored exposure carries the finalizer. And in
every pass, a workload creation implies that the fetched exposure already carried the
finalizer. -/
theorem Reconcile_finalizer_first (faults : Faults) (clock : Nat → Nat) (w : World)
    (req : NamespacedName) (pe : PortalExpose)
    (hget : Client.GetPortalExpose faults w req = Except.ok pe)
    (hdel : Time.IsZero pe.DeletionTimestamp = true)
    (hfin : HasFinalizer pe.toObjectMeta FinalizerName = false) :
    (Reconcile faults clock w req).calls
        = [Call.UpdatePortalExpose { pe with Finalizers := pe.Finalizers ++ [FinalizerName] }]
      ∧ (Reconcile faults clock w req).world.Deployments = w.Deployments
      ∧ (Reconcile faults clock w req).world.PortalExposes.map (fun o => o.Status)
          = w.PortalExposes.map (fun o => o.Status)
      ∧ (Reconcile faults clock w req).panic = none
      ∧ (faults Op.UpdatePortalExpose = none →
          (Reconcile faults clock w req).result.Requeue = true
            ∧ (Reconcile faults clock w req).err = none
            ∧ Client.GetPortalExpose faults (Reconcile faults clock w req).world req
                = Except.ok { pe with Finalizers := pe.Finalizers ++ [FinalizerName] })
      ∧ (∀ (faults1 : Faults) (clock1 : Nat → Nat) (w1 : World) (req1 : NamespacedName)
          (d : Deployment),
          Call.CreateDeployment d ∈ (Reconcile faults1 clock1 w1 req1).calls →
          ∃ pe1, Client.GetPortalExpose faults1 w1 req1 = Except.ok pe1
            ∧ HasFinalizer pe1.toObjectMeta FinalizerName = true) := by
  obtain ⟨hgf, hfind, hkey⟩ := GetPortalExpose_ok faults w req pe hget
  have hk := keyOf_eq_of_hasKey _ _ hkey
  have hc : ContainsFinalizer pe.toObjectMeta FinalizerName = false := hfin
  have hadd : ({ pe with toObjectMeta := (AddFinalizer pe.toObjectMeta FinalizerName).1 }
      : PortalExpose) = { pe with Finalizers := pe.Finalizers ++ [FinalizerName] } := by
    simp [AddFinalizer, hc]
  have hany : (w.PortalExposes.any fun o => hasKey req o.toObjectMeta) = true :=
    List.any_eq_true.mpr ⟨pe, List.mem_of_find?_eq_some hfind, hkey⟩
  have hlive : (!Time.IsZero pe.DeletionTimestamp && (pe.Finalizers ++ [FinalizerName]).isEmpty)
      = false := by simp [hdel]
  have hR : Reconcile faults clock w req
      = match Client.UpdatePortalExpose faults w
            { pe with Finalizers := pe.Finalizers ++ [FinalizerName] } with
        | Except.error err =>
          { world := w,
            calls := [Call.UpdatePortalExpose
              { pe with Finalizers := pe.Finalizers ++ [FinalizerName] }],
            err := some err }
        | Except.ok w1 =>
          { world := w1,
            calls := [Call.UpdatePortalExpose
              { pe with Finalizers := pe.Finalizers ++ [FinalizerName] }],
            result := { Requeue := true } } := by
    unfold Reconcile
    simp only [hget, hdel, hfin, hadd, Bool.not_true, Bool.not_false, Bool.false_eq_true,
      if_false, if_true]
  refine ⟨?_, ?_, ?_, ?_, ?_, ?_⟩
  · rw [hR]; split <;> rfl
  · rw [hR]
    split
    · rfl
    · rename_i w1 hU
      unfold Client.UpdatePortalExpose at hU
      split at hU
      · simp at hU
      · split at hU
        · simp only [Except.ok.injEq] at hU
          subst hU
          rfl
        · simp at hU
  · rw [hR]
    split
    · rfl
    · rename_i w1 hU
      unfold Client.UpdatePortalExpose at hU
      split at hU
      · simp at hU
      · split at hU
        · simp only [Except.ok.injEq] at hU
          subst hU
          simp only [keyOf, hdel, Bool.not_true, Bool.false_and, Bool.false_eq_true, if_false]
          generalize w.PortalExposes = l
          induction l with
          | nil => rfl
          | cons a rest ih =>
            by_cases ha : hasKey { Namespace := pe.Namespace, Name := pe.Name } a.toObjectMeta
                = true
            · simp [List.filterMap_cons, ha, ih]
            · simp only [Bool.not_eq_true] at ha
              simp [List.filterMap_cons, ha, ih]
        · simp at hU
  · rw [hR]; split <;> rfl
  · intro hnf
    have hU : Client.UpdatePortalExpose faults w
        { pe with Finalizers := pe.Finalizers ++ [FinalizerName] }
        = Except.ok { w with PortalExposes := w.PortalExposes.filterMap (fun o =>
            if hasKey (keyOf ({ pe with Finalizers := pe.Finalizers ++ [FinalizerName] }
                : PortalExpose).toObjectMeta) o.toObjectMeta then
              if !Time.IsZero pe.DeletionTimestamp
                  && (pe.Finalizers ++ [FinalizerName]).isEmpty then none
              else some { ({ pe with Finalizers := pe.Finalizers ++ [FinalizerName] }
                  : PortalExpose) with Status := o.Status }
            else some o) } := by
      unfold Client.UpdatePortalExpose
      have hk2 : keyOf ({ pe with Finalizers := pe.Finalizers ++ [FinalizerName] }
          : PortalExpose).toObjectMeta = req := hk
      simp only [hnf, hk2, hany, if_true]
    rw [hR, hU]
    refine ⟨rfl, rfl, ?_⟩
    unfold Client.GetPortalExpose
    simp only [hgf]
    have := find_after_update w.PortalExposes req pe
      { pe with Finalizers := pe.Finalizers ++ [FinalizerName] } hfind hk hlive
    simp only at this
    rw [this]
  · intro faults1 clock1 w1 req1 d hmem
    unfold Reconcile at hmem
    cases hG : Client.GetPortalExpose faults1 w1 req1 with
    | error e =>
      simp only [hG] at hmem
      split at hmem <;> simp at hmem
    | ok pe1 =>
      simp only [hG] at hmem
      cases hz : Time.IsZero pe1.DeletionTimestamp with
      | false =>
        simp only [hz, Bool.not_false, if_true] at hmem
        exact absurd hmem (handleDeletion_no_create faults1 w1 pe1 d)
      | true =>
        simp only [hz, Bool.not_true, Bool.false_eq_true, if_false] at hmem
        cases hf1 : HasFinalizer pe1.toObjectMeta FinalizerName with
        | false =>
          simp only [hf1, Bool.not_false, if_true] at hmem
          split at hmem <;> simp at hmem
        | true => exact ⟨pe1, rfl, hf1⟩

/-- Witness for C4: the first pass over the freshly created sample exposure. -/
theorem Reconcile_finalizer_first_witness :
    (Reconcile noFaults sampleClock
        { PortalExposes := [sampleExposeFresh], Services := [sampleService],
          TunnelClasses := [sampleClass] } sampleReq).calls
        = [Call.UpdatePortalExpose sampleExpose]
      ∧ (Reconcile noFaults sampleClock
        { PortalExposes := [sampleExposeFresh], Services := [sampleService],
          TunnelClasses := [sampleClass] } sampleReq).result.Requeue = true := by
  have h := Reconcile_finalizer_first noFaults sampleClock
    { PortalExposes := [sampleExposeFresh], Services := [sampleService],
      TunnelClasses := [sampleClass] } sampleReq sampleExposeFresh rfl (by decide) (by decide)
  exact ⟨h.1, (h.2.2.2.2.1 rfl).1⟩

/-! ### The workload synthesizer -/

/-- The argument loop of `BuildDeployment` appends one `--relay url` pair per target. -/
theorem relay_args_foldl (targets : List RelayTarget) (init : List String) :
    targets.foldl (fun args target => args ++ ["--relay", target.URL]) init
      = init ++ targets.flatMap (fun t => ["--relay", t.URL]) := by
  induction targets generalizing init with
  | nil => simp
  | cons t rest ih => simp [List.foldl_cons, ih, List.flatMap_cons]

/-- The pairs produced for the targets sit at the even and odd offsets. -/
theorem relay_args_getElem (targets : List RelayTarget) (i : Nat) (t : RelayTarget)
    (h : targets[i]? = some t) :
    (targets.flatMap (fun t => ["--relay", t.URL]))[2 * i]? = some "--relay"
      ∧ (targets.flatMap (fun t => ["--relay", t.URL]))[2 * i + 1]? = some t.URL := by
  induction targets generalizing i with
  | nil => simp at h
  | cons a rest ih =>
    cases i with
    | zero =>
      simp only [List.getElem?_cons_zero, Option.some.injEq] at h
      subst h
      simp [List.flatMap_cons]
    | succ k =>
      have hk : rest[k]? = some t := by simpa using h
      obtain ⟨h1, h2⟩ := ih k hk
      have e1 : 2 * (k + 1) = (2 * k) + 1 + 1 := by ring
      have e2 : 2 * (k + 1) + 1 = (2 * k + 1) + 1 + 1 := by ring
      constructor
      · rw [e1]; simpa [List.flatMap_cons] using h1
      · rw [e2]; simpa [List.flatMap_cons] using h2

/-- C5: the single container built by `BuildDeployment` has as arguments the seven fixed
words (`expose`, `--name` app name, `--host` service DNS name, `--port` decimal port)
followed by `--relay url` for each relay target in declaration order, `7 + 2n` words for
`n` targets, ending in `--relay` and the last target's URL when there is a target. -/
theorem BuildDeployment_args (portalExpose : PortalExpose) (tunnelClass : TunnelClass) :
    ∃ c, (BuildDeployment portalExpose tunnelClass).Spec.Template.Spec.Containers = [c]
      ∧ c.Args
          = ["expose", "--name", portalExpose.Spec.App.Name,
             "--host", portalExpose.Spec.App.Service.Name ++ "." ++ portalExpose.Namespace
                ++ ".svc.cluster.local",
             "--port", toString portalExpose.Spec.App.Service.Port]
            ++ portalExpose.Spec.Relay.Targets.flatMap (fun t => ["--relay", t.URL])
      ∧ c.Args.length = 7 + 2 * portalExpose.Spec.Relay.Targets.length
      ∧ (∀ i t, portalExpose.Spec.Relay.Targets[i]? = some t →
          c.Args[7 + 2 * i]? = some "--relay" ∧ c.Args[7 + 2 * i + 1]? = some t.URL)
      ∧ (∀ front last, portalExpose.Spec.Relay.Targets = front ++ [last] →
          ∃ before, c.Args = before ++ ["--relay", last.URL]) := by
  have hargs : ∀ c, (BuildDeployment portalExpose tunnelClass).Spec.Template.Spec.Containers
      = [c] → c.Args
          = ["expose", "--name", portalExpose.Spec.App.Name,
             "--host", portalExpose.Spec.App.Service.Name ++ "." ++ portalExpose.Namespace
                ++ ".svc.cluster.local",
             "--port", toString portalExpose.Spec.App.Service.Port]
            ++ portalExpose.Spec.Relay.Targets.flatMap (fun t => ["--relay", t.URL]) := by
    intro c hc
    simp only [BuildDeployment, List.cons.injEq, and_true] at hc
    subst hc
    simp only [relay_args_foldl, Sprintf_d]
  refine ⟨_, rfl, hargs _ rfl, ?_, ?_, ?_⟩
  · rw [hargs _ rfl]
    have : ∀ l : List RelayTarget,
        (l.flatMap (fun t => ["--relay", t.URL])).length = 2 * l.length := by
      intro l
      induction l with
      | nil => rfl
      | cons a rest ih => simp [List.flatMap_cons, ih]; ring
    simp only [List.length_append, this, List.length_cons, List.length_nil]
  · intro i t ht
    rw [hargs _ rfl]
    obtain ⟨h1, h2⟩ := relay_args_getElem _ i t ht
    constructor
    · rw [List.getElem?_append_right (by simp)]
      simpa using h1
    · rw [List.getElem?_append_right (by simp; omega)]
      have : 7 + 2 * i + 1 - 7 = 2 * i + 1 := by omega
      simpa [this] using h2
  · intro front last hlast
    rw [hargs _ rfl, hlast]
    refine ⟨["expose", "--name", portalExpose.Spec.App.Name,
             "--host", portalExpose.Spec.App.Service.Name ++ "." ++ portalExpose.Namespace
                ++ ".svc.cluster.local",
             "--port", toString portalExpose.Spec.App.Service.Port]
            ++ front.flatMap (fun t => ["--relay", t.URL]), ?_⟩
    simp [List.flatMap_append]

/-- Witness for C5: the arguments built for the sample exposure. -/
theorem BuildDeployment_args_witness :
    ∃ c, (BuildDeployment sampleExpose sampleClass).Spec.Template.Spec.Containers = [c]
      ∧ c.Args = ["expose", "--name", "my-app", "--host", "svc.prod.svc.cluster.local",
                  "--port", "80", "--relay", "wss://portal.example.org/relay"] := by
  obtain ⟨c, hc, hargs, _⟩ := BuildDeployment_args sampleExpose sampleClass
  refine ⟨c, hc, ?_⟩
  rw [hargs]
  decide

/-! ### The public URL -/

/-- The host of a `wss://host[/path]` URL is the capture group of the pattern. -/
theorem FindStringSubmatch_wss (host rest : List Char) (hne : host ≠ [])
    (hslash : '/' ∉ host) (hrest : rest = [] ∨ rest.head? = some '/') :
    FindStringSubmatch ("wss://".data ++ host ++ rest) = ["wss://".data ++ host, host] := by
  have hpre : "wss://".data.isPrefixOf ("wss://".data ++ host ++ rest) = true := by
    rw [List.isPrefixOf_iff_prefix, List.append_assoc]
    exact List.prefix_append _ _
  have hdrop : ("wss://".data ++ host ++ rest).drop "wss://".data.length = host ++ rest := by
    rw [List.append_assoc, List.drop_left]
  have hall : ∀ a ∈ host, (fun c : Char => c != '/') a = true := by
    intro a ha
    have : a ≠ '/' := fun h => hslash (h ▸ ha)
    simpa using this
  have htake : (host ++ rest).takeWhile (fun c => c != '/') = host := by
    rw [List.takeWhile_append_of_pos hall]
    rcases hrest with h | h
    · simp [h]
    · cases rest with
      | nil => simp
      | cons c cs =>
        simp only [List.head?_cons, Option.some.injEq] at h
        subst h
        simp [List.takeWhile_cons]
  unfold FindStringSubmatch
  simp only [hpre, if_true, hdrop, htake]
  have : host.isEmpty = false := by
    cases host with
    | nil => exact absurd rfl hne
    | cons a l => rfl
  simp [this]

/-- C6: for a relay URL `wss://host` followed by nothing or by a path starting with `/`,
where `host` is non-empty and has no `/`, `ConstructPublicURL` returns
`https://appName.host`, whatever the path is. -/
theorem ConstructPublicURL_wss (appName host rest : String)
    (hne : host ≠ "") (hslash : '/' ∉ host.data)
    (hrest : rest = "" ∨ rest.data.head? = some '/') :
    ConstructPublicURL appName ("wss://" ++ host ++ rest)
      = "https://" ++ appName ++ "." ++ host := by
  have hne1 : host.data ≠ [] := by
    intro h
    apply hne
    exact String.ext h
  have hrest1 : rest.data = [] ∨ rest.data.head? = some '/' := by
    rcases hrest with h | h
    · left; rw [h]
    · right; exact h
  have hfound := FindStringSubmatch_wss host.data rest.data hne1 hslash hrest1
  unfold ConstructPublicURL
  simp only [String.data_append, hfound]
  simp

/-- Witness for C6: the URL of the specification's first example. -/
theorem ConstructPublicURL_wss_witness :
    ConstructPublicURL "my-app" ("wss://" ++ "portal.example.org" ++ "/relay")
      = "https://" ++ "my-app" ++ "." ++ "portal.example.org" :=
  ConstructPublicURL_wss "my-app" "portal.example.org" "/relay" (by decide) (by decide)
    (Or.inr (by decide))

/-! ### The resource table -/

/-- C7: `GetResourcesForSize` is the table small / medium / large of the specification,
every other size string gives the `small` row, and the container built by
`BuildDeployment` gets the row of the tier's size. -/
theorem GetResourcesForSize_table :
    GetResourcesForSize "small"
        = { Requests := { cpu := some { milli := 100, format := Format.DecimalSI },
                          memory := some { milli := 128 * 1048576 * 1000,
                                           format := Format.BinarySI } },
            Limits := { cpu := some { milli := 500, format := Format.DecimalSI },
                        memory := some { milli := 512 * 1048576 * 1000,
                                         format := Format.BinarySI } } }
      ∧ GetResourcesForSize "medium"
        = { Requests := { cpu := some { milli := 250, format := Format.DecimalSI },
                          memory := some { milli := 256 * 1048576 * 1000,
                                           format := Format.BinarySI } },
            Limits := { cpu := some { milli := 1000, format := Format.DecimalSI },
                        memory := some { milli := 1 * 1073741824 * 1000,
                                         format := Format.BinarySI } } }
      ∧ GetResourcesForSize "large"
        = { Requests := { cpu := some { milli := 500, format := Format.DecimalSI },
                          memory := some { milli := 512 * 1048576 * 1000,
                                           format := Format.BinarySI } },
            Limits := { cpu := some { milli := 2000, format := Format.DecimalSI },
                        memory := some { milli := 2 * 1073741824 * 1000,
                                         format := Format.BinarySI } } }
      ∧ (∀ size : String, ¬ (size = "small" ∨ size = "medium" ∨ size = "large") →
          GetResourcesForSize size = GetResourcesForSize "small")
      ∧ GetResourcesForSize "" = GetResourcesForSize "small"
      ∧ (∀ (portalExpose : PortalExpose) (tunnelClass : TunnelClass),
          ∃ c, (BuildDeployment portalExpose tunnelClass).Spec.Template.Spec.Containers = [c]
            ∧ c.Resources = GetResourcesForSize tunnelClass.Spec.Size) := by
  have hother : ∀ size : String, ¬ (size = "small" ∨ size = "medium" ∨ size = "large") →
      GetResourcesForSize size = GetResourcesForSize "small" := by
    intro size h
    have h1 : size ≠ "small" := fun e => h (Or.inl e)
    have h2 : size ≠ "medium" := fun e => h (Or.inr (Or.inl e))
    have h3 : size ≠ "large" := fun e => h (Or.inr (Or.inr e))
    rw [GetResourcesForSize]
    simp [h1, h2, h3]
  refine ⟨?_, ?_, ?_, hother, hother "" (by decide), ?_⟩
  · rw [GetResourcesForSize]
    simp [MustParse_m, MustParse_Mi]
  · rw [GetResourcesForSize]
    simp [MustParse_m, MustParse_Mi, MustParse_Gi]
  · rw [GetResourcesForSize]
    simp [MustParse_m, MustParse_Mi, MustParse_Gi]
  · intro portalExpose tunnelClass
    exact ⟨_, rfl, rfl⟩

/-! ### Conditions: lookup after `SetCondition` -/

/-- After `SetCondition` for type `T`, the first entry of type `T` carries the new
status, reason and message. -/
theorem FindCondition_SetCondition_same (l : List Condition) (now : Nat)
    (T s r m : String) :
    FindCondition (SetCondition l now T s r m) T
      = some { Type_ := T, Status := s, Reason := r, Message := m, ObservedGeneration := 0,
               LastTransitionTime :=
                 match FindCondition l T with
                 | some c => if c.Status ≠ s then now else c.LastTransitionTime
                 | none => now } := by
  induction l with
  | nil => simp [SetCondition, FindCondition]
  | cons c rest ih =>
    by_cases hc : c.Type_ = T
    · simp [SetCondition, FindCondition, hc]
    · simp [SetCondition, FindCondition, hc, ih]

/-- `SetCondition` for another type does not change what `FindCondition` returns. -/
theorem FindCondition_SetCondition_other (l : List Condition) (now : Nat)
    (T T1 s r m : String) (hne : T ≠ T1) :
    FindCondition (SetCondition l now T1 s r m) T = FindCondition l T := by
  induction l with
  | nil => simp [SetCondition, FindCondition, Ne.symm hne]
  | cons c rest ih =>
    by_cases hc1 : c.Type_ = T1
    · have hc : c.Type_ ≠ T := fun h => hne (h ▸ hc1)
      simp [SetCondition, FindCondition, hc1, Ne.symm hne]
    · by_cases hc : c.Type_ = T
      · subst hc
        simp [SetCondition, FindCondition, hc1]
      · simp [SetCondition, FindCondition, hc1, hc, ih]

/-- The status that `IsConditionTrue` reads after `SetCondition` for the same type. -/
theorem IsConditionTrue_SetCondition_same (l : List Condition) (now : Nat)
    (T s r m : String) :
    IsConditionTrue (SetCondition l now T s r m) T = (s == ConditionTrue) := by
  simp [IsConditionTrue, FindCondition_SetCondition_same]

/-! ### Store lemmas -/

/-- A status write on which no fault falls succeeds, is read back under the key, and
touches no other kind of object. -/
theorem StatusUpdate_ok (faults : Faults) (w : World) (key : NamespacedName)
    (pe obj : PortalExpose)
    (hfind : w.PortalExposes.find? (fun o => hasKey key o.toObjectMeta) = some pe)
    (hkey : keyOf obj.toObjectMeta = key)
    (hnf : faults Op.StatusUpdatePortalExpose = none) :
    ∃ w1, Client.StatusUpdate faults w obj = Except.ok w1
      ∧ w1.PortalExposes.find? (fun o => hasKey key o.toObjectMeta)
          = some { pe with Status := obj.Status }
      ∧ w1.Deployments = w.Deployments ∧ w1.Services = w.Services
      ∧ w1.TunnelClasses = w.TunnelClasses := by
  have hmem := List.mem_of_find?_eq_some hfind
  have hk : hasKey key pe.toObjectMeta = true := by simpa using List.find?_some hfind
  have hany : (w.PortalExposes.any fun o => hasKey key o.toObjectMeta) = true :=
    List.any_eq_true.mpr ⟨pe, hmem, hk⟩
  unfold Client.StatusUpdate
  simp only [hnf, hkey, hany, if_true]
  refine ⟨_, rfl, ?_, rfl, rfl, rfl⟩
  simp only
  generalize w.PortalExposes = l at hfind
  induction l with
  | nil => simp at hfind
  | cons a rest ih =>
    by_cases ha : hasKey key a.toObjectMeta = true
    · have hpe : a = pe := by simpa [List.find?, ha] using hfind
      subst hpe
      simp only [List.map_cons, ha, if_true, List.find?_cons]
    · have hrest : rest.find? (fun o => hasKey key o.toObjectMeta) = some pe := by
        simpa [List.find?, ha] using hfind
      simp only [Bool.not_eq_true] at ha
      simp only [List.map_cons, ha, Bool.false_eq_true, if_false, List.find?_cons, ih hrest]

/-! ### The main path of `Reconcile` -/

/-- With the exposure fetched, not marked for deletion and carrying the finalizer, the
service found and the tier resolved, `Reconcile` reaches the workload step. -/
theorem Reconcile_main_path (faults : Faults) (clock : Nat → Nat) (w : World)
    (req : NamespacedName) (pe : PortalExpose) (svc : Service) (tc : TunnelClass)
    (hget : Client.GetPortalExpose faults w req = Except.ok pe)
    (hdel : Time.IsZero pe.DeletionTimestamp = true)
    (hfin : HasFinalizer pe.toObjectMeta FinalizerName = true)
    (hsvc : Client.GetService faults w
      { Name := pe.Spec.App.Service.Name, Namespace := pe.Namespace } = Except.ok svc)
    (htc : GetTunnelClass faults w pe.Spec.TunnelClassName = Except.ok tc) :
    Reconcile faults clock w req
      = Reconcile.reconcileDeployment faults clock w (serviceFound clock pe) tc := by
  unfold Reconcile
  simp only [hget, hdel, hfin, hsvc, Bool.not_true, Bool.false_eq_true, if_false]
  unfold Reconcile.resolveClass resolveTunnelClass
  simp only [htc]
  rfl

/-- The workload step when the live workload is found: the outcome is decided by
`deploymentSpecEqual` on the live and the desired workload. -/
theorem reconcileDeployment_found (faults : Faults) (clock : Nat → Nat) (w : World)
    (pe1 : PortalExpose) (tc : TunnelClass) (existing : Deployment)
    (hown : faults Op.SetControllerReference = none)
    (hlive : Client.GetDeployment faults w
      { Name := pe1.Name ++ "-tunnel", Namespace := pe1.Namespace } = Except.ok existing) :
    Reconcile.reconcileDeployment faults clock w pe1 tc
      = match deploymentSpecEqual existing (ownedDeployment pe1 tc) with
        | none =>
          { world := w, panic := some "invalid memory address or nil pointer dereference" }
        | some false =>
          match Client.UpdateDeployment faults w
              { existing with Spec := (ownedDeployment pe1 tc).Spec } with
          | Except.error err =>
            { world := w,
              calls := [Call.UpdateDeployment
                { existing with Spec := (ownedDeployment pe1 tc).Spec }],
              err := some err }
          | Except.ok w1 =>
            match Client.StatusUpdate faults w1
                { pe1 with
                  Status.Conditions :=
                    SetCondition pe1.Status.Conditions (clock 1) ConditionProgressing
                      ConditionTrue "DeploymentUpdating" "Rolling update in progress" } with
            | Except.error err =>
              { world := w1,
                calls := [Call.UpdateDeployment
                            { existing with Spec := (ownedDeployment pe1 tc).Spec },
                          Call.StatusUpdate
                            { pe1 with
                              Status.Conditions :=
                                SetCondition pe1.Status.Conditions (clock 1)
                                  ConditionProgressing ConditionTrue "DeploymentUpdating"
                                  "Rolling update in progress" }],
                err := some err }
            | Except.ok w2 =>
              { world := w2,
                calls := [Call.UpdateDeployment
                            { existing with Spec := (ownedDeployment pe1 tc).Spec },
                          Call.StatusUpdate
                            { pe1 with
                              Status.Conditions :=
                                SetCondition pe1.Status.Conditions (clock 1)
                                  ConditionProgressing ConditionTrue "DeploymentUpdating"
                                  "Rolling update in progress" }],
                result := { Requeue := true } }
        | some true => Reconcile.computeStatus faults clock w pe1 tc existing := by
  have hlive1 : Client.GetDeployment faults w
      { Name := (ownedDeployment pe1 tc).Name, Namespace := (ownedDeployment pe1 tc).Namespace }
      = Except.ok existing := hlive
  have hscr : SetControllerReference faults pe1 (BuildDeployment pe1 tc)
      = Except.ok (ownedDeployment pe1 tc) := by
    unfold SetControllerReference
    simp only [hown]
    rfl
  unfold Reconcile.reconcileDeployment
  simp only [hscr, hlive1]

/-! ### The steady state -/

/-- The count loop of step 9 counts the entries that read `Connected`. -/
theorem countConnected_eq (l : List RelayConnectionStatus) :
    countConnected l = ((l.countP (fun rs => rs.Status == "Connected") : Nat) : Int) := by
  have h : ∀ (l : List RelayConnectionStatus) (n : Int),
      l.foldl (fun n rs => if rs.Status == "Connected" then n + 1 else n) n
        = n + ((l.countP (fun rs => rs.Status == "Connected") : Nat) : Int) := by
    intro l
    induction l with
    | nil => intro n; simp
    | cons a rest ih =>
      intro n
      by_cases ha : (a.Status == "Connected") = true
      · simp only [List.foldl_cons, ha, if_true, ih, List.countP_cons]
        push_cast
        ring
      · simp only [List.foldl_cons, ha, Bool.false_eq_true, if_false, ih, List.countP_cons]
        simp
  unfold countConnected
  rw [h]
  simp

/-- What steps 7 to 11 leave in the in-memory exposure: metadata and spec are kept, the
counters, relay statuses, phase and public URL are as computed. -/
theorem steadyStatus_fields (clock : Nat → Nat) (pe : PortalExpose) (tc : TunnelClass)
    (existing : Deployment) (pe1 : PortalExpose)
    (h : Reconcile.steadyStatus clock pe tc existing = some pe1) :
    pe1.toObjectMeta = pe.toObjectMeta ∧ pe1.Spec = pe.Spec
      ∧ pe1.Status.TunnelPods.Ready = existing.Status.ReadyReplicas
      ∧ pe1.Status.TunnelPods.Total = tc.Spec.Replicas
      ∧ pe1.Status.Relay.Connected
          = ComputeRelayStatuses pe.Spec.Relay.Targets
              (decide (existing.Status.ReadyReplicas > 0))
      ∧ pe1.Status.Phase
          = ComputePhase existing.Status.ReadyReplicas tc.Spec.Replicas
              (countConnected (ComputeRelayStatuses pe.Spec.Relay.Targets
                (decide (existing.Status.ReadyReplicas > 0))))
              ((ComputeRelayStatuses pe.Spec.Relay.Targets
                (decide (existing.Status.ReadyReplicas > 0))).length : Int)
      ∧ pe1.Status.PublicURL
          = (if pe.Status.PublicURL = "" then
              ConstructPublicURL pe.Spec.App.Name
                ((pe.Spec.Relay.Targets.head?.map (fun t => t.URL)).getD "")
             else pe.Status.PublicURL) := by
  unfold Reconcile.steadyStatus at h
  simp only at h
  split at h
  · simp at h
  · rename_i pe0 hurl
    simp only [Option.some.injEq] at h
    subst h
    have h0 : pe0.toObjectMeta = pe.toObjectMeta ∧ pe0.Spec = pe.Spec
        ∧ pe0.Status.TunnelPods.Ready = existing.Status.ReadyReplicas
        ∧ pe0.Status.TunnelPods.Total = tc.Spec.Replicas
        ∧ pe0.Status.Relay.Connected
            = ComputeRelayStatuses pe.Spec.Relay.Targets
                (decide (existing.Status.ReadyReplicas > 0))
        ∧ pe0.Status.Phase
            = ComputePhase existing.Status.ReadyReplicas tc.Spec.Replicas
                (countConnected (ComputeRelayStatuses pe.Spec.Relay.Targets
                  (decide (existing.Status.ReadyReplicas > 0))))
                ((ComputeRelayStatuses pe.Spec.Relay.Targets
                  (decide (existing.Status.ReadyReplicas > 0))).length : Int)
        ∧ pe0.Status.PublicURL
            = (if pe.Status.PublicURL = "" then
                ConstructPublicURL pe.Spec.App.Name
                  ((pe.Spec.Relay.Targets.head?.map (fun t => t.URL)).getD "")
               else pe.Status.PublicURL) := by
      by_cases hu : pe.Status.PublicURL = ""
      · simp only [hu, beq_self_eq_true, if_true] at hurl
        cases hT : pe.Spec.Relay.Targets with
        | nil => simp [hT] at hurl
        | cons t0 rest =>
          simp only [hT, Option.some.injEq] at hurl
          subst hurl
          simp [hu]
      · have hb : (pe.Status.PublicURL == "") = false := by simpa using hu
        simp only [hb, Bool.false_eq_true, if_false, Option.some.injEq] at hurl
        subst hurl
        simp [hu]
    have key : ∀ (c : Prop) [Decidable c] (p : PortalExpose) (A B : List Condition),
        (if c then ({ p with Status.Conditions := A } : PortalExpose)
          else { p with Status.Conditions := B })
        = { p with Status.Conditions := if c then A else B } := by
      intro c _ p A B
      split_ifs <;> rfl
    simp only [key]
    exact h0

/-- A status write leaves the workloads as they are. -/
theorem StatusUpdate_Deployments (faults : Faults) (w w1 : World) (obj : PortalExpose)
    (h : Client.StatusUpdate faults w obj = Except.ok w1) : w1.Deployments = w.Deployments := by
  unfold Client.StatusUpdate at h
  split at h
  · simp at h
  · split at h
    · simp only [Except.ok.injEq] at h
      subst h
      rfl
    · simp at h

/-- The steady-state steps write no workload and never ask for a requeue. -/
theorem computeStatus_no_workload_write (faults : Faults) (clock : Nat → Nat) (w : World)
    (pe : PortalExpose) (tc : TunnelClass) (existing : Deployment) :
    (∀ d, Call.UpdateDeployment d ∉ (Reconcile.computeStatus faults clock w pe tc existing).calls)
      ∧ (∀ d, Call.CreateDeployment d
          ∉ (Reconcile.computeStatus faults clock w pe tc existing).calls)
      ∧ (Reconcile.computeStatus faults clock w pe tc existing).result.Requeue = false
      ∧ (Reconcile.computeStatus faults clock w pe tc existing).world.Deployments
          = w.Deployments := by
  unfold Reconcile.computeStatus
  cases hS : Reconcile.steadyStatus clock pe tc existing with
  | none => simp
  | some pe1 =>
    simp only
    cases hU : Client.StatusUpdate faults w pe1 with
    | error e => simp
    | ok w1 =>
      simp only
      refine ⟨?_, ?_, trivial, StatusUpdate_Deployments faults w w1 pe1 hU⟩
      · intro d
        split_ifs <;> simp
      · intro d
        split_ifs <;> simp

/-- The container loop of `deploymentSpecEqual` accepts exactly the lists that agree, index
by index, on image, CPU request and memory request. -/
theorem containersEqual_iff (es ds : List Container) :
    containersEqual es ds = true ↔
      ∀ (i : Nat) (ce cd : Container), es[i]? = some ce → ds[i]? = some cd →
        ce.Image = cd.Image
          ∧ ce.Resources.Requests.Cpu.milli = cd.Resources.Requests.Cpu.milli
          ∧ ce.Resources.Requests.Memory.milli = cd.Resources.Requests.Memory.milli := by
  induction es generalizing ds with
  | nil => simp [containersEqual]
  | cons e es ih =>
    cases ds with
    | nil => simp [containersEqual]
    | cons d ds =>
      unfold containersEqual
      constructor
      · intro h i ce cd hce hcd
        by_cases h1 : e.Image = d.Image
        · by_cases h2 : e.Resources.Requests.Cpu.milli = d.Resources.Requests.Cpu.milli
          · by_cases h3 : e.Resources.Requests.Memory.milli
                = d.Resources.Requests.Memory.milli
            · simp only [h1, bne_self_eq_false, Bool.false_eq_true, if_false, Quantity.Equal,
                h2, h3, beq_self_eq_true, Bool.not_true] at h
              cases i with
              | zero =>
                simp only [List.getElem?_cons_zero, Option.some.injEq] at hce hcd
                subst hce; subst hcd
                exact ⟨h1, h2, h3⟩
              | succ k =>
                exact (ih ds).mp h k ce cd (by simpa using hce) (by simpa using hcd)
            · simp [h1, Quantity.Equal, h2, h3] at h
          · simp [h1, Quantity.Equal, h2] at h
        · simp [h1] at h
      · intro h
        obtain ⟨h1, h2, h3⟩ := h 0 e d (by simp) (by simp)
        simp only [h1, bne_self_eq_false, Bool.false_eq_true, if_false, Quantity.Equal,
          h2, h3, beq_self_eq_true, Bool.not_true]
        apply (ih ds).mpr
        intro i ce cd hce hcd
        exact h (i + 1) ce cd (by simpa using hce) (by simpa using hcd)

/-- An update of a stored workload on which no fault falls replaces spec and metadata of the
objects under its key. -/
theorem UpdateDeployment_ok (faults : Faults) (w : World) (key : NamespacedName)
    (existing obj : Deployment)
    (hmem : existing ∈ w.Deployments) (hkey : hasKey key existing.toObjectMeta = true)
    (hobj : keyOf obj.toObjectMeta = key) (hnf : faults Op.UpdateDeployment = none) :
    Client.UpdateDeployment faults w obj
      = Except.ok { w with Deployments := w.Deployments.map (fun o =>
          if hasKey key o.toObjectMeta then { obj with Status := o.Status } else o) } := by
  have hany : (w.Deployments.any fun o => hasKey key o.toObjectMeta) = true :=
    List.any_eq_true.mpr ⟨existing, hmem, hkey⟩
  unfold Client.UpdateDeployment
  simp only [hnf, hobj, hany, if_true]

/-- C8: on workloads whose replica counts are set, `deploymentSpecEqual` returns true
exactly when the replica counts are equal, the container lists have the same length and
agree at every index on image, CPU request and memory request as quantities, and false
otherwise. In a pass that finds the live workload, `Reconcile` issues a workload update
exactly when `deploymentSpecEqual` is false; the update carries the live workload with its
spec replaced by the desired spec, and when the writes succeed the pass sets
`Progressing` to True, persists the status and returns requeue. -/
theorem deploymentSpecEqual_drives_update (faults : Faults) (clock : Nat → Nat) (w : World)
    (req : NamespacedName) (pe : PortalExpose) (svc : Service) (tc : TunnelClass)
    (existing : Deployment)
    (hget : Client.GetPortalExpose faults w req = Except.ok pe)
    (hdel : Time.IsZero pe.DeletionTimestamp = true)
    (hfin : HasFinalizer pe.toObjectMeta FinalizerName = true)
    (hsvc : Client.GetService faults w
      { Name := pe.Spec.App.Service.Name, Namespace := pe.Namespace } = Except.ok svc)
    (htc : GetTunnelClass faults w pe.Spec.TunnelClassName = Except.ok tc)
    (hown : faults Op.SetControllerReference = none)
    (hlive : Client.GetDeployment faults w
      { Name := pe.Name ++ "-tunnel", Namespace := pe.Namespace } = Except.ok existing) :
    (∀ (e d : Deployment) (er dr : Int),
        e.Spec.Replicas = some er → d.Spec.Replicas = some dr →
        (deploymentSpecEqual e d = some true ↔
          er = dr
            ∧ e.Spec.Template.Spec.Containers.length = d.Spec.Template.Spec.Containers.length
            ∧ ∀ (i : Nat) (ce cd : Container),
                e.Spec.Template.Spec.Containers[i]? = some ce →
                d.Spec.Template.Spec.Containers[i]? = some cd →
                ce.Image = cd.Image
                  ∧ ce.Resources.Requests.Cpu.milli = cd.Resources.Requests.Cpu.milli
                  ∧ ce.Resources.Requests.Memory.milli = cd.Resources.Requests.Memory.milli)
          ∧ (deploymentSpecEqual e d = some true ∨ deploymentSpecEqual e d = some false))
      ∧ ((∃ d, Call.UpdateDeployment d ∈ (Reconcile faults clock w req).calls)
          ↔ deploymentSpecEqual existing (ownedDeployment pe tc) = some false)
      ∧ (deploymentSpecEqual existing (ownedDeployment pe tc) = some false →
          (Reconcile faults clock w req).calls.head?
              = some (Call.UpdateDeployment
                  { existing with Spec := (ownedDeployment pe tc).Spec })
            ∧ (faults Op.UpdateDeployment = none →
                faults Op.StatusUpdatePortalExpose = none →
                (Reconcile faults clock w req).calls
                    = [Call.UpdateDeployment
                         { existing with Spec := (ownedDeployment pe tc).Spec },
                       Call.StatusUpdate
                         { serviceFound clock pe with
                           Status.Conditions :=
                             SetCondition (serviceFound clock pe).Status.Conditions (clock 1)
                               ConditionProgressing ConditionTrue "DeploymentUpdating"
                               "Rolling update in progress" }]
                  ∧ IsConditionTrue
                      (SetCondition (serviceFound clock pe).Status.Conditions (clock 1)
                        ConditionProgressing ConditionTrue "DeploymentUpdating"
                        "Rolling update in progress") ConditionProgressing = true
                  ∧ (Reconcile faults clock w req).result.Requeue = true
                  ∧ (Reconcile faults clock w req).err = none
                  ∧ (Reconcile faults clock w req).panic = none
                  ∧ Client.GetPortalExpose faults (Reconcile faults clock w req).world req
                      = Except.ok
                          { serviceFound clock pe with
                            Status.Conditions :=
                              SetCondition (serviceFound clock pe).Status.Conditions
                                (clock 1) ConditionProgressing ConditionTrue
                                "DeploymentUpdating" "Rolling update in progress" }
                  ∧ (Reconcile faults clock w req).world.Deployments
                      = w.Deployments.map (fun o =>
                          if hasKey { Name := pe.Name ++ "-tunnel", Namespace := pe.Namespace }
                              o.toObjectMeta then
                            { existing with Spec := (ownedDeployment pe tc).Spec,
                                            Status := o.Status }
                          else o)))
      ∧ (deploymentSpecEqual existing (ownedDeployment pe tc) = some true →
          (Reconcile faults clock w req).result.Requeue = false
            ∧ (Reconcile faults clock w req).world.Deployments = w.Deployments) := by
  obtain ⟨hgf, hfind, hkey⟩ := GetPortalExpose_ok faults w req pe hget
  have hk := keyOf_eq_of_hasKey _ _ hkey
  obtain ⟨_, hemem, hekey⟩ := GetDeployment_ok faults w _ existing hlive
  have hek := keyOf_eq_of_hasKey _ _ hekey
  have hR : Reconcile faults clock w req
      = Reconcile.reconcileDeployment faults clock w (serviceFound clock pe) tc :=
    Reconcile_main_path faults clock w req pe svc tc hget hdel hfin hsvc htc
  have hF := reconcileDeployment_found faults clock w (serviceFound clock pe) tc existing
    hown hlive
  have hO : ownedDeployment (serviceFound clock pe) tc = ownedDeployment pe tc := rfl
  rw [hO] at hF
  rw [hR, hF]
  refine ⟨?_, ?_, ?_, ?_⟩
  · intro e d er dr he hd
    have hval : deploymentSpecEqual e d
        = if er != dr then some false
          else if e.Spec.Template.Spec.Containers.length
              != d.Spec.Template.Spec.Containers.length then some false
          else some (containersEqual e.Spec.Template.Spec.Containers
              d.Spec.Template.Spec.Containers) := by
      unfold deploymentSpecEqual
      simp only [he, hd]
    rw [hval]
    constructor
    · by_cases h1 : er = dr
      · by_cases h2 : e.Spec.Template.Spec.Containers.length
            = d.Spec.Template.Spec.Containers.length
        · simp only [h1, bne_self_eq_false, Bool.false_eq_true, if_false, h2,
            Option.some.injEq, true_and]
          exact containersEqual_iff _ _
        · simp [h1, h2]
      · simp [h1]
    · split_ifs
      · exact Or.inr rfl
      · exact Or.inr rfl
      · cases containersEqual e.Spec.Template.Spec.Containers
            d.Spec.Template.Spec.Containers
        · exact Or.inr rfl
        · exact Or.inl rfl
  · constructor
    · rintro ⟨d, hd⟩
      cases hE : deploymentSpecEqual existing (ownedDeployment pe tc) with
      | none => simp [hE] at hd
      | some b =>
        cases b with
        | false => rfl
        | true =>
          simp only [hE] at hd
          exact absurd hd
            ((computeStatus_no_workload_write faults clock w _ tc existing).1 d)
    · intro hE
      simp only [hE]
      refine ⟨{ existing with Spec := (ownedDeployment pe tc).Spec }, ?_⟩
      split
      · simp
      · split <;> simp
  · intro hE
    simp only [hE]
    constructor
    · split
      · simp
      · split <;> simp
    · intro hnu hns
      have hU := UpdateDeployment_ok faults w
        { Name := pe.Name ++ "-tunnel", Namespace := pe.Namespace } existing
        { existing with Spec := (ownedDeployment pe tc).Spec } hemem hekey hek hnu
      rw [hU]
      simp only
      obtain ⟨w2, hS, hread, hdep, _, _⟩ := StatusUpdate_ok faults
        { w with Deployments := w.Deployments.map (fun o =>
            if hasKey { Name := pe.Name ++ "-tunnel", Namespace := pe.Namespace }
                o.toObjectMeta then
              { ({ existing with Spec := (ownedDeployment pe tc).Spec } : Deployment) with
                Status := o.Status }
            else o) }
        req pe
        { serviceFound clock pe with
          Status.Conditions :=
            SetCondition (serviceFound clock pe).Status.Conditions (clock 1)
              ConditionProgressing ConditionTrue "DeploymentUpdating"
              "Rolling update in progress" }
        hfind hk hns
      rw [hS]
      simp only
      refine ⟨trivial, ?_, trivial, trivial, trivial, ?_, ?_⟩
      · rw [IsConditionTrue_SetCondition_same]; rfl
      · unfold Client.GetPortalExpose
        simp only [hgf, hread]
        rfl
      · rw [hdep]
  · intro hE
    simp only [hE]
    exact ⟨(computeStatus_no_workload_write faults clock w _ tc existing).2.2.1,
      (computeStatus_no_workload_write faults clock w _ tc existing).2.2.2⟩

/-- Witness for C8: the sample exposure whose live workload was scaled to three replicas. -/
theorem deploymentSpecEqual_drives_update_witness :
    deploymentSpecEqual sampleDrifted (ownedDeployment sampleExpose sampleClass) = some false
      ∧ (Reconcile noFaults sampleClock (sampleWorld [sampleDrifted]) sampleReq).result.Requeue
          = true
      ∧ (Reconcile noFaults sampleClock (sampleWorld [sampleDrifted]) sampleReq).calls.head?
          = some (Call.UpdateDeployment
              { sampleDrifted with Spec := (ownedDeployment sampleExpose sampleClass).Spec }) := by
  have h := deploymentSpecEqual_drives_update noFaults sampleClock (sampleWorld [sampleDrifted])
    sampleReq sampleExpose sampleService sampleClass sampleDrifted
    rfl (by decide) (by decide) rfl rfl rfl rfl
  have hE : deploymentSpecEqual sampleDrifted (ownedDeployment sampleExpose sampleClass)
      = some false := rfl
  exact ⟨hE, ((h.2.2.1 hE).2 rfl rfl).2.2.1, (h.2.2.1 hE).1⟩

/-- With at least one relay target, steps 7 to 11 do not panic. -/
theorem steadyStatus_some (clock : Nat → Nat) (pe : PortalExpose) (tc : TunnelClass)
    (existing : Deployment) (hmin : pe.Spec.Relay.MinItems) :
    ∃ pe1, Reconcile.steadyStatus clock pe tc existing = some pe1 := by
  unfold RelaySpec.MinItems at hmin
  cases hT : pe.Spec.Relay.Targets with
  | nil => simp [hT] at hmin
  | cons t0 rest =>
    unfold Reconcile.steadyStatus
    simp only [hT]
    by_cases hu : (pe.Status.PublicURL == "") = true
    · simp only [hu, if_true]
      exact ⟨_, rfl⟩
    · simp only [hu, Bool.false_eq_true, if_false]
      exact ⟨_, rfl⟩

/-- C9: in the steady-state pass (finalizer present, service found, tier resolved, live
workload found and equal to the desired one under `deploymentSpecEqual`) for an exposure
with at least one relay target, `Reconcile` issues one status write and then only events;
the written status has `tunnelPods.ready` = the live `readyReplicas`, `tunnelPods.total` =
the tier's replicas, the relay statuses `ComputeRelayStatuses(targets, readyReplicas > 0)`
and the phase `ComputePhase(readyReplicas, replicas, number of Connected entries, number
of entries)`; when the write succeeds the status is stored and the pass returns success
with no requeue. -/
theorem Reconcile_steady_state (faults : Faults) (clock : Nat → Nat) (w : World)
    (req : NamespacedName) (pe : PortalExpose) (svc : Service) (tc : TunnelClass)
    (existing : Deployment)
    (hget : Client.GetPortalExpose faults w req = Except.ok pe)
    (hdel : Time.IsZero pe.DeletionTimestamp = true)
    (hfin : HasFinalizer pe.toObjectMeta FinalizerName = true)
    (hsvc : Client.GetService faults w
      { Name := pe.Spec.App.Service.Name, Namespace := pe.Namespace } = Except.ok svc)
    (htc : GetTunnelClass faults w pe.Spec.TunnelClassName = Except.ok tc)
    (hown : faults Op.SetControllerReference = none)
    (hlive : Client.GetDeployment faults w
      { Name := pe.Name ++ "-tunnel", Namespace := pe.Namespace } = Except.ok existing)
    (heq : deploymentSpecEqual existing (ownedDeployment pe tc) = some true)
    (hmin : pe.Spec.Relay.MinItems)
    (hns : faults Op.StatusUpdatePortalExpose = none) :
    ∃ (pe1 : PortalExpose) (events : List Call),
      (Reconcile faults clock w req).calls = Call.StatusUpdate pe1 :: events
        ∧ (∀ c ∈ events, ∃ t r m, c = Call.Event t r m)
        ∧ pe1.toObjectMeta = pe.toObjectMeta ∧ pe1.Spec = pe.Spec
        ∧ pe1.Status.TunnelPods.Ready = existing.Status.ReadyReplicas
        ∧ pe1.Status.TunnelPods.Total = tc.Spec.Replicas
        ∧ pe1.Status.Relay.Connected
            = ComputeRelayStatuses pe.Spec.Relay.Targets
                (decide (existing.Status.ReadyReplicas > 0))
        ∧ pe1.Status.Phase
            = ComputePhase existing.Status.ReadyReplicas tc.Spec.Replicas
                ((pe1.Status.Relay.Connected.countP (fun rs => rs.Status == "Connected")
                  : Nat) : Int)
                (pe1.Status.Relay.Connected.length : Int)
        ∧ (Reconcile faults clock w req).result = { Requeue := false, RequeueAfter := 0 }
        ∧ (Reconcile faults clock w req).err = none
        ∧ (Reconcile faults clock w req).panic = none
        ∧ Client.GetPortalExpose faults (Reconcile faults clock w req).world req
            = Except.ok pe1
        ∧ (Reconcile faults clock w req).world.Deployments = w.Deployments := by
  obtain ⟨hgf, hfind, hkey⟩ := GetPortalExpose_ok faults w req pe hget
  have hk := keyOf_eq_of_hasKey _ _ hkey
  have hR : Reconcile faults clock w req
      = Reconcile.reconcileDeployment faults clock w (serviceFound clock pe) tc :=
    Reconcile_main_path faults clock w req pe svc tc hget hdel hfin hsvc htc
  have hF := reconcileDeployment_found faults clock w (serviceFound clock pe) tc existing
    hown hlive
  have hO : ownedDeployment (serviceFound clock pe) tc = ownedDeployment pe tc := rfl
  rw [hO, heq] at hF
  simp only at hF
  obtain ⟨pe1, hS⟩ := steadyStatus_some clock (serviceFound clock pe) tc existing hmin
  obtain ⟨f1, f2, f3, f4, f5, f6, _⟩ :=
    steadyStatus_fields clock (serviceFound clock pe) tc existing pe1 hS
  have hk1 : keyOf pe1.toObjectMeta = req := by rw [f1]; exact hk
  obtain ⟨w1, hU, hread, hdep, _, _⟩ := StatusUpdate_ok faults w req pe pe1 hfind hk1 hns
  have hpe1 : ({ pe with Status := pe1.Status } : PortalExpose) = pe1 := by
    have e1 : pe1.toObjectMeta = pe.toObjectMeta := f1
    have e2 : pe1.Spec = pe.Spec := f2
    cases pe1
    simp only at e1 e2
    simp [e1, e2]
  rw [hR, hF]
  unfold Reconcile.computeStatus
  simp only [hS, hU]
  refine ⟨pe1, _, rfl, ?_, f1, f2, f3, f4, f5, ?_, trivial, trivial, trivial, ?_, hdep⟩
  · intro c hc
    split_ifs at hc <;> simp at hc
    · exact ⟨_, _, _, hc⟩
    · exact ⟨_, _, _, hc⟩
    · exact ⟨_, _, _, hc⟩
  · rw [f6, f5, countConnected_eq]
  · unfold Client.GetPortalExpose
    simp only [hgf, hread, hpe1]

/-- Witness for C9: the sample exposure with its workload in place and one ready pod. -/
theorem Reconcile_steady_state_witness :
    ∃ (pe1 : PortalExpose) (events : List Call),
      (Reconcile noFaults sampleClock (sampleWorld [sampleDeployment]) sampleReq).calls
          = Call.StatusUpdate pe1 :: events
        ∧ pe1.Status.TunnelPods.Ready = 1 ∧ pe1.Status.TunnelPods.Total = 1
        ∧ (Reconcile noFaults sampleClock (sampleWorld [sampleDeployment]) sampleReq).result
            = { Requeue := false, RequeueAfter := 0 } := by
  have heq : deploymentSpecEqual sampleDeployment (ownedDeployment sampleExpose sampleClass)
      = some true := by
    simp [deploymentSpecEqual, sampleDeployment, ownedDeployment, BuildDeployment,
      containersEqual, Quantity.Equal, sampleClass]
  obtain ⟨pe1, events, h1, _, _, _, h5, h6, _, _, h9, _⟩ :=
    Reconcile_steady_state noFaults sampleClock (sampleWorld [sampleDeployment])
      sampleReq sampleExpose sampleService sampleClass sampleDeployment
      rfl (by decide) (by decide) rfl rfl rfl rfl heq (by decide) rfl
  exact ⟨pe1, events, h1, h5, h6, h9⟩

/-! ### The referenced service is missing -/

/-- C10: in a pass for an exposure that carries the finalizer and is not marked for
deletion, when the lookup of the referenced service in the exposure's namespace reports
not-found, `Reconcile` issues an event and one status write and nothing else; the written
status has phase Failed and the conditions `ServiceExists` and `Available` at False; no
workload is created or updated; when the write succeeds the status is stored and the pass
returns success with no requeue and no error. -/
theorem Reconcile_service_not_found (faults : Faults) (clock : Nat → Nat) (w : World)
    (req : NamespacedName) (pe : PortalExpose) (e : Err)
    (hget : Client.GetPortalExpose faults w req = Except.ok pe)
    (hdel : Time.IsZero pe.DeletionTimestamp = true)
    (hfin : HasFinalizer pe.toObjectMeta FinalizerName = true)
    (hsvc : Client.GetService faults w
      { Name := pe.Spec.App.Service.Name, Namespace := pe.Namespace } = Except.error e)
    (hnf : e.IsNotFound = true)
    (hns : faults Op.StatusUpdatePortalExpose = none) :
    ∃ (pe1 : PortalExpose) (message : String),
      (Reconcile faults clock w req).calls
          = [Call.Event "Warning" "ServiceNotFound" message, Call.StatusUpdate pe1]
        ∧ pe1.toObjectMeta = pe.toObjectMeta ∧ pe1.Spec = pe.Spec
        ∧ pe1.Status.Phase = "Failed"
        ∧ (∃ c, FindCondition pe1.Status.Conditions ConditionServiceExists = some c
              ∧ c.Status = ConditionFalse)
        ∧ (∃ c, FindCondition pe1.Status.Conditions ConditionAvailable = some c
              ∧ c.Status = ConditionFalse)
        ∧ IsConditionTrue pe1.Status.Conditions ConditionServiceExists = false
        ∧ IsConditionTrue pe1.Status.Conditions ConditionAvailable = false
        ∧ (Reconcile faults clock w req).result = { Requeue := false, RequeueAfter := 0 }
        ∧ (Reconcile faults clock w req).err = none
        ∧ (Reconcile faults clock w req).panic = none
        ∧ Client.GetPortalExpose faults (Reconcile faults clock w req).world req
            = Except.ok pe1
        ∧ (Reconcile faults clock w req).world.Deployments = w.Deployments := by
  obtain ⟨hgf, hfind, hkey⟩ := GetPortalExpose_ok faults w req pe hget
  have hk := keyOf_eq_of_hasKey _ _ hkey
  obtain ⟨w1, hU, hread, hdep, _, _⟩ := StatusUpdate_ok faults w req pe
    { pe with
      Status :=
        { pe.Status with
          Phase := "Failed",
          Conditions :=
            SetCondition
              (SetCondition pe.Status.Conditions (clock 0) ConditionServiceExists
                ConditionFalse "ServiceNotFound"
                ("Service '" ++ pe.Spec.App.Service.Name ++ "' not found in namespace '"
                  ++ pe.Namespace ++ "'"))
              (clock 1) ConditionAvailable ConditionFalse "ServiceNotFound"
              "PortalExpose failed due to missing Service" } }
    hfind hk hns
  have hR : Reconcile faults clock w req
      = { world := w1,
          calls := [Call.Event "Warning" "ServiceNotFound"
                      ("Referenced Service '" ++ pe.Spec.App.Service.Name ++ "' not found"),
                    Call.StatusUpdate
                      { pe with
                        Status :=
                          { pe.Status with
                            Phase := "Failed",
                            Conditions :=
                              SetCondition
                                (SetCondition pe.Status.Conditions (clock 0)
                                  ConditionServiceExists ConditionFalse "ServiceNotFound"
                                  ("Service '" ++ pe.Spec.App.Service.Name
                                    ++ "' not found in namespace '" ++ pe.Namespace ++ "'"))
                                (clock 1) ConditionAvailable ConditionFalse "ServiceNotFound"
                                "PortalExpose failed due to missing Service" } }] } := by
    unfold Reconcile
    simp only [hget, hdel, hfin, hsvc, hnf, Bool.not_true, Bool.false_eq_true, if_false,
      if_true]
    rw [hU]
  have hne : ConditionServiceExists ≠ ConditionAvailable := by decide
  rw [hR]
  refine ⟨_, _, rfl, rfl, rfl, rfl, ?_, ?_, ?_, ?_, rfl, rfl, rfl, ?_, hdep⟩
  · refine Exists.intro ?c1 ⟨?h1, ?h2⟩
    case h1 =>
      simp only
      rw [FindCondition_SetCondition_other _ _ _ _ _ _ _ hne,
        FindCondition_SetCondition_same]
      exact rfl
    case h2 => rfl
  · refine Exists.intro ?c2 ⟨?h3, ?h4⟩
    case h3 =>
      simp only
      rw [FindCondition_SetCondition_same]
      exact rfl
    case h4 => rfl
  · simp only [IsConditionTrue]
    rw [FindCondition_SetCondition_other _ _ _ _ _ _ _ hne, FindCondition_SetCondition_same]
    rfl
  · simp only
    rw [IsConditionTrue_SetCondition_same]
    decide
  · unfold Client.GetPortalExpose
    simp only [hgf, hread]

/-- Witness for C10: the sample exposure in a store without its service. -/
theorem Reconcile_service_not_found_witness :
    ∃ (pe1 : PortalExpose) (message : String),
      (Reconcile noFaults sampleClock
          { PortalExposes := [sampleExpose], TunnelClasses := [sampleClass] } sampleReq).calls
          = [Call.Event "Warning" "ServiceNotFound" message, Call.StatusUpdate pe1]
        ∧ pe1.Status.Phase = "Failed"
        ∧ IsConditionTrue pe1.Status.Conditions ConditionAvailable = false
        ∧ (Reconcile noFaults sampleClock
          { PortalExposes := [sampleExpose], TunnelClasses := [sampleClass] } sampleReq).result
            = { Requeue := false, RequeueAfter := 0 } := by
  obtain ⟨pe1, message, h1, _, _, h4, _, _, _, h8, h9, _⟩ :=
    Reconcile_service_not_found noFaults sampleClock
      { PortalExposes := [sampleExpose], TunnelClasses := [sampleClass] }
      sampleReq sampleExpose (Err.NotFound "services \"svc\" not found")
      rfl (by decide) (by decide) rfl rfl rfl
  exact ⟨pe1, message, h1, h4, h8, h9⟩

/-! ### Conditions: uniqueness, idempotence, append -/

/-- The types after `SetCondition`: unchanged when the type is present, else one more. -/
theorem SetCondition_types (l : List Condition) (now : Nat) (T s r m : String) :
    (SetCondition l now T s r m).map (fun c => c.Type_)
      = if T ∈ l.map (fun c => c.Type_) then l.map (fun c => c.Type_)
        else l.map (fun c => c.Type_) ++ [T] := by
  induction l with
  | nil => simp [SetCondition]
  | cons c rest ih =>
    by_cases hc : c.Type_ = T
    · simp [SetCondition, hc]
    · have hc1 : ¬ T = c.Type_ := fun h => hc h.symm
      by_cases hmem : T ∈ rest.map (fun c => c.Type_)
      · simp only [SetCondition, hc, if_false, List.map_cons, ih, hmem, if_true,
          List.mem_cons, or_true]
      · simp only [SetCondition, hc, if_false, List.map_cons, ih, hmem, List.mem_cons, hc1,
          or_self, List.cons_append]

/-- C17: `SetCondition` keeps the types of a condition list pairwise distinct, and every
list built from the empty list by `SetCondition` calls alone has pairwise distinct types. -/
theorem SetCondition_unique_types :
    (∀ (l : List Condition) (now : Nat) (T s r m : String),
        (l.map (fun c => c.Type_)).Nodup →
        ((SetCondition l now T s r m).map (fun c => c.Type_)).Nodup)
      ∧ (∀ (steps : List (Nat × String × String × String × String)),
          ((steps.foldl (fun l a => SetCondition l a.1 a.2.1 a.2.2.1 a.2.2.2.1 a.2.2.2.2)
              []).map (fun c => c.Type_)).Nodup) := by
  have h1 : ∀ (l : List Condition) (now : Nat) (T s r m : String),
      (l.map (fun c => c.Type_)).Nodup →
      ((SetCondition l now T s r m).map (fun c => c.Type_)).Nodup := by
    intro l now T s r m hl
    rw [SetCondition_types]
    split_ifs with hmem
    · exact hl
    · rw [List.nodup_append]
      refine ⟨hl, by simp, ?_⟩
      intro a ha hb
      simp only [List.mem_singleton] at hb
      subst hb
      exact hmem ha
  refine ⟨h1, ?_⟩
  intro steps
  have h2 : ∀ (steps : List (Nat × String × String × String × String))
      (l : List Condition), (l.map (fun c => c.Type_)).Nodup →
      ((steps.foldl (fun l a => SetCondition l a.1 a.2.1 a.2.2.1 a.2.2.2.1 a.2.2.2.2)
          l).map (fun c => c.Type_)).Nodup := by
    intro steps
    induction steps with
    | nil => intro l hl; exact hl
    | cons a rest ih =>
      intro l hl
      simp only [List.foldl_cons]
      exact ih _ (h1 l a.1 a.2.1 a.2.2.1 a.2.2.2.1 a.2.2.2.2 hl)
  exact h2 steps [] (by simp)

/-- C18: `SetCondition` is idempotent: a second call with the same type, status, reason
and message, at any later (or any) clock value, returns the list of the first call; after
the first call, a call that changes only the message keeps the entry's
`LastTransitionTime`, and a call that changes only the status sets it to the clock value
of that call. -/
theorem SetCondition_idempotent (l : List Condition) (t1 t2 : Nat) (T s r m : String) :
    SetCondition (SetCondition l t1 T s r m) t2 T s r m = SetCondition l t1 T s r m
      ∧ (∀ m1 : String,
          (FindCondition (SetCondition (SetCondition l t1 T s r m) t2 T s r m1) T).map
              (fun c => c.LastTransitionTime)
            = (FindCondition (SetCondition l t1 T s r m) T).map
                (fun c => c.LastTransitionTime))
      ∧ (∀ s1 : String, s1 ≠ s →
          (FindCondition (SetCondition (SetCondition l t1 T s r m) t2 T s1 r m) T).map
              (fun c => c.LastTransitionTime) = some t2) := by
  refine ⟨?_, ?_, ?_⟩
  · induction l with
    | nil => simp [SetCondition]
    | cons c rest ih =>
      by_cases hc : c.Type_ = T
      · simp [SetCondition, hc]
      · simp [SetCondition, hc, ih]
  · intro m1
    rw [FindCondition_SetCondition_same, FindCondition_SetCondition_same]
    simp
  · intro s1 hs
    rw [FindCondition_SetCondition_same, FindCondition_SetCondition_same]
    simp [Ne.symm hs]

/-- C19: on a list with no entry of type `T`, `SetCondition` returns the old list followed
by the one new entry (type, status, reason, message as given, `LastTransitionTime` the
clock value), and `FindCondition` then returns that entry. -/
theorem SetCondition_appends (l : List Condition) (now : Nat) (T s r m : String)
    (habsent : ∀ c ∈ l, c.Type_ ≠ T) :
    SetCondition l now T s r m
        = l ++ [{ Type_ := T, Status := s, Reason := r, Message := m,
                  LastTransitionTime := now, ObservedGeneration := 0 }]
      ∧ FindCondition (SetCondition l now T s r m) T
          = some { Type_ := T, Status := s, Reason := r, Message := m,
                   LastTransitionTime := now, ObservedGeneration := 0 } := by
  have hnone : FindCondition l T = none := by
    induction l with
    | nil => rfl
    | cons c rest ih =>
      have hc : c.Type_ ≠ T := habsent c (List.mem_cons_self _ _)
      simp only [FindCondition, hc, if_false]
      exact ih (fun c1 h1 => habsent c1 (List.mem_cons_of_mem _ h1))
  constructor
  · induction l with
    | nil => rfl
    | cons c rest ih =>
      have hc : c.Type_ ≠ T := habsent c (List.mem_cons_self _ _)
      have hrest : ∀ c1 ∈ rest, c1.Type_ ≠ T :=
        fun c1 h1 => habsent c1 (List.mem_cons_of_mem _ h1)
      have hn : FindCondition rest T = none := by
        simpa [FindCondition, hc] using hnone
      simp only [SetCondition, hc, if_false, List.cons_append, ih hrest hn]
  · rw [FindCondition_SetCondition_same, hnone]

/-- Witness for C19: a new `Progressing` entry on a list that holds only `Available`. -/
theorem SetCondition_appends_witness :
    SetCondition
        [{ Type_ := "Available", Status := "True", ObservedGeneration := 0,
           LastTransitionTime := 5, Reason := "a", Message := "b" }]
        9 "Progressing" "True" "r" "m"
      = [{ Type_ := "Available", Status := "True", ObservedGeneration := 0,
           LastTransitionTime := 5, Reason := "a", Message := "b" },
         { Type_ := "Progressing", Status := "True", ObservedGeneration := 0,
           LastTransitionTime := 9, Reason := "r", Message := "m" }] :=
  (SetCondition_appends
    [{ Type_ := "Available", Status := "True", ObservedGeneration := 0,
       LastTransitionTime := 5, Reason := "a", Message := "b" }]
    9 "Progressing" "True" "r" "m"
    (by
      intro c hc
      simp only [List.mem_singleton] at hc
      subst hc
      decide)).1

/-! ### Relay statuses -/

/-- C20: `ComputeRelayStatuses` returns one entry per target, in order, with the target's
name, the status `Connected` when `podsReady` and `Disconnected` otherwise, no connected-at
time and an empty last error; so the length is kept and no entry reads `Unknown`. -/
theorem ComputeRelayStatuses_spec (relayTargets : List RelayTarget) (podsReady : Bool) :
    ComputeRelayStatuses relayTargets podsReady
        = relayTargets.map (fun target =>
            { Name := target.Name,
              Status := if podsReady then "Connected" else "Disconnected",
              ConnectedAt := none, LastError := "" })
      ∧ (ComputeRelayStatuses relayTargets podsReady).length = relayTargets.length
      ∧ (∀ (i : Nat) (target : RelayTarget), relayTargets[i]? = some target →
          ∃ st, (ComputeRelayStatuses relayTargets podsReady)[i]? = some st
            ∧ st.Name = target.Name)
      ∧ (∀ st ∈ ComputeRelayStatuses relayTargets podsReady,
          st.Status = (if podsReady then "Connected" else "Disconnected")
            ∧ st.Status ≠ "Unknown" ∧ st.ConnectedAt = none ∧ st.LastError = "") := by
  have hmap : ComputeRelayStatuses relayTargets podsReady
      = relayTargets.map (fun target =>
          { Name := target.Name,
            Status := if podsReady then "Connected" else "Disconnected",
            ConnectedAt := none, LastError := "" }) := by
    unfold ComputeRelayStatuses
    have h : ∀ (l : List RelayTarget) (acc : List RelayConnectionStatus),
        l.foldl (fun statuses target =>
            statuses ++ [({ Name := target.Name,
                            Status := if podsReady then "Connected" else "Disconnected" }
                          : RelayConnectionStatus)]) acc
          = acc ++ l.map (fun target =>
              { Name := target.Name,
                Status := if podsReady then "Connected" else "Disconnected",
                ConnectedAt := none, LastError := "" }) := by
      intro l
      induction l with
      | nil => intro acc; simp
      | cons t rest ih => intro acc; simp [List.foldl_cons, ih]
    rw [h]
    simp
  refine ⟨hmap, ?_, ?_, ?_⟩
  · rw [hmap, List.length_map]
  · intro i target hi
    rw [hmap, List.getElem?_map, hi]
    exact ⟨_, rfl, rfl⟩
  · intro st hst
    rw [hmap, List.mem_map] at hst
    obtain ⟨t, _, rfl⟩ := hst
    refine ⟨rfl, ?_, rfl, rfl⟩
    cases podsReady <;> simp

/-! ### Tier resolution fails -/

/-- With the service found, `Reconcile` reaches the tier step. -/
theorem Reconcile_to_resolveClass (faults : Faults) (clock : Nat → Nat) (w : World)
    (req : NamespacedName) (pe : PortalExpose) (svc : Service)
    (hget : Client.GetPortalExpose faults w req = Except.ok pe)
    (hdel : Time.IsZero pe.DeletionTimestamp = true)
    (hfin : HasFinalizer pe.toObjectMeta FinalizerName = true)
    (hsvc : Client.GetService faults w
      { Name := pe.Spec.App.Service.Name, Namespace := pe.Namespace } = Except.ok svc) :
    Reconcile faults clock w req
      = Reconcile.resolveClass faults clock w (serviceFound clock pe) := by
  unfold Reconcile
  simp only [hget, hdel, hfin, hsvc, Bool.not_true, Bool.false_eq_true, if_false]
  rfl

/-- C11: in a pass where the service is found and the tier resolution fails with error
`e`, `Reconcile` issues one event and one status write and nothing else; the written
status has phase Failed, the condition `TunnelClassExists` at False with the text of `e` as
message, and `ServiceExists` still at True; no workload is created or updated; when the
write succeeds the status is stored and the pass returns success with no requeue and no
error. -/
theorem Reconcile_tier_unresolved (faults : Faults) (clock : Nat → Nat) (w : World)
    (req : NamespacedName) (pe : PortalExpose) (svc : Service) (e : Err)
    (hget : Client.GetPortalExpose faults w req = Except.ok pe)
    (hdel : Time.IsZero pe.DeletionTimestamp = true)
    (hfin : HasFinalizer pe.toObjectMeta FinalizerName = true)
    (hsvc : Client.GetService faults w
      { Name := pe.Spec.App.Service.Name, Namespace := pe.Namespace } = Except.ok svc)
    (htc : GetTunnelClass faults w pe.Spec.TunnelClassName = Except.error e)
    (hns : faults Op.StatusUpdatePortalExpose = none) :
    ∃ (pe1 : PortalExpose),
      (Reconcile faults clock w req).calls
          = [Call.Event "Warning" "TunnelClassNotFound" e.Error, Call.StatusUpdate pe1]
        ∧ pe1.toObjectMeta = pe.toObjectMeta ∧ pe1.Spec = pe.Spec
        ∧ pe1.Status.Phase = "Failed"
        ∧ (∃ c, FindCondition pe1.Status.Conditions "TunnelClassExists" = some c
              ∧ c.Status = ConditionFalse ∧ c.Message = e.Error)
        ∧ IsConditionTrue pe1.Status.Conditions ConditionServiceExists = true
        ∧ (Reconcile faults clock w req).result = { Requeue := false, RequeueAfter := 0 }
        ∧ (Reconcile faults clock w req).err = none
        ∧ (Reconcile faults clock w req).panic = none
        ∧ Client.GetPortalExpose faults (Reconcile faults clock w req).world req
            = Except.ok pe1
        ∧ (Reconcile faults clock w req).world.Deployments = w.Deployments := by
  obtain ⟨hgf, hfind, hkey⟩ := GetPortalExpose_ok faults w req pe hget
  have hk := keyOf_eq_of_hasKey _ _ hkey
  obtain ⟨w1, hU, hread, hdep, _, _⟩ := StatusUpdate_ok faults w req pe
    { pe with
      Status :=
        { pe.Status with
          Phase := "Failed",
          Conditions :=
            SetCondition
              (SetCondition pe.Status.Conditions (clock 0) ConditionServiceExists
                ConditionTrue "ServiceFound" "Service exists")
              (clock 1) "TunnelClassExists" ConditionFalse "TunnelClassNotFound" e.Error } }
    hfind hk hns
  have hR : Reconcile faults clock w req
      = { world := w1,
          calls := [Call.Event "Warning" "TunnelClassNotFound" e.Error,
                    Call.StatusUpdate
                      { pe with
                        Status :=
                          { pe.Status with
                            Phase := "Failed",
                            Conditions :=
                              SetCondition
                                (SetCondition pe.Status.Conditions (clock 0)
                                  ConditionServiceExists ConditionTrue "ServiceFound"
                                  "Service exists")
                                (clock 1) "TunnelClassExists" ConditionFalse
                                "TunnelClassNotFound" e.Error } }] } := by
    rw [Reconcile_to_resolveClass faults clock w req pe svc hget hdel hfin hsvc]
    unfold Reconcile.resolveClass resolveTunnelClass
    have htc1 : GetTunnelClass faults w (serviceFound clock pe).Spec.TunnelClassName
        = Except.error e := htc
    simp only [htc1]
    have hU1 : Client.StatusUpdate faults w
        { serviceFound clock pe with
          Status :=
            { (serviceFound clock pe).Status with
              Phase := "Failed",
              Conditions :=
                SetCondition (serviceFound clock pe).Status.Conditions (clock 1)
                  "TunnelClassExists" ConditionFalse "TunnelClassNotFound" e.Error } }
        = Except.ok w1 := hU
    exact (by rw [show (Client.StatusUpdate faults w _ = Except.ok w1) from hU1] :
      (match Client.StatusUpdate faults w _ with
        | Except.error statusErr => _
        | Except.ok w1 => _) = _)
  have hne : ConditionServiceExists ≠ "TunnelClassExists" := by decide
  rw [hR]
  refine ⟨_, rfl, rfl, rfl, rfl, ?_, ?_, rfl, rfl, rfl, ?_, hdep⟩
  · refine Exists.intro ?c1 ⟨?h1, ?h2, ?h3⟩
    case h1 =>
      simp only
      rw [FindCondition_SetCondition_same]
      exact rfl
    case h2 => rfl
    case h3 => rfl
  · simp only [IsConditionTrue]
    rw [FindCondition_SetCondition_other _ _ _ _ _ _ _ hne, FindCondition_SetCondition_same]
    rfl
  · unfold Client.GetPortalExpose
    simp only [hgf, hread]

/-- Witness for C11: the sample exposure in a store without any tier. -/
theorem Reconcile_tier_unresolved_witness :
    ∃ (pe1 : PortalExpose),
      (Reconcile noFaults sampleClock
          { PortalExposes := [sampleExpose], Services := [sampleService] } sampleReq).calls
          = [Call.Event "Warning" "TunnelClassNotFound"
              ("no default TunnelClass found (annotate one with "
                ++ "portal.gosuda.org/is-default-class" ++ ": \"true\")"),
             Call.StatusUpdate pe1]
        ∧ pe1.Status.Phase = "Failed"
        ∧ (Reconcile noFaults sampleClock
          { PortalExposes := [sampleExpose], Services := [sampleService] } sampleReq).result
            = { Requeue := false, RequeueAfter := 0 } := by
  obtain ⟨pe1, h1, _, _, h4, _, _, h7, _⟩ :=
    Reconcile_tier_unresolved noFaults sampleClock
      { PortalExposes := [sampleExpose], Services := [sampleService] }
      sampleReq sampleExpose sampleService
      (Err.Other ("no default TunnelClass found (annotate one with "
                ++ "portal.gosuda.org/is-default-class" ++ ": \"true\")"))
      rfl (by decide) (by decide) rfl rfl rfl
  exact ⟨pe1, h1, h4, h7⟩

/-! ### The workload is created -/

/-- C13: in a pass for an exposure with the finalizer and a first relay target, with the
service found, the tier resolved and no workload named `{name}-tunnel` in the store,
`Reconcile` creates `BuildDeployment(exposure, tier)` with the exposure as its single
controller owner, records the event, and writes a status with phase Pending,
`Progressing` at True and the public URL built from the app name and the first target's
URL; the workload and the status are stored and the pass returns requeue. -/
theorem Reconcile_creates_workload (faults : Faults) (clock : Nat → Nat) (w : World)
    (req : NamespacedName) (pe : PortalExpose) (svc : Service) (tc : TunnelClass)
    (target0 : RelayTarget) (rest : List RelayTarget)
    (hget : Client.GetPortalExpose faults w req = Except.ok pe)
    (hdel : Time.IsZero pe.DeletionTimestamp = true)
    (hfin : HasFinalizer pe.toObjectMeta FinalizerName = true)
    (htargets : pe.Spec.Relay.Targets = target0 :: rest)
    (hsvc : Client.GetService faults w
      { Name := pe.Spec.App.Service.Name, Namespace := pe.Namespace } = Except.ok svc)
    (htc : GetTunnelClass faults w pe.Spec.TunnelClassName = Except.ok tc)
    (hnone : w.Deployments.find? (fun o =>
      hasKey { Name := pe.Name ++ "-tunnel", Namespace := pe.Namespace } o.toObjectMeta) = none)
    (hown : faults Op.SetControllerReference = none)
    (hgd : faults Op.GetDeployment = none)
    (hcd : faults Op.CreateDeployment = none)
    (hns : faults Op.StatusUpdatePortalExpose = none) :
    ∃ (pe1 : PortalExpose),
      (Reconcile faults clock w req).calls
          = [Call.CreateDeployment (ownedDeployment pe tc),
             Call.Event "Normal" "Created" "PortalExpose created, deploying tunnel pods",
             Call.StatusUpdate pe1]
        ∧ ownedDeployment pe tc
            = { BuildDeployment pe tc with
                OwnerReferences :=
                  [{ APIVersion := "portal.gosuda.org/v1alpha1", Kind := "PortalExpose",
                     Name := pe.Name, Controller := true, BlockOwnerDeletion := true }] }
        ∧ pe1.toObjectMeta = pe.toObjectMeta ∧ pe1.Spec = pe.Spec
        ∧ pe1.Status.Phase = "Pending"
        ∧ IsConditionTrue pe1.Status.Conditions ConditionProgressing = true
        ∧ pe1.Status.PublicURL = ConstructPublicURL pe.Spec.App.Name target0.URL
        ∧ (Reconcile faults clock w req).result.Requeue = true
        ∧ (Reconcile faults clock w req).err = none
        ∧ (Reconcile faults clock w req).panic = none
        ∧ (Reconcile faults clock w req).world.Deployments
            = w.Deployments ++ [ownedDeployment pe tc]
        ∧ Client.GetPortalExpose faults (Reconcile faults clock w req).world req
            = Except.ok pe1 := by
  obtain ⟨hgf, hfind, hkey⟩ := GetPortalExpose_ok faults w req pe hget
  have hk := keyOf_eq_of_hasKey _ _ hkey
  have hR : Reconcile faults clock w req
      = Reconcile.reconcileDeployment faults clock w (serviceFound clock pe) tc :=
    Reconcile_main_path faults clock w req pe svc tc hget hdel hfin hsvc htc
  have hscr : SetControllerReference faults (serviceFound clock pe)
      (BuildDeployment (serviceFound clock pe) tc) = Except.ok (ownedDeployment pe tc) := by
    unfold SetControllerReference
    simp only [hown]
    rfl
  have hgetd : Client.GetDeployment faults w
      { Name := (ownedDeployment pe tc).Name, Namespace := (ownedDeployment pe tc).Namespace }
      = Except.error (Err.NotFound
          ("deployments.apps \"" ++ (pe.Name ++ "-tunnel") ++ "\" not found")) := by
    have hnone1 : w.Deployments.find? (fun o =>
        hasKey { Name := (ownedDeployment pe tc).Name,
                 Namespace := (ownedDeployment pe tc).Namespace } o.toObjectMeta) = none :=
      hnone
    unfold Client.GetDeployment
    simp only [hgd, hnone1]
    rfl
  have hany : (w.Deployments.any fun o =>
      hasKey (keyOf (ownedDeployment pe tc).toObjectMeta) o.toObjectMeta) = false := by
    have hk1 : keyOf (ownedDeployment pe tc).toObjectMeta
        = { Name := pe.Name ++ "-tunnel", Namespace := pe.Namespace } := rfl
    rw [hk1]
    rw [List.find?_eq_none] at hnone
    rw [Bool.eq_false_iff]
    intro h
    obtain ⟨o, ho, hko⟩ := List.any_eq_true.mp h
    exact hnone o ho hko
  have hcreate : Client.CreateDeployment faults w (ownedDeployment pe tc)
      = Except.ok { w with Deployments := w.Deployments ++ [ownedDeployment pe tc] } := by
    unfold Client.CreateDeployment
    simp only [hcd, hany, Bool.false_eq_true, if_false]
  obtain ⟨w2, hU, hread, hdep, _, _⟩ := StatusUpdate_ok faults
    { w with Deployments := w.Deployments ++ [ownedDeployment pe tc] } req pe
    { pe with
      Status :=
        { pe.Status with
          Phase := "Pending",
          PublicURL := ConstructPublicURL pe.Spec.App.Name target0.URL,
          Conditions :=
            SetCondition
              (SetCondition pe.Status.Conditions (clock 0) ConditionServiceExists
                ConditionTrue "ServiceFound" "Service exists")
              (clock 1) ConditionProgressing ConditionTrue "DeploymentCreated"
              "Tunnel Deployment created, waiting for pods" } }
    hfind hk hns
  have hT : (serviceFound clock pe).Spec.Relay.Targets = target0 :: rest := htargets
  have hOut : Reconcile faults clock w req
      = { world := w2,
          calls := [Call.CreateDeployment (ownedDeployment pe tc),
                    Call.Event "Normal" "Created" "PortalExpose created, deploying tunnel pods",
                    Call.StatusUpdate
                      { pe with
                        Status :=
                          { pe.Status with
                            Phase := "Pending",
                            PublicURL := ConstructPublicURL pe.Spec.App.Name target0.URL,
                            Conditions :=
                              SetCondition
                                (SetCondition pe.Status.Conditions (clock 0)
                                  ConditionServiceExists ConditionTrue "ServiceFound"
                                  "Service exists")
                                (clock 1) ConditionProgressing ConditionTrue
                                "DeploymentCreated"
                                "Tunnel Deployment created, waiting for pods" } }],
          result := { Requeue := true } } := by
    rw [hR]
    unfold Reconcile.reconcileDeployment
    simp only [hscr, hgetd, Err.IsNotFound, if_true, hcreate, hT]
    have hU1 : Client.StatusUpdate faults
        { w with Deployments := w.Deployments ++ [ownedDeployment pe tc] }
        { ({ ({ serviceFound clock pe with Status.Phase := "Pending" } : PortalExpose) with
              Status.Conditions :=
                SetCondition (serviceFound clock pe).Status.Conditions (clock 1)
                  ConditionProgressing ConditionTrue "DeploymentCreated"
                  "Tunnel Deployment created, waiting for pods" } : PortalExpose) with
          Status.PublicURL := ConstructPublicURL pe.Spec.App.Name target0.URL }
        = Except.ok w2 := hU
    exact (by rw [show (Client.StatusUpdate faults _ _ = Except.ok w2) from hU1] :
      (match Client.StatusUpdate faults _ _ with
        | Except.error err => _
        | Except.ok w2 => _) = _)
  rw [hOut]
  refine ⟨_, rfl, rfl, rfl, rfl, rfl, ?_, rfl, rfl, rfl, rfl, hdep, ?_⟩
  · simp only
    rw [IsConditionTrue_SetCondition_same]
    rfl
  · unfold Client.GetPortalExpose
    simp only [hgf, hread]

/-- Witness for C13: the second pass over the sample exposure, before a workload exists. -/
theorem Reconcile_creates_workload_witness :
    ∃ (pe1 : PortalExpose),
      (Reconcile noFaults sampleClock (sampleWorld []) sampleReq).calls
          = [Call.CreateDeployment (ownedDeployment sampleExpose sampleClass),
             Call.Event "Normal" "Created" "PortalExpose created, deploying tunnel pods",
             Call.StatusUpdate pe1]
        ∧ pe1.Status.Phase = "Pending"
        ∧ pe1.Status.PublicURL = "https://my-app.portal.example.org"
        ∧ (Reconcile noFaults sampleClock (sampleWorld []) sampleReq).result.Requeue
            = true := by
  obtain ⟨pe1, h1, _, _, _, h5, _, h7, h8, _⟩ :=
    Reconcile_creates_workload noFaults sampleClock (sampleWorld []) sampleReq sampleExpose
      sampleService sampleClass { Name := "r1", URL := "wss://portal.example.org/relay" } []
      rfl (by decide) (by decide) rfl rfl rfl rfl rfl rfl rfl rfl
  refine ⟨pe1, h1, h5, ?_, h8⟩
  rw [h7]
  decide

/-! ### Store errors during tier resolution -/

/-- C12 (the code at the failing input): with the sample exposure and its service in the
store and the listing of tiers failing with a connection error, `Reconcile` returns no
error and no requeue; it writes phase Failed and the error text into the status. -/
theorem Reconcile_tier_store_error_written :
    (Reconcile listFails sampleClock (sampleWorld []) sampleReq).err = none
      ∧ (Reconcile listFails sampleClock (sampleWorld []) sampleReq).result.Requeue = false
      ∧ (Reconcile listFails sampleClock (sampleWorld []) sampleReq).calls
          = [Call.Event "Warning" "TunnelClassNotFound"
               "failed to list TunnelClasses: connection refused",
             Call.StatusUpdate
               { sampleExpose with
                 Status :=
                   { Phase := "Failed",
                     Conditions :=
                       [{ Type_ := "ServiceExists", Status := "True", ObservedGeneration := 0,
                          LastTransitionTime := 100, Reason := "ServiceFound",
                          Message := "Service exists" },
                        { Type_ := "TunnelClassExists", Status := "False",
                          ObservedGeneration := 0, LastTransitionTime := 101,
                          Reason := "TunnelClassNotFound",
                          Message := "failed to list TunnelClasses: connection refused" }] } }]
      ∧ (Reconcile listFails sampleClock (sampleWorld []) sampleReq).world.PortalExposes.map
            (fun o => o.Status.Phase) = ["Failed"] := by
  refine ⟨rfl, rfl, ?_, ?_⟩
  · decide
  · decide

/-- Store errors other than not-found on the fetch of the exposure, of the service and of
the workload are returned as they are, and the pass writes nothing. -/
theorem Reconcile_get_errors_propagate (faults : Faults) (clock : Nat → Nat) (w : World)
    (req : NamespacedName) (e : Err) (hnf : e.IsNotFound = false) :
    (Client.GetPortalExpose faults w req = Except.error e →
        Reconcile faults clock w req = { world := w, err := some e })
      ∧ (∀ pe, Client.GetPortalExpose faults w req = Except.ok pe →
          Time.IsZero pe.DeletionTimestamp = true →
          HasFinalizer pe.toObjectMeta FinalizerName = true →
          Client.GetService faults w
            { Name := pe.Spec.App.Service.Name, Namespace := pe.Namespace } = Except.error e →
          Reconcile faults clock w req = { world := w, err := some e })
      ∧ (∀ pe svc tc, Client.GetPortalExpose faults w req = Except.ok pe →
          Time.IsZero pe.DeletionTimestamp = true →
          HasFinalizer pe.toObjectMeta FinalizerName = true →
          Client.GetService faults w
            { Name := pe.Spec.App.Service.Name, Namespace := pe.Namespace } = Except.ok svc →
          GetTunnelClass faults w pe.Spec.TunnelClassName = Except.ok tc →
          faults Op.SetControllerReference = none →
          Client.GetDeployment faults w
            { Name := pe.Name ++ "-tunnel", Namespace := pe.Namespace } = Except.error e →
          Reconcile faults clock w req = { world := w, err := some e }) := by
  refine ⟨?_, ?_, ?_⟩
  · intro h
    unfold Reconcile
    simp [h, hnf]
  · intro pe hget hdel hfin hsvc
    unfold Reconcile
    simp [hget, hdel, hfin, hsvc, hnf]
  · intro pe svc tc hget hdel hfin hsvc htc hown hgd
    rw [Reconcile_main_path faults clock w req pe svc tc hget hdel hfin hsvc htc]
    have hscr : SetControllerReference faults (serviceFound clock pe)
        (BuildDeployment (serviceFound clock pe) tc) = Except.ok (ownedDeployment pe tc) := by
      unfold SetControllerReference
      simp only [hown]
      rfl
    have hgd1 : Client.GetDeployment faults w
        { Name := (ownedDeployment pe tc).Name,
          Namespace := (ownedDeployment pe tc).Namespace } = Except.error e := hgd
    unfold Reconcile.reconcileDeployment
    simp only [hscr, hgd1, hnf, Bool.false_eq_true, if_false]

/-! ### The deletion protocol converges -/

/-- An exposure found after the finalizer-dropping update is the updated object, up to its
stored status. -/
theorem found_after_update (l : List PortalExpose) (key : NamespacedName)
    (obj x : PortalExpose) (hkey : keyOf obj.toObjectMeta = key)
    (hx : (l.filterMap (fun o =>
        if hasKey (keyOf obj.toObjectMeta) o.toObjectMeta then
          if !Time.IsZero obj.DeletionTimestamp && obj.Finalizers.isEmpty then none
          else some { obj with Status := o.Status }
        else some o)).find? (fun o => hasKey key o.toObjectMeta) = some x) :
    x.toObjectMeta = obj.toObjectMeta := by
  have hmem := List.mem_of_find?_eq_some hx
  have hkx : hasKey key x.toObjectMeta = true := by simpa using List.find?_some hx
  rw [List.mem_filterMap] at hmem
  obtain ⟨o, _, ho⟩ := hmem
  rw [hkey] at ho
  by_cases hko : hasKey key o.toObjectMeta = true
  · simp only [hko, if_true] at ho
    split at ho
    · simp at ho
    · simp only [Option.some.injEq] at ho
      rw [← ho]
  · simp only [hko, Bool.false_eq_true, if_false, Option.some.injEq] at ho
    rw [ho] at hko
    exact absurd hkx hko

/-- C14: for an exposure marked for deletion that carries the finalizer, with no workload
named `{name}-tunnel` in the store, one pass issues the exposure update that drops the
finalizer (and the event), returns success with no requeue, and leaves under the request
key only objects without the finalizer; a later pass on that store issues no call, changes
nothing and returns success, as does `handleDeletion` on any exposure without the
finalizer; so `N` passes, for every `N ≥ 1`, end in the store that one pass leaves. -/
theorem deletion_idempotent (faults : Faults) (clock : Nat → Nat) (w : World)
    (req : NamespacedName) (pe : PortalExpose)
    (hget : Client.GetPortalExpose faults w req = Except.ok pe)
    (hdel : Time.IsZero pe.DeletionTimestamp = false)
    (hfin : HasFinalizer pe.toObjectMeta FinalizerName = true)
    (hnone : w.Deployments.find? (fun o =>
      hasKey { Name := pe.Name ++ "-tunnel", Namespace := pe.Namespace } o.toObjectMeta) = none)
    (hgd : faults Op.GetDeployment = none)
    (hup : faults Op.UpdatePortalExpose = none) :
    (Reconcile faults clock w req).calls
        = [Call.UpdatePortalExpose
             { pe with Finalizers := pe.Finalizers.filter (fun f => f != FinalizerName) },
           Call.Event "Normal" "Deleted" "PortalExpose deleted, tunnel pods cleaned up"]
      ∧ FinalizerName ∉ pe.Finalizers.filter (fun f => f != FinalizerName)
      ∧ (Reconcile faults clock w req).result = { Requeue := false, RequeueAfter := 0 }
      ∧ (Reconcile faults clock w req).err = none
      ∧ (Reconcile faults clock w req).panic = none
      ∧ (Reconcile faults clock w req).world.Deployments = w.Deployments
      ∧ (∀ x, (Reconcile faults clock w req).world.PortalExposes.find?
              (fun o => hasKey req o.toObjectMeta) = some x →
            x.Finalizers = pe.Finalizers.filter (fun f => f != FinalizerName))
      ∧ (∀ (faults2 : Faults) (w2 : World) (pe2 : PortalExpose),
            HasFinalizer pe2.toObjectMeta FinalizerName = false →
            handleDeletion faults2 w2 pe2 = { world := w2 })
      ∧ (∀ clock2 : Nat → Nat,
            Reconcile faults clock2 (Reconcile faults clock w req).world req
              = { world := (Reconcile faults clock w req).world })
      ∧ (∀ n : Nat, 1 ≤ n →
            ReconcileN faults clock w req n = ReconcileN faults clock w req 1) := by
  obtain ⟨hgf, hfind, hkey⟩ := GetPortalExpose_ok faults w req pe hget
  have hk := keyOf_eq_of_hasKey _ _ hkey
  have hc : ContainsFinalizer pe.toObjectMeta FinalizerName = true := hfin
  have hrem : ({ pe with toObjectMeta := (RemoveFinalizer pe.toObjectMeta FinalizerName).1 }
      : PortalExpose)
      = { pe with Finalizers := pe.Finalizers.filter (fun f => f != FinalizerName) } := by
    simp [RemoveFinalizer, hc]
  have hgetd : Client.GetDeployment faults w
      { Name := pe.Name ++ "-tunnel", Namespace := pe.Namespace }
      = Except.error (Err.NotFound
          ("deployments.apps \"" ++ (pe.Name ++ "-tunnel") ++ "\" not found")) := by
    unfold Client.GetDeployment
    simp only [hgd, hnone]
  have hany : (w.PortalExposes.any fun o => hasKey req o.toObjectMeta) = true :=
    List.any_eq_true.mpr ⟨pe, List.mem_of_find?_eq_some hfind, hkey⟩
  have hk2 : keyOf ({ pe with Finalizers := pe.Finalizers.filter (fun f => f != FinalizerName) }
      : PortalExpose).toObjectMeta = req := hk
  have hU : Client.UpdatePortalExpose faults w
      { pe with Finalizers := pe.Finalizers.filter (fun f => f != FinalizerName) }
      = Except.ok { w with PortalExposes := w.PortalExposes.filterMap (fun o =>
          if hasKey (keyOf ({ pe with
              Finalizers := pe.Finalizers.filter (fun f => f != FinalizerName) }
              : PortalExpose).toObjectMeta) o.toObjectMeta then
            if !Time.IsZero pe.DeletionTimestamp
                && (pe.Finalizers.filter (fun f => f != FinalizerName)).isEmpty then none
            else some { ({ pe with
                Finalizers := pe.Finalizers.filter (fun f => f != FinalizerName) }
                : PortalExpose) with Status := o.Status }
          else some o) } := by
    unfold Client.UpdatePortalExpose
    simp only [hup, hk2, hany, if_true]
  have hR : Reconcile faults clock w req
      = { world := { w with PortalExposes := w.PortalExposes.filterMap (fun o =>
            if hasKey (keyOf ({ pe with
                Finalizers := pe.Finalizers.filter (fun f => f != FinalizerName) }
                : PortalExpose).toObjectMeta) o.toObjectMeta then
              if !Time.IsZero pe.DeletionTimestamp
                  && (pe.Finalizers.filter (fun f => f != FinalizerName)).isEmpty then none
              else some { ({ pe with
                  Finalizers := pe.Finalizers.filter (fun f => f != FinalizerName) }
                  : PortalExpose) with Status := o.Status }
            else some o) },
          calls := [Call.UpdatePortalExpose
                      { pe with
                        Finalizers := pe.Finalizers.filter (fun f => f != FinalizerName) },
                    Call.Event "Normal" "Deleted"
                      "PortalExpose deleted, tunnel pods cleaned up"] } := by
    have h1 : Reconcile faults clock w req = handleDeletion faults w pe := by
      unfold Reconcile
      simp only [hget, hdel, Bool.not_false, if_true]
    rw [h1]
    unfold handleDeletion
    simp only [hfin, Bool.not_true, Bool.false_eq_true, if_false, hgetd, Err.IsNotFound, hrem,
      hU]
  have hnomem : FinalizerName ∉ pe.Finalizers.filter (fun f => f != FinalizerName) := by
    simp
  have hnoop : ∀ (faults2 : Faults) (w2 : World) (pe2 : PortalExpose),
      HasFinalizer pe2.toObjectMeta FinalizerName = false →
      handleDeletion faults2 w2 pe2 = { world := w2 } := by
    intro faults2 w2 pe2 h2
    unfold handleDeletion
    simp only [h2, Bool.not_false, if_true]
  have hmeta : ∀ x, (Reconcile faults clock w req).world.PortalExposes.find?
      (fun o => hasKey req o.toObjectMeta) = some x →
      x.toObjectMeta = ({ pe with
        Finalizers := pe.Finalizers.filter (fun f => f != FinalizerName) }
        : PortalExpose).toObjectMeta := by
    intro x hx
    rw [hR] at hx
    exact found_after_update w.PortalExposes req _ x hk2 hx
  have hlater : ∀ clock2 : Nat → Nat,
      Reconcile faults clock2 (Reconcile faults clock w req).world req
        = { world := (Reconcile faults clock w req).world } := by
    intro clock2
    generalize hW : (Reconcile faults clock w req).world = W1 at hmeta
    unfold Reconcile Client.GetPortalExpose
    simp only [hgf]
    cases hf : W1.PortalExposes.find? (fun o => hasKey req o.toObjectMeta) with
    | none => simp [Err.IsNotFound]
    | some x =>
      have hm := hmeta x hf
      have hxd : Time.IsZero x.DeletionTimestamp = false := by
        have : x.DeletionTimestamp = pe.DeletionTimestamp := by rw [hm]
        rw [this]; exact hdel
      have hxf : HasFinalizer x.toObjectMeta FinalizerName = false := by
        rw [hm]
        simp [HasFinalizer, ContainsFinalizer]
      simp only [hxd, Bool.not_false, if_true]
      exact hnoop faults W1 x hxf
  refine ⟨?_, hnomem, ?_, ?_, ?_, ?_, ?_, hnoop, hlater, ?_⟩
  · rw [hR]
  · rw [hR]
  · rw [hR]
  · rw [hR]
  · rw [hR]
  · intro x hx
    have := hmeta x hx
    rw [this]
  · intro n hn
    have hstep : ∀ m : Nat, ReconcileN faults clock (Reconcile faults clock w req).world req m
        = (Reconcile faults clock w req).world := by
      intro m
      induction m with
      | zero => rfl
      | succ k ih =>
        simp only [ReconcileN]
        rw [hlater clock]
        exact ih
    obtain ⟨k, rfl⟩ : ∃ k, n = k + 1 := ⟨n - 1, by omega⟩
    simp only [ReconcileN]
    rw [hstep k]

/-- Witness for C14: the sample exposure, marked for deletion, with no workload left. -/
theorem deletion_idempotent_witness :
    (Reconcile noFaults sampleClock { PortalExposes := [sampleExposeDeleting] } sampleReq).calls
        = [Call.UpdatePortalExpose { sampleExposeDeleting with Finalizers := [] },
           Call.Event "Normal" "Deleted" "PortalExpose deleted, tunnel pods cleaned up"]
      ∧ ReconcileN noFaults sampleClock { PortalExposes := [sampleExposeDeleting] } sampleReq 3
          = ReconcileN noFaults sampleClock { PortalExposes := [sampleExposeDeleting] }
              sampleReq 1 := by
  have h := deletion_idempotent noFaults sampleClock { PortalExposes := [sampleExposeDeleting] }
    sampleReq sampleExposeDeleting rfl (by decide) (by decide) rfl rfl rfl
  refine ⟨?_, h.2.2.2.2.2.2.2.2.2 3 (by decide)⟩
  rw [h.1]
  decide

/-! ### Tier resolution -/

/-- The first marked tier found by the search of `GetDefaultTunnelClass`. -/
theorem find_first_default (pre post : List TunnelClass) (tc : TunnelClass)
    (hpre : ∀ x ∈ pre, isDefaultClass x = false) (htc : isDefaultClass tc = true) :
    (pre ++ tc :: post).find? (fun tc =>
        tc.Annotations != none && mapIndex tc.Annotations DefaultClassAnnotation == "true")
      = some tc := by
  induction pre with
  | nil =>
    have h : (tc.Annotations != none
        && mapIndex tc.Annotations DefaultClassAnnotation == "true") = true := htc
    simp only [List.nil_append, List.find?_cons, h]
  | cons a rest ih =>
    have ha : (a.Annotations != none
        && mapIndex a.Annotations DefaultClassAnnotation == "true") = false :=
      hpre a (List.mem_cons_self _ _)
    simp only [List.cons_append, List.find?_cons, ha]
    exact ih (fun x hx => hpre x (List.mem_cons_of_mem _ hx))

/-- C15: with a non-empty name `GetTunnelClass` returns the tier fetched by that name, or
the store error wrapped, and does not look at the default marker; with an empty name it
returns the first tier in listing order whose marker annotation is exactly `"true"`, also
when later tiers carry it too; when no tier carries it the error text names the annotation
key; a failed listing is returned wrapped. -/
theorem GetTunnelClass_priority :
    (∀ (faults : Faults) (w : World) (name : String), name ≠ "" →
        GetTunnelClass faults w name
          = match Client.GetTunnelClass faults w { Name := name } with
            | Except.ok tc => Except.ok tc
            | Except.error e =>
              Except.error
                (Err.Wrap ("failed to get TunnelClass " ++ Sprintf_q name ++ ": ") e))
      ∧ (∀ (msg : String) (e : Err),
          (Err.Wrap msg e).Error = msg ++ e.Error
            ∧ (Err.Wrap msg e).IsNotFound = e.IsNotFound)
      ∧ (∀ (faults : Faults) (w : World) (pre post : List TunnelClass) (tc : TunnelClass),
          faults Op.ListTunnelClasses = none →
          w.TunnelClasses = pre ++ tc :: post →
          (∀ x ∈ pre, isDefaultClass x = false) → isDefaultClass tc = true →
          GetTunnelClass faults w "" = Except.ok tc)
      ∧ (∀ (faults : Faults) (w : World),
          faults Op.ListTunnelClasses = none →
          (∀ x ∈ w.TunnelClasses, isDefaultClass x = false) →
          ∃ e, GetTunnelClass faults w "" = Except.error e
            ∧ e.Error = "no default TunnelClass found (annotate one with "
                ++ "portal.gosuda.org/is-default-class" ++ ": \"true\")")
      ∧ (∀ (faults : Faults) (w : World) (e : Err),
          faults Op.ListTunnelClasses = some e →
          GetTunnelClass faults w "" = Except.error (Err.Wrap "failed to list TunnelClasses: " e))
      ∧ (∀ tc : TunnelClass,
          isDefaultClass tc = true
            ↔ ∃ l, tc.Annotations = some l
                ∧ l.lookup "portal.gosuda.org/is-default-class" = some "true") := by
  refine ⟨?_, ?_, ?_, ?_, ?_, ?_⟩
  · intro faults w name hname
    have hb : (name != "") = true := by simpa using hname
    unfold GetTunnelClass
    simp only [hb, if_true]
    cases Client.GetTunnelClass faults w { Name := name } <;> rfl
  · intro msg e
    exact ⟨rfl, rfl⟩
  · intro faults w pre post tc hl hw hpre htc
    unfold GetTunnelClass GetDefaultTunnelClass Client.ListTunnelClasses
    simp only [hl, hw, find_first_default pre post tc hpre htc]
    rfl
  · intro faults w hl hnone
    have hfind : w.TunnelClasses.find? (fun tc =>
        tc.Annotations != none && mapIndex tc.Annotations DefaultClassAnnotation == "true")
        = none := by
      rw [List.find?_eq_none]
      intro x hx
      have := hnone x hx
      unfold isDefaultClass at this
      simp [this]
    unfold GetTunnelClass GetDefaultTunnelClass Client.ListTunnelClasses
    simp only [hl, hfind]
    exact ⟨_, rfl, rfl⟩
  · intro faults w e hl
    unfold GetTunnelClass GetDefaultTunnelClass Client.ListTunnelClasses
    simp only [hl]
    rfl
  · intro tc
    unfold isDefaultClass mapIndex DefaultClassAnnotation
    cases hA : tc.Annotations with
    | none => simp
    | some l =>
      cases hL : l.lookup "portal.gosuda.org/is-default-class" with
      | none => simp [hL]
      | some v => simp [hL]

/-! ### Arbitration of the default tier -/

/-- After `delete(m, k)` the map has no entry under `k`. -/
theorem lookup_after_delete (l : List (String × String)) (k : String) :
    (l.filter (fun p => p.1 != k)).lookup k = none := by
  induction l with
  | nil => rfl
  | cons a rest ih =>
    by_cases ha : a.1 = k
    · simp [List.filter_cons, ha, ih]
    · have hb : (a.1 != k) = true := by simpa using ha
      have hk : (k == a.1) = false := by
        simp only [beq_eq_false_iff_ne, ne_eq]
        exact fun h => ha h.symm
      obtain ⟨a1, a2⟩ := a
      simp only [List.filter_cons, hb, if_true, List.lookup_cons, hk]
      exact ih

/-- A stripped tier does not carry the default marker; its name and key are kept. -/
theorem stripDefault_facts (tc : TunnelClass) :
    isDefaultClass (stripDefault tc) = false ∧ (stripDefault tc).Name = tc.Name
      ∧ keyOf (stripDefault tc).toObjectMeta = keyOf tc.toObjectMeta := by
  refine ⟨?_, rfl, rfl⟩
  unfold isDefaultClass stripDefault mapDelete mapIndex
  cases hA : tc.Annotations with
  | none => simp
  | some l => simp [lookup_after_delete]

/-- Replacing, in a list of tiers with distinct names, the one tier that has the key of
`obj`. -/
theorem replace_unique (pre post : List TunnelClass) (tc obj : TunnelClass)
    (hkey : keyOf obj.toObjectMeta = keyOf tc.toObjectMeta)
    (hnames : ((pre ++ tc :: post).map (fun o => o.Name)).Nodup) :
    (pre ++ tc :: post).map (fun o =>
        if hasKey (keyOf obj.toObjectMeta) o.toObjectMeta then obj else o)
      = pre ++ obj :: post := by
  have hself : hasKey (keyOf tc.toObjectMeta) tc.toObjectMeta = true := by
    simp [hasKey, keyOf]
  have hother : ∀ o : TunnelClass, o.Name ≠ tc.Name →
      hasKey (keyOf tc.toObjectMeta) o.toObjectMeta = false := by
    intro o ho
    simp [hasKey, keyOf, ho]
  rw [List.map_append, List.nodup_append] at hnames
  obtain ⟨_, hpost, hdisj⟩ := hnames
  simp only [List.map_cons, List.nodup_cons, List.mem_map, not_exists, not_and] at hpost
  have hpre : ∀ o ∈ pre, o.Name ≠ tc.Name := by
    intro o ho hn
    exact hdisj (List.mem_map.mpr ⟨o, ho, rfl⟩)
      (by rw [hn]; exact List.mem_map.mpr ⟨tc, List.mem_cons_self _ _, rfl⟩)
  have hpo : ∀ o ∈ post, o.Name ≠ tc.Name := fun o ho hn => hpost.1 o ho hn
  rw [hkey, List.map_append, List.map_cons]
  simp only [hself, if_true]
  congr 1
  · calc pre.map (fun o => if hasKey (keyOf tc.toObjectMeta) o.toObjectMeta then obj else o)
        = pre.map (fun o => o) := by
          apply List.map_congr_left
          intro o ho
          simp [hother o (hpre o ho)]
      _ = pre := List.map_id' pre
  · congr 1
    calc post.map (fun o => if hasKey (keyOf tc.toObjectMeta) o.toObjectMeta then obj else o)
        = post.map (fun o => o) := by
          apply List.map_congr_left
          intro o ho
          simp [hother o (hpo o ho)]
      _ = post := List.map_id' post

/-- The loop of `ensureOnlyOneDefault` without store errors: every listed tier of another
name that carries the marker is replaced in the store by its stripped form, with one
update call each, in listing order. -/
theorem ensureOnlyOneDefault_loop (faults : Faults) (B : TunnelClass)
    (hupd : ∀ n, faults (Op.UpdateTunnelClass n) = none) :
    ∀ (items pre : List TunnelClass) (w : World) (calls : List Call),
      w.TunnelClasses = pre ++ items →
      ((pre ++ items).map (fun o => o.Name)).Nodup →
      ensureOnlyOneDefault.loop faults B items w calls
        = ({ w with TunnelClasses := pre ++ items.map (fun tc =>
              if tc.Name != B.Name && isDefaultClass tc then stripDefault tc else tc) },
           calls ++ (items.filter (fun tc => tc.Name != B.Name && isDefaultClass tc)).map
              (fun tc => Call.UpdateTunnelClass (stripDefault tc)),
           none) := by
  intro items
  induction items with
  | nil =>
    intro pre w calls hw _
    simp only [ensureOnlyOneDefault.loop, List.map_nil, List.filter_nil, List.append_nil]
    rw [← List.append_nil pre, ← hw]
  | cons tc rest ih =>
    intro pre w calls hw hnames
    have hw1 : w.TunnelClasses = (pre ++ [tc]) ++ rest := by simp [hw]
    have hnames1 : (((pre ++ [tc]) ++ rest).map (fun o => o.Name)).Nodup := by
      simpa using hnames
    by_cases hname : tc.Name = B.Name
    · have hb : (tc.Name == B.Name) = true := by simpa using hname
      have hg : (tc.Name != B.Name && isDefaultClass tc) = false := by simp [hname]
      rw [ensureOnlyOneDefault.loop]
      simp only [hb, if_true]
      rw [ih (pre ++ [tc]) w calls hw1 hnames1]
      simp [List.filter_cons, hg, hname]
    · have hb : (tc.Name == B.Name) = false := by simpa using hname
      have hbn : (tc.Name != B.Name) = true := by simpa using hname
      by_cases hdef : isDefaultClass tc = true
      · have hd : (tc.Annotations != none
            && mapIndex tc.Annotations "portal.gosuda.org/is-default-class" == "true")
            = true := hdef
        have hg : (tc.Name != B.Name && isDefaultClass tc) = true := by simp [hbn, hdef]
        obtain ⟨_, hsn, hsk⟩ := stripDefault_facts tc
        have hany : (w.TunnelClasses.any fun o =>
            hasKey (keyOf (stripDefault tc).toObjectMeta) o.toObjectMeta) = true := by
          rw [hw, hsk]
          exact List.any_eq_true.mpr
            ⟨tc, by simp, by simp [hasKey, keyOf]⟩
        have hU : Client.UpdateTunnelClass faults w (stripDefault tc)
            = Except.ok { w with TunnelClasses := pre ++ stripDefault tc :: rest } := by
          unfold Client.UpdateTunnelClass
          simp only [hupd, hany, if_true]
          rw [hw, replace_unique pre rest tc (stripDefault tc) hsk hnames]
        have hnames2 : (((pre ++ [stripDefault tc]) ++ rest).map (fun o => o.Name)).Nodup := by
          simpa [hsn] using hnames
        have hstrip : ({ tc with
            Annotations := mapDelete tc.Annotations "portal.gosuda.org/is-default-class" }
            : TunnelClass) = stripDefault tc := rfl
        rw [ensureOnlyOneDefault.loop]
        simp only [hb, Bool.false_eq_true, if_false, hd, if_true, hstrip, hU]
        rw [ih (pre ++ [stripDefault tc])
          { w with TunnelClasses := pre ++ stripDefault tc :: rest }
          (calls ++ [Call.UpdateTunnelClass (stripDefault tc)]) (by simp) hnames2]
        simp [List.filter_cons, hg, hname, hdef]
      · have hdef1 : isDefaultClass tc = false := by simpa using hdef
        have hd : (tc.Annotations != none
            && mapIndex tc.Annotations "portal.gosuda.org/is-default-class" == "true")
            = false := hdef1
        have hg : (tc.Name != B.Name && isDefaultClass tc) = false := by simp [hdef1]
        rw [ensureOnlyOneDefault.loop]
        simp only [hb, Bool.false_eq_true, if_false, hd]
        rw [ih (pre ++ [tc]) w calls hw1 hnames1]
        simp [List.filter_cons, hg, hdef1]

/-- Among tiers with distinct names, after stripping every marked tier of another name,
the marked tiers are exactly `B`. -/
theorem only_default_left (l : List TunnelClass) (B : TunnelClass)
    (hmem : B ∈ l) (hB : isDefaultClass B = true)
    (hnames : (l.map (fun o => o.Name)).Nodup) :
    (l.map (fun tc =>
        if tc.Name != B.Name && isDefaultClass tc then stripDefault tc else tc)).filter
      isDefaultClass = [B] := by
  obtain ⟨pre, post, rfl⟩ := List.append_of_mem hmem
  rw [List.map_append, List.nodup_append] at hnames
  obtain ⟨_, hpost, hdisj⟩ := hnames
  simp only [List.map_cons, List.nodup_cons, List.mem_map, not_exists, not_and] at hpost
  have hpre : ∀ o ∈ pre, o.Name ≠ B.Name := by
    intro o ho hn
    exact hdisj (List.mem_map.mpr ⟨o, ho, rfl⟩)
      (by rw [hn]; exact List.mem_map.mpr ⟨B, List.mem_cons_self _ _, rfl⟩)
  have hpo : ∀ o ∈ post, o.Name ≠ B.Name := fun o ho hn => hpost.1 o ho hn
  have hnone : ∀ (part : List TunnelClass), (∀ o ∈ part, o.Name ≠ B.Name) →
      (part.map (fun tc =>
        if tc.Name != B.Name && isDefaultClass tc then stripDefault tc else tc)).filter
        isDefaultClass = [] := by
    intro part hpart
    rw [List.filter_eq_nil_iff]
    intro x hx
    rw [List.mem_map] at hx
    obtain ⟨o, ho, rfl⟩ := hx
    have hn : (o.Name != B.Name) = true := by simpa using hpart o ho
    by_cases hdo : isDefaultClass o = true
    · simp [hn, hdo, (stripDefault_facts o).1]
    · simp [hn, hdo]
  have hBself : (B.Name != B.Name && isDefaultClass B) = false := by simp
  rw [List.map_append, List.map_cons, List.filter_append, List.filter_cons, hnone pre hpre,
    hnone post hpo]
  simp [hBself, hB]

/-- The arbitration pass among tiers with pairwise distinct names: a pass for a stored tier
`B` that carries the default marker, with no failing store call, returns no error, replaces
every other marked tier in the store by its stripped form with one update call each, and
leaves `B` as the only tier that carries the marker; a pass for a tier that does not carry
the marker issues no call and leaves the store as it is. -/
theorem ensureOnlyOneDefault_distinct_names (faults : Faults) (w : World) (req : NamespacedName)
    (B : TunnelClass)
    (hget : Client.GetTunnelClass faults w req = Except.ok B)
    (hB : isDefaultClass B = true)
    (hnames : (w.TunnelClasses.map (fun o => o.Name)).Nodup)
    (hlist : faults Op.ListTunnelClasses = none)
    (hupd : ∀ n, faults (Op.UpdateTunnelClass n) = none) :
    TunnelClassReconciler.Reconcile faults w req
        = { world := { w with TunnelClasses := w.TunnelClasses.map (fun tc =>
              if tc.Name != B.Name && isDefaultClass tc then stripDefault tc else tc) },
            calls := (w.TunnelClasses.filter
                (fun tc => tc.Name != B.Name && isDefaultClass tc)).map
              (fun tc => Call.UpdateTunnelClass (stripDefault tc)) }
      ∧ (TunnelClassReconciler.Reconcile faults w req).err = none
      ∧ (TunnelClassReconciler.Reconcile faults w req).world.TunnelClasses.filter
            isDefaultClass = [B]
      ∧ B ∈ (TunnelClassReconciler.Reconcile faults w req).world.TunnelClasses
      ∧ (∀ tc ∈ w.TunnelClasses, tc.Name ≠ B.Name → isDefaultClass tc = true →
            stripDefault tc ∈ (TunnelClassReconciler.Reconcile faults w req).world.TunnelClasses
              ∧ Call.UpdateTunnelClass (stripDefault tc)
                  ∈ (TunnelClassReconciler.Reconcile faults w req).calls
              ∧ isDefaultClass (stripDefault tc) = false)
      ∧ (∀ (faults2 : Faults) (w2 : World) (req2 : NamespacedName) (A : TunnelClass),
            Client.GetTunnelClass faults2 w2 req2 = Except.ok A →
            isDefaultClass A = false →
            TunnelClassReconciler.Reconcile faults2 w2 req2 = { world := w2 }) := by
  have hBmem : B ∈ w.TunnelClasses := by
    unfold Client.GetTunnelClass at hget
    split at hget
    · simp at hget
    · split at hget
      · rename_i obj hfind
        simp only [Except.ok.injEq] at hget
        subst hget
        exact List.mem_of_find?_eq_some hfind
      · simp at hget
  have hd : (B.Annotations != none
      && mapIndex B.Annotations "portal.gosuda.org/is-default-class" == "true") = true := hB
  have hloop := ensureOnlyOneDefault_loop faults B hupd w.TunnelClasses [] w []
    (by simp) (by simpa using hnames)
  have hR : TunnelClassReconciler.Reconcile faults w req
      = { world := { w with TunnelClasses := w.TunnelClasses.map (fun tc =>
            if tc.Name != B.Name && isDefaultClass tc then stripDefault tc else tc) },
          calls := (w.TunnelClasses.filter
              (fun tc => tc.Name != B.Name && isDefaultClass tc)).map
            (fun tc => Call.UpdateTunnelClass (stripDefault tc)) } := by
    unfold TunnelClassReconciler.Reconcile ensureOnlyOneDefault Client.ListTunnelClasses
    simp only [hget, hd, if_true, hlist, hloop, List.nil_append]
  refine ⟨hR, ?_, ?_, ?_, ?_, ?_⟩
  · rw [hR]
  · rw [hR]
    exact only_default_left w.TunnelClasses B hBmem hB hnames
  · rw [hR]
    simp only [List.mem_map]
    exact ⟨B, hBmem, by simp⟩
  · intro tc htc hne hdef
    have hg : (tc.Name != B.Name && isDefaultClass tc) = true := by simp [hne, hdef]
    rw [hR]
    refine ⟨?_, ?_, (stripDefault_facts tc).1⟩
    · simp only [List.mem_map]
      exact ⟨tc, htc, by simp [hg]⟩
    · simp only [List.mem_map, List.mem_filter]
      exact ⟨tc, ⟨htc, hg⟩, rfl⟩
  · intro faults2 w2 req2 A hA hnd
    have hd2 : (A.Annotations != none
        && mapIndex A.Annotations "portal.gosuda.org/is-default-class" == "true")
        = false := hnd
    unfold TunnelClassReconciler.Reconcile
    simp only [hA, hd2, Bool.false_eq_true, if_false]

/-- Arbitration for the sample tier while an older tier of another name is still marked. -/
theorem ensureOnlyOneDefault_distinct_names_sample :
    (TunnelClassReconciler.Reconcile noFaults { TunnelClasses := [sampleClassOld, sampleClass] }
        { Name := "standard" }).world.TunnelClasses.filter isDefaultClass = [sampleClass]
      ∧ (TunnelClassReconciler.Reconcile noFaults
          { TunnelClasses := [sampleClassOld, sampleClass] } { Name := "standard" }).calls
          = [Call.UpdateTunnelClass
              { sampleClassOld with Annotations := some [("team", "net")] }] := by
  have h := ensureOnlyOneDefault_distinct_names noFaults
    { TunnelClasses := [sampleClassOld, sampleClass] } { Name := "standard" } sampleClass
    rfl (by decide) (by decide) rfl (fun _ => rfl)
  refine ⟨h.2.2.1, ?_⟩
  rw [h.1]
  decide

/-- C16 (the code at the failing input): the store holds the two tiers `team-a/standard`
and `team-b/standard`, distinct objects under distinct keys, both carrying the default
marker. The arbitration pass for `team-b/standard` fetches that tier, meets no store
error, issues no update and leaves the store as it is, because the loop skips every listed
tier whose name equals the name of the new default; so is the pass for
`team-a/standard`. After either pass two tiers carry the default marker, and
`team-a/standard` has not been stripped. -/
theorem ensureOnlyOneDefault_same_name_kept :
    Client.GetTunnelClass noFaults sampleWorldTwoNamespaces
        { Namespace := "team-b", Name := "standard" } = Except.ok sampleClassTeamB
      ∧ isDefaultClass sampleClassTeamB = true
      ∧ sampleClassTeamA ≠ sampleClassTeamB
      ∧ keyOf sampleClassTeamA.toObjectMeta ≠ keyOf sampleClassTeamB.toObjectMeta
      ∧ TunnelClassReconciler.Reconcile noFaults sampleWorldTwoNamespaces
          { Namespace := "team-b", Name := "standard" }
          = { world := sampleWorldTwoNamespaces, calls := [], err := none }
      ∧ (TunnelClassReconciler.Reconcile noFaults sampleWorldTwoNamespaces
          { Namespace := "team-b", Name := "standard" }).world.TunnelClasses.filter
            isDefaultClass = [sampleClassTeamA, sampleClassTeamB]
      ∧ stripDefault sampleClassTeamA
          ∉ (TunnelClassReconciler.Reconcile noFaults sampleWorldTwoNamespaces
              { Namespace := "team-b", Name := "standard" }).world.TunnelClasses
      ∧ TunnelClassReconciler.Reconcile noFaults sampleWorldTwoNamespaces
          { Namespace := "team-a", Name := "standard" }
          = { world := sampleWorldTwoNamespaces, calls := [], err := none }
      ∧ (TunnelClassReconciler.Reconcile noFaults sampleWorldTwoNamespaces
          { Namespace := "team-a", Name := "standard" }).world.TunnelClasses.filter
            isDefaultClass = [sampleClassTeamA, sampleClassTeamB] := by
  refine ⟨rfl, by decide, by decide, by decide, ?_, ?_, ?_, ?_, ?_⟩
  · decide
  · decide
  · decide
  · decide
  · decide

/-! ### The fallback of the public URL -/

/-- The first piece of `strings.Split(s, "/")` is what stands before the first `/`. -/
theorem Split_head (s : List Char) :
    (Split s '/').headD [] = s.takeWhile (fun c => c != '/') := by
  induction s with
  | nil => rfl
  | cons c cs ih =>
    by_cases hc : c = '/'
    · simp [Split, hc]
    · have hb : (c != '/') = true := by simpa using hc
      simp only [Split, hc, if_false, List.takeWhile_cons, hb, if_true]
      cases hS : Split cs '/' with
      | nil => simp [hS] at ih ⊢; exact ih
      | cons first more => simp [hS] at ih ⊢; exact ih

/-- What stands before the first `/` holds no `/`. -/
theorem takeWhile_no_slash (s : List Char) : '/' ∉ s.takeWhile (fun c => c != '/') := by
  intro h
  have := List.mem_takeWhile_imp h
  simp at this

/-- C21: on every relay URL `ConstructPublicURL` returns `https://appName.d`, where `d` is
the URL with a leading `wss://` removed when present and then cut before its first `/`,
and `d` holds no `/`; the pattern fails to match exactly when the URL does not start with
`wss://` or `wss://` is followed by nothing or by `/`, and then the fallback gives this
`d`. -/
theorem ConstructPublicURL_total (appName relayURL : String) :
    ConstructPublicURL appName relayURL
        = "https://" ++ appName ++ "."
            ++ String.mk ((TrimPrefix relayURL.data "wss://".data).takeWhile
                (fun c => c != '/'))
      ∧ '/' ∉ (TrimPrefix relayURL.data "wss://".data).takeWhile (fun c => c != '/')
      ∧ (FindStringSubmatch relayURL.data = [] ↔
          ("wss://".data.isPrefixOf relayURL.data = false
            ∨ relayURL.data.drop 6 = []
            ∨ (relayURL.data.drop 6).head? = some '/'))
      ∧ (FindStringSubmatch relayURL.data = [] →
          ConstructPublicURL appName relayURL
            = "https://" ++ appName ++ "."
                ++ String.mk ((Split (TrimPrefix relayURL.data "wss://".data) '/').headD [])) := by
  have hlen : "wss://".data.length = 6 := rfl
  have hfall : FindStringSubmatch relayURL.data = [] →
      ConstructPublicURL appName relayURL
        = "https://" ++ appName ++ "."
            ++ String.mk ((Split (TrimPrefix relayURL.data "wss://".data) '/').headD []) := by
    intro h
    unfold ConstructPublicURL
    simp [h]
  refine ⟨?_, takeWhile_no_slash _, ?_, hfall⟩
  · by_cases hp : "wss://".data.isPrefixOf relayURL.data = true
    · by_cases hg : ((relayURL.data.drop "wss://".data.length).takeWhile
          (fun c => c != '/')).isEmpty = true
      · have hF : FindStringSubmatch relayURL.data = [] := by
          unfold FindStringSubmatch
          simp only [hp, if_true, hg]
        rw [hfall hF, Split_head]
      · have hg1 : ((relayURL.data.drop "wss://".data.length).takeWhile
            (fun c => c != '/')).isEmpty = false := by simpa using hg
        have hF : FindStringSubmatch relayURL.data
            = ["wss://".data ++ (relayURL.data.drop "wss://".data.length).takeWhile
                  (fun c => c != '/'),
               (relayURL.data.drop "wss://".data.length).takeWhile (fun c => c != '/')] := by
          unfold FindStringSubmatch
          simp only [hp, if_true, hg1, Bool.false_eq_true, if_false]
        unfold ConstructPublicURL
        simp only [hF, TrimPrefix, hp, if_true]
        simp
    · have hp1 : "wss://".data.isPrefixOf relayURL.data = false := Bool.eq_false_iff.mpr hp
      have hF : FindStringSubmatch relayURL.data = [] := by
        unfold FindStringSubmatch
        simp only [hp1, Bool.false_eq_true, if_false]
      rw [hfall hF, Split_head]
  · unfold FindStringSubmatch
    rw [hlen]
    by_cases hp : "wss://".data.isPrefixOf relayURL.data = true
    · simp only [hp, if_true, Bool.true_eq_false, false_or]
      cases hd : relayURL.data.drop 6 with
      | nil => simp
      | cons c cs =>
        by_cases hc : c = '/'
        · simp [hc]
        · have hb : (c != '/') = true := by simpa using hc
          simp [List.takeWhile_cons, hb, hc]
    · have hp1 : "wss://".data.isPrefixOf relayURL.data = false := Bool.eq_false_iff.mpr hp
      simp [hp1]

/-! ### Shape of the built workload -/

/-- C22: the workload built by `BuildDeployment` is named `{exposureName}-tunnel` in the
exposure's namespace, its replica count is the tier's, it has exactly one container with
image `ghcr.io/gosuda/portal-tunnel:1.0.0`, and its selector labels are its pod-template
labels, which map `portal.gosuda.org/portalexpose` to the exposure's name. -/
theorem BuildDeployment_shape (portalExpose : PortalExpose) (tunnelClass : TunnelClass) :
    (BuildDeployment portalExpose tunnelClass).Name = portalExpose.Name ++ "-tunnel"
      ∧ (BuildDeployment portalExpose tunnelClass).Namespace = portalExpose.Namespace
      ∧ (BuildDeployment portalExpose tunnelClass).Spec.Replicas
          = some tunnelClass.Spec.Replicas
      ∧ (∃ c, (BuildDeployment portalExpose tunnelClass).Spec.Template.Spec.Containers = [c]
            ∧ c.Image = "ghcr.io/gosuda/portal-tunnel:1.0.0")
      ∧ (BuildDeployment portalExpose tunnelClass).Spec.Selector
          = some { MatchLabels :=
              (BuildDeployment portalExpose tunnelClass).Spec.Template.Labels }
      ∧ (BuildDeployment portalExpose tunnelClass).Spec.Template.Labels.lookup
            "portal.gosuda.org/portalexpose" = some portalExpose.Name
      ∧ ("portal.gosuda.org/portalexpose", portalExpose.Name)
          ∈ (BuildDeployment portalExpose tunnelClass).Spec.Template.Labels := by
  refine ⟨rfl, rfl, rfl, ⟨_, rfl, rfl⟩, rfl, ?_, ?_⟩
  · simp [BuildDeployment, List.lookup]
  · simp [BuildDeployment]

/-! ### The phase when nothing is ready -/

/-- C25 (counterexample): with one desired pod, no ready pod, one relay and no connected
relay, `ComputePhase` returns Pending, not Failed; this is the Pending case of the test. -/
theorem ComputePhase_nothing_ready_not_failed :
    ComputePhase 0 1 0 1 = "Pending" ∧ ComputePhase 0 1 0 1 ≠ "Failed" := by
  decide

/-- C25 (amended): with no pod ready and no relay connected, `ComputePhase` returns Failed
whenever no pod is desired, which includes `ComputePhase(0, 0, 0, 0)`, and Pending
whenever a pod is desired and there is at least one relay. -/
theorem ComputePhase_nothing_ready (totalPods totalRelays : Int) :
    (totalPods ≤ 0 → ComputePhase 0 totalPods 0 totalRelays = "Failed")
      ∧ (0 < totalPods → 0 < totalRelays → ComputePhase 0 totalPods 0 totalRelays = "Pending")
      ∧ ComputePhase 0 0 0 0 = "Failed" := by
  refine ⟨?_, ?_, by decide⟩
  · intro h
    have h1 : ¬ (totalPods > 0) := by omega
    unfold ComputePhase PhaseReady PhaseDegraded PhasePending PhaseFailed
    simp [h1]
  · intro h _
    have h2 : ¬ ((0 : Int) = totalPods) := by omega
    unfold ComputePhase PhaseReady PhaseDegraded PhasePending PhaseFailed
    simp [h, h2]

/-- Witness for C25 (amended): no desired pod and two relays; two desired pods and one
relay. -/
theorem ComputePhase_nothing_ready_witness :
    ComputePhase 0 0 0 2 = "Failed" ∧ ComputePhase 0 2 0 1 = "Pending" :=
  ⟨(ComputePhase_nothing_ready 0 2).1 (by decide),
   (ComputePhase_nothing_ready 2 1).2.1 (by decide) (by decide)⟩

/-! ### The finalizer helpers -/

/-- C26: `RemoveFinalizer` returns true exactly when the finalizer was present, leaves the
other finalizers in their order and the finalizer absent, and touches nothing else;
`AddFinalizer` returns true exactly when the finalizer was absent, keeps the earlier
finalizers (appending the new one at the end when it was absent), touches nothing else,
and afterwards `HasFinalizer` holds. -/
theorem finalizer_helpers (obj : ObjectMeta) (f : String) :
    ((RemoveFinalizer obj f).2 = true ↔ f ∈ obj.Finalizers)
      ∧ (RemoveFinalizer obj f).1
          = { obj with Finalizers := obj.Finalizers.filter (fun g => g != f) }
      ∧ f ∉ (RemoveFinalizer obj f).1.Finalizers
      ∧ HasFinalizer (RemoveFinalizer obj f).1 f = false
      ∧ (∀ g, g ≠ f → (g ∈ (RemoveFinalizer obj f).1.Finalizers ↔ g ∈ obj.Finalizers))
      ∧ ((AddFinalizer obj f).2 = true ↔ f ∉ obj.Finalizers)
      ∧ (AddFinalizer obj f).1
          = { obj with Finalizers :=
                if f ∈ obj.Finalizers then obj.Finalizers else obj.Finalizers ++ [f] }
      ∧ obj.Finalizers <+: (AddFinalizer obj f).1.Finalizers
      ∧ HasFinalizer (AddFinalizer obj f).1 f = true := by
  by_cases hf : f ∈ obj.Finalizers
  · have hc : ContainsFinalizer obj f = true := by simpa [ContainsFinalizer] using hf
    have hfilter : f ∉ obj.Finalizers.filter (fun g => g != f) := by simp
    refine ⟨?_, ?_, ?_, ?_, ?_, ?_, ?_, ?_, ?_⟩
    · simp [RemoveFinalizer, hc, hf]
    · simp [RemoveFinalizer, hc]
    · simp [RemoveFinalizer, hc]
    · simp [RemoveFinalizer, hc, HasFinalizer, ContainsFinalizer, hf]
    · intro g hg
      simp [RemoveFinalizer, hc, hg]
    · simp [AddFinalizer, hc, hf]
    · simp [AddFinalizer, hc, hf]
    · simp [AddFinalizer, hc]
    · simp [AddFinalizer, hc, HasFinalizer]
  · have hc : ContainsFinalizer obj f = false := by simpa [ContainsFinalizer] using hf
    have hnoop : obj.Finalizers.filter (fun g => g != f) = obj.Finalizers := by
      rw [List.filter_eq_self]
      intro g hg
      have : g ≠ f := fun h => hf (h ▸ hg)
      simpa using this
    refine ⟨?_, ?_, ?_, ?_, ?_, ?_, ?_, ?_, ?_⟩
    · simp [RemoveFinalizer, hc, hf]
    · simp [RemoveFinalizer, hc, hnoop]
    · simp [RemoveFinalizer, hc, hf]
    · simp [RemoveFinalizer, hc, HasFinalizer]
    · intro g _
      simp [RemoveFinalizer, hc]
    · simp [AddFinalizer, hc, hf]
    · simp [AddFinalizer, hc, hf]
    · simp [AddFinalizer, hc]
    · simp [AddFinalizer, hc, HasFinalizer, ContainsFinalizer, hf]

/-! ### The steady state: conditions, public URL, phase -/

/-- What steps 7 to 11 leave in the conditions `RelayConnected`, `Available` and
`TunnelDeploymentReady`. -/
theorem steadyStatus_conditions (clock : Nat → Nat) (pe : PortalExpose) (tc : TunnelClass)
    (existing : Deployment) (pe1 : PortalExpose)
    (h : Reconcile.steadyStatus clock pe tc existing = some pe1) :
    IsConditionTrue pe1.Status.Conditions ConditionRelayConnected
        = (countConnected (ComputeRelayStatuses pe.Spec.Relay.Targets
              (decide (existing.Status.ReadyReplicas > 0)))
            == ((ComputeRelayStatuses pe.Spec.Relay.Targets
              (decide (existing.Status.ReadyReplicas > 0))).length : Int)
          && decide (((ComputeRelayStatuses pe.Spec.Relay.Targets
              (decide (existing.Status.ReadyReplicas > 0))).length : Int) > 0))
      ∧ IsConditionTrue pe1.Status.Conditions ConditionAvailable
          = (pe1.Status.Phase == "Ready" || pe1.Status.Phase == "Degraded")
      ∧ IsConditionTrue pe1.Status.Conditions ConditionTunnelDeploymentReady
          = (existing.Status.ReadyReplicas == tc.Spec.Replicas
              && decide (tc.Spec.Replicas > 0)) := by
  have n1 : ConditionRelayConnected ≠ ConditionAvailable := by decide
  have n2 : ConditionRelayConnected ≠ ConditionProgressing := by decide
  have n3 : ConditionAvailable ≠ ConditionProgressing := by decide
  have n4 : ConditionTunnelDeploymentReady ≠ ConditionRelayConnected := by decide
  have n5 : ConditionTunnelDeploymentReady ≠ ConditionAvailable := by decide
  have n6 : ConditionTunnelDeploymentReady ≠ ConditionProgressing := by decide
  have hT : (ConditionTrue == ConditionTrue) = true := by decide
  have hFl : (ConditionFalse == ConditionTrue) = false := by decide
  unfold Reconcile.steadyStatus at h
  simp only at h
  split at h
  · simp at h
  · rename_i pe0 hurl
    simp only [Option.some.injEq] at h
    subst h
    have key : ∀ (c : Prop) [Decidable c] (p : PortalExpose) (A B : List Condition),
        (if c then ({ p with Status.Conditions := A } : PortalExpose)
          else { p with Status.Conditions := B })
        = { p with Status.Conditions := if c then A else B } := by
      intro c _ p A B
      split_ifs <;> rfl
    simp only [key]
    refine ⟨?_, ?_, ?_⟩
    · split_ifs <;>
        simp only [IsConditionTrue, FindCondition_SetCondition_other _ _ _ _ _ _ _ n1,
          FindCondition_SetCondition_other _ _ _ _ _ _ _ n2, FindCondition_SetCondition_same,
          hT, hFl, *]
    · split_ifs <;>
        simp only [IsConditionTrue, FindCondition_SetCondition_other _ _ _ _ _ _ _ n3,
          FindCondition_SetCondition_same, hT, hFl, *]
    · split_ifs <;>
        simp only [IsConditionTrue, FindCondition_SetCondition_other _ _ _ _ _ _ _ n4,
          FindCondition_SetCondition_other _ _ _ _ _ _ _ n5,
          FindCondition_SetCondition_other _ _ _ _ _ _ _ n6, FindCondition_SetCondition_same,
          hT, hFl, *]

/-- With a public URL already set, steps 7 to 11 do not panic, whatever the targets are. -/
theorem steadyStatus_some_url (clock : Nat → Nat) (pe : PortalExpose) (tc : TunnelClass)
    (existing : Deployment) (hurl : pe.Status.PublicURL ≠ "") :
    ∃ pe1, Reconcile.steadyStatus clock pe tc existing = some pe1 := by
  have hb : (pe.Status.PublicURL == "") = false := by simpa using hurl
  unfold Reconcile.steadyStatus
  simp only [hb, Bool.false_eq_true, if_false]
  exact ⟨_, rfl⟩

/-- The steady-state pass, given the status that steps 7 to 11 compute: one status write,
then only events; the status is stored and the pass returns success with no requeue. -/
theorem steady_pass (faults : Faults) (clock : Nat → Nat) (w : World)
    (req : NamespacedName) (pe : PortalExpose) (svc : Service) (tc : TunnelClass)
    (existing : Deployment) (pe1 : PortalExpose)
    (hget : Client.GetPortalExpose faults w req = Except.ok pe)
    (hdel : Time.IsZero pe.DeletionTimestamp = true)
    (hfin : HasFinalizer pe.toObjectMeta FinalizerName = true)
    (hsvc : Client.GetService faults w
      { Name := pe.Spec.App.Service.Name, Namespace := pe.Namespace } = Except.ok svc)
    (htc : GetTunnelClass faults w pe.Spec.TunnelClassName = Except.ok tc)
    (hown : faults Op.SetControllerReference = none)
    (hlive : Client.GetDeployment faults w
      { Name := pe.Name ++ "-tunnel", Namespace := pe.Namespace } = Except.ok existing)
    (heq : deploymentSpecEqual existing (ownedDeployment pe tc) = some true)
    (hS : Reconcile.steadyStatus clock (serviceFound clock pe) tc existing = some pe1)
    (hns : faults Op.StatusUpdatePortalExpose = none) :
    ∃ events : List Call,
      (Reconcile faults clock w req).calls = Call.StatusUpdate pe1 :: events
        ∧ (∀ c ∈ events, ∃ t r m, c = Call.Event t r m)
        ∧ (Reconcile faults clock w req).result = { Requeue := false, RequeueAfter := 0 }
        ∧ (Reconcile faults clock w req).err = none
        ∧ (Reconcile faults clock w req).panic = none
        ∧ Client.GetPortalExpose faults (Reconcile faults clock w req).world req
            = Except.ok pe1
        ∧ (Reconcile faults clock w req).world.Deployments = w.Deployments := by
  obtain ⟨hgf, hfind, hkey⟩ := GetPortalExpose_ok faults w req pe hget
  have hk := keyOf_eq_of_hasKey _ _ hkey
  have hR : Reconcile faults clock w req
      = Reconcile.reconcileDeployment faults clock w (serviceFound clock pe) tc :=
    Reconcile_main_path faults clock w req pe svc tc hget hdel hfin hsvc htc
  have hF := reconcileDeployment_found faults clock w (serviceFound clock pe) tc existing
    hown hlive
  have hO : ownedDeployment (serviceFound clock pe) tc = ownedDeployment pe tc := rfl
  rw [hO, heq] at hF
  simp only at hF
  obtain ⟨f1, f2, _⟩ := steadyStatus_fields clock (serviceFound clock pe) tc existing pe1 hS
  have hk1 : keyOf pe1.toObjectMeta = req := by rw [f1]; exact hk
  obtain ⟨w1, hU, hread, hdep, _, _⟩ := StatusUpdate_ok faults w req pe pe1 hfind hk1 hns
  have hpe1 : ({ pe with Status := pe1.Status } : PortalExpose) = pe1 := by
    have e1 : pe1.toObjectMeta = pe.toObjectMeta := f1
    have e2 : pe1.Spec = pe.Spec := f2
    cases pe1
    simp only at e1 e2
    simp [e1, e2]
  rw [hR, hF]
  unfold Reconcile.computeStatus
  simp only [hS, hU]
  refine ⟨_, rfl, ?_, trivial, trivial, trivial, ?_, hdep⟩
  · intro c hc
    split_ifs at hc <;> simp at hc
    · exact ⟨_, _, _, hc⟩
    · exact ⟨_, _, _, hc⟩
    · exact ⟨_, _, _, hc⟩
  · unfold Client.GetPortalExpose
    simp only [hgf, hread, hpe1]

/-- C24: in the steady-state pass the written and stored status keeps a non-empty public
URL as it was, whatever the app name and the relay targets are, and replaces an empty one
by `ConstructPublicURL(appName, URL of the first relay target)`. -/
theorem Reconcile_backfills_public_url (faults : Faults) (clock : Nat → Nat) (w : World)
    (req : NamespacedName) (pe : PortalExpose) (svc : Service) (tc : TunnelClass)
    (existing : Deployment)
    (hget : Client.GetPortalExpose faults w req = Except.ok pe)
    (hdel : Time.IsZero pe.DeletionTimestamp = true)
    (hfin : HasFinalizer pe.toObjectMeta FinalizerName = true)
    (hsvc : Client.GetService faults w
      { Name := pe.Spec.App.Service.Name, Namespace := pe.Namespace } = Except.ok svc)
    (htc : GetTunnelClass faults w pe.Spec.TunnelClassName = Except.ok tc)
    (hown : faults Op.SetControllerReference = none)
    (hlive : Client.GetDeployment faults w
      { Name := pe.Name ++ "-tunnel", Namespace := pe.Namespace } = Except.ok existing)
    (heq : deploymentSpecEqual existing (ownedDeployment pe tc) = some true)
    (hurl : pe.Status.PublicURL ≠ "" ∨ pe.Spec.Relay.MinItems)
    (hns : faults Op.StatusUpdatePortalExpose = none) :
    ∃ (pe1 : PortalExpose) (events : List Call),
      (Reconcile faults clock w req).calls = Call.StatusUpdate pe1 :: events
        ∧ Client.GetPortalExpose faults (Reconcile faults clock w req).world req
            = Except.ok pe1
        ∧ (pe.Status.PublicURL ≠ "" → pe1.Status.PublicURL = pe.Status.PublicURL)
        ∧ (pe.Status.PublicURL = "" →
            ∀ (target0 : RelayTarget) (rest : List RelayTarget),
              pe.Spec.Relay.Targets = target0 :: rest →
              pe1.Status.PublicURL = ConstructPublicURL pe.Spec.App.Name target0.URL)
        ∧ (pe.Status.PublicURL = "" →
            ∃ target0 ∈ pe.Spec.Relay.Targets.head?,
              pe1.Status.PublicURL = ConstructPublicURL pe.Spec.App.Name target0.URL) := by
  have hsome : ∃ pe1, Reconcile.steadyStatus clock (serviceFound clock pe) tc existing
      = some pe1 := by
    rcases hurl with h | h
    · exact steadyStatus_some_url clock (serviceFound clock pe) tc existing h
    · exact steadyStatus_some clock (serviceFound clock pe) tc existing h
  obtain ⟨pe1, hS⟩ := hsome
  obtain ⟨_, _, _, _, _, _, f7⟩ :=
    steadyStatus_fields clock (serviceFound clock pe) tc existing pe1 hS
  have f7a : pe1.Status.PublicURL
      = (if pe.Status.PublicURL = "" then
          ConstructPublicURL pe.Spec.App.Name
            ((pe.Spec.Relay.Targets.head?.map (fun t => t.URL)).getD "")
         else pe.Status.PublicURL) := f7
  obtain ⟨events, h1, _, _, _, _, h6, _⟩ := steady_pass faults clock w req pe svc tc existing
    pe1 hget hdel hfin hsvc htc hown hlive heq hS hns
  refine ⟨pe1, events, h1, h6, ?_, ?_, ?_⟩
  · intro hne
    rw [f7a, if_neg hne]
  · intro he target0 rest hT
    rw [f7a, if_pos he, hT]
    rfl
  · intro he
    rcases hurl with h | h
    · exact absurd he h
    · unfold RelaySpec.MinItems at h
      cases hT : pe.Spec.Relay.Targets with
      | nil => simp [hT] at h
      | cons target0 rest =>
        refine ⟨target0, by simp, ?_⟩
        rw [f7a, if_pos he, hT]
        rfl

/-- Witness for C24: the sample exposure with an empty public URL in the steady state. -/
theorem Reconcile_backfills_public_url_witness :
    ∃ (pe1 : PortalExpose) (events : List Call),
      (Reconcile noFaults sampleClock (sampleWorld [sampleDeployment]) sampleReq).calls
          = Call.StatusUpdate pe1 :: events
        ∧ pe1.Status.PublicURL = "https://my-app.portal.example.org" := by
  have heq : deploymentSpecEqual sampleDeployment (ownedDeployment sampleExpose sampleClass)
      = some true := by
    simp [deploymentSpecEqual, sampleDeployment, ownedDeployment, BuildDeployment,
      containersEqual, Quantity.Equal, sampleClass]
  obtain ⟨pe1, events, h1, _, _, h4, _⟩ :=
    Reconcile_backfills_public_url noFaults sampleClock (sampleWorld [sampleDeployment])
      sampleReq sampleExpose sampleService sampleClass sampleDeployment
      rfl (by decide) (by decide) rfl rfl rfl rfl heq (Or.inr (by decide)) rfl
  refine ⟨pe1, events, h1, ?_⟩
  rw [h4 rfl { Name := "r1", URL := "wss://portal.example.org/relay" } [] rfl]
  decide

/-- All relay statuses share one state, so the connected count is all or nothing. -/
theorem countConnected_all_or_none (targets : List RelayTarget) (podsReady : Bool) :
    countConnected (ComputeRelayStatuses targets podsReady)
        = (if podsReady then (targets.length : Int) else 0)
      ∧ (ComputeRelayStatuses targets podsReady).countP (fun rs => rs.Status == "Connected")
          = (if podsReady then targets.length else 0)
      ∧ (ComputeRelayStatuses targets podsReady).length = targets.length := by
  have hc : (ComputeRelayStatuses targets podsReady).countP
      (fun rs => rs.Status == "Connected") = (if podsReady then targets.length else 0) := by
    rw [(ComputeRelayStatuses_spec targets podsReady).1]
    cases podsReady
    · simp only [Bool.false_eq_true, if_false]
      rw [List.countP_eq_zero]
      intro a ha
      rw [List.mem_map] at ha
      obtain ⟨t, _, rfl⟩ := ha
      simp
    · simp only [if_true]
      rw [List.countP_eq_length.mpr, List.length_map]
      intro a ha
      rw [List.mem_map] at ha
      obtain ⟨t, _, rfl⟩ := ha
      simp
  refine ⟨?_, hc, (ComputeRelayStatuses_spec targets podsReady).2.1⟩
  rw [countConnected_eq, hc]
  cases podsReady <;> simp

/-- The phase of the steady state as a function of the ready count alone, for at least one
desired pod and at least one relay target. -/
theorem steady_phase (ready replicas : Int) (n : Nat)
    (hready : 0 ≤ ready) (hrep : 1 ≤ replicas) (hn : 1 ≤ n) :
    (ComputePhase ready replicas (if decide (ready > 0) then (n : Int) else 0) (n : Int)
        = "Ready" ↔ ready = replicas)
      ∧ (ComputePhase ready replicas (if decide (ready > 0) then (n : Int) else 0) (n : Int)
        = "Degraded" ↔ ready > 0 ∧ ready ≠ replicas)
      ∧ (ComputePhase ready replicas (if decide (ready > 0) then (n : Int) else 0) (n : Int)
        = "Pending" ↔ ready = 0)
      ∧ ComputePhase ready replicas (if decide (ready > 0) then (n : Int) else 0) (n : Int)
        ≠ "Failed" := by
  have hn1 : (0 : Int) < (n : Int) := by exact_mod_cast hn
  have hrep0 : replicas > 0 := by omega
  unfold ComputePhase PhaseReady PhaseDegraded PhasePending PhaseFailed
  by_cases h0 : ready > 0
  · by_cases he : ready = replicas
    · have hne : ¬ (ready = 0) := by omega
      subst he
      simp [h0, hn1, hne]
    · have hne : ¬ (ready = 0) := by omega
      simp [h0, he, hne]
  · have hz : ready = 0 := by omega
    have hne : ¬ ((0 : Int) = replicas) := by omega
    have hn0 : ¬ ((0 : Int) = (n : Int)) := by omega
    subst hz
    simp [hrep0, hne, hn0]

/-- C29: in the steady-state pass with at least one desired pod, at least one relay target
and a non-negative live ready count, the written and stored phase is Ready exactly when
the ready count equals the replicas, Degraded exactly when it is positive and different,
Pending exactly when it is zero, and never Failed; the relay statuses that read
`Connected` are none or all of them, and the condition `RelayConnected` is True exactly
when the ready count is positive. -/
theorem Reconcile_steady_phase (faults : Faults) (clock : Nat → Nat) (w : World)
    (req : NamespacedName) (pe : PortalExpose) (svc : Service) (tc : TunnelClass)
    (existing : Deployment)
    (hget : Client.GetPortalExpose faults w req = Except.ok pe)
    (hdel : Time.IsZero pe.DeletionTimestamp = true)
    (hfin : HasFinalizer pe.toObjectMeta FinalizerName = true)
    (hsvc : Client.GetService faults w
      { Name := pe.Spec.App.Service.Name, Namespace := pe.Namespace } = Except.ok svc)
    (htc : GetTunnelClass faults w pe.Spec.TunnelClassName = Except.ok tc)
    (hown : faults Op.SetControllerReference = none)
    (hlive : Client.GetDeployment faults w
      { Name := pe.Name ++ "-tunnel", Namespace := pe.Namespace } = Except.ok existing)
    (heq : deploymentSpecEqual existing (ownedDeployment pe tc) = some true)
    (hrep : 1 ≤ tc.Spec.Replicas)
    (hmin : pe.Spec.Relay.MinItems)
    (hready : 0 ≤ existing.Status.ReadyReplicas)
    (hns : faults Op.StatusUpdatePortalExpose = none) :
    ∃ (pe1 : PortalExpose) (events : List Call),
      (Reconcile faults clock w req).calls = Call.StatusUpdate pe1 :: events
        ∧ Client.GetPortalExpose faults (Reconcile faults clock w req).world req
            = Except.ok pe1
        ∧ (pe1.Status.Phase = "Ready" ↔ existing.Status.ReadyReplicas = tc.Spec.Replicas)
        ∧ (pe1.Status.Phase = "Degraded" ↔
            existing.Status.ReadyReplicas > 0
              ∧ existing.Status.ReadyReplicas ≠ tc.Spec.Replicas)
        ∧ (pe1.Status.Phase = "Pending" ↔ existing.Status.ReadyReplicas = 0)
        ∧ pe1.Status.Phase ≠ "Failed"
        ∧ (pe1.Status.Relay.Connected.countP (fun rs => rs.Status == "Connected") = 0
            ∨ pe1.Status.Relay.Connected.countP (fun rs => rs.Status == "Connected")
                = pe.Spec.Relay.Targets.length)
        ∧ (IsConditionTrue pe1.Status.Conditions ConditionRelayConnected = true
            ↔ existing.Status.ReadyReplicas > 0) := by
  obtain ⟨pe1, hS⟩ := steadyStatus_some clock (serviceFound clock pe) tc existing hmin
  obtain ⟨_, _, _, _, f5, f6, _⟩ :=
    steadyStatus_fields clock (serviceFound clock pe) tc existing pe1 hS
  obtain ⟨c1, _, _⟩ := steadyStatus_conditions clock (serviceFound clock pe) tc existing pe1 hS
  have f5a : pe1.Status.Relay.Connected
      = ComputeRelayStatuses pe.Spec.Relay.Targets
          (decide (existing.Status.ReadyReplicas > 0)) := f5
  have f6a : pe1.Status.Phase
      = ComputePhase existing.Status.ReadyReplicas tc.Spec.Replicas
          (countConnected (ComputeRelayStatuses pe.Spec.Relay.Targets
            (decide (existing.Status.ReadyReplicas > 0))))
          ((ComputeRelayStatuses pe.Spec.Relay.Targets
            (decide (existing.Status.ReadyReplicas > 0))).length : Int) := f6
  have c1a : IsConditionTrue pe1.Status.Conditions ConditionRelayConnected
      = (countConnected (ComputeRelayStatuses pe.Spec.Relay.Targets
            (decide (existing.Status.ReadyReplicas > 0)))
          == ((ComputeRelayStatuses pe.Spec.Relay.Targets
            (decide (existing.Status.ReadyReplicas > 0))).length : Int)
        && decide (((ComputeRelayStatuses pe.Spec.Relay.Targets
            (decide (existing.Status.ReadyReplicas > 0))).length : Int) > 0)) := c1
  obtain ⟨k1, k2, k3⟩ := countConnected_all_or_none pe.Spec.Relay.Targets
    (decide (existing.Status.ReadyReplicas > 0))
  have hn : 1 ≤ pe.Spec.Relay.Targets.length := hmin
  have hn1 : (0 : Int) < (pe.Spec.Relay.Targets.length : Int) := by exact_mod_cast hn
  obtain ⟨p1, p2, p3, p4⟩ := steady_phase existing.Status.ReadyReplicas tc.Spec.Replicas
    pe.Spec.Relay.Targets.length hready hrep hn
  obtain ⟨events, h1, _, _, _, _, h6, _⟩ := steady_pass faults clock w req pe svc tc existing
    pe1 hget hdel hfin hsvc htc hown hlive heq hS hns
  rw [k1, k3] at f6a c1a
  refine ⟨pe1, events, h1, h6, ?_, ?_, ?_, ?_, ?_, ?_⟩
  · rw [f6a]; exact p1
  · rw [f6a]; exact p2
  · rw [f6a]; exact p3
  · rw [f6a]; exact p4
  · rw [f5a, k2]
    by_cases h0 : existing.Status.ReadyReplicas > 0
    · right; simp [h0]
    · left; simp [h0]
  · rw [c1a]
    by_cases h0 : existing.Status.ReadyReplicas > 0
    · simp [h0, hn1]
    · have hne : ¬ ((0 : Int) = (pe.Spec.Relay.Targets.length : Int)) := by omega
      simp [h0, hne]

/-- Witness for C29: the sample exposure in the steady state with one ready pod. -/
theorem Reconcile_steady_phase_witness :
    ∃ (pe1 : PortalExpose) (events : List Call),
      (Reconcile noFaults sampleClock (sampleWorld [sampleDeployment]) sampleReq).calls
          = Call.StatusUpdate pe1 :: events
        ∧ pe1.Status.Phase = "Ready"
        ∧ IsConditionTrue pe1.Status.Conditions ConditionRelayConnected = true := by
  have heq : deploymentSpecEqual sampleDeployment (ownedDeployment sampleExpose sampleClass)
      = some true := by
    simp [deploymentSpecEqual, sampleDeployment, ownedDeployment, BuildDeployment,
      containersEqual, Quantity.Equal, sampleClass]
  obtain ⟨pe1, events, h1, _, h3, _, _, _, _, h8⟩ :=
    Reconcile_steady_phase noFaults sampleClock (sampleWorld [sampleDeployment])
      sampleReq sampleExpose sampleService sampleClass sampleDeployment
      rfl (by decide) (by decide) rfl rfl rfl rfl heq (by decide) (by decide) (by decide) rfl
  exact ⟨pe1, events, h1, h3.mpr rfl, h8.mpr (by decide)⟩

/-! ### The condition `Available` against the phase -/

/-- C23 (the code at the failing inputs): for the sample exposure whose stored status is
phase Ready with `Available` at True, a pass in which no tier resolves stores phase Failed
and leaves `Available` at True; a pass in which the tier resolves and the workload is
missing stores phase Pending and leaves `Available` at True. Both passes return no
error. -/
theorem Reconcile_available_stale :
    (Reconcile noFaults sampleClock
        { PortalExposes := [sampleExposeWasReady], Services := [sampleService] }
        sampleReq).err = none
      ∧ (Reconcile noFaults sampleClock
          { PortalExposes := [sampleExposeWasReady], Services := [sampleService] }
          sampleReq).world.PortalExposes.map
            (fun o => (o.Status.Phase, IsConditionTrue o.Status.Conditions ConditionAvailable))
          = [("Failed", true)]
      ∧ (Reconcile noFaults sampleClock
          { PortalExposes := [sampleExposeWasReady], Services := [sampleService],
            TunnelClasses := [sampleClass] }
          sampleReq).err = none
      ∧ (Reconcile noFaults sampleClock
          { PortalExposes := [sampleExposeWasReady], Services := [sampleService],
            TunnelClasses := [sampleClass] }
          sampleReq).world.PortalExposes.map
            (fun o => (o.Status.Phase, IsConditionTrue o.Status.Conditions ConditionAvailable))
          = [("Pending", true)] := by
  refine ⟨rfl, ?_, rfl, ?_⟩
  · decide
  · decide

/-! ### Convergence of updates and what counts as drift -/

/-- The container loop accepts a list against itself. -/
theorem containersEqual_self (l : List Container) : containersEqual l l = true := by
  induction l with
  | nil => simp [containersEqual]
  | cons c rest ih => simp [containersEqual, Quantity.Equal, ih]

/-- Two workloads with the same spec and a set replica count are equal for
`deploymentSpecEqual`. -/
theorem deploymentSpecEqual_same_spec (d1 d2 : Deployment) (r : Int)
    (hspec : d1.Spec = d2.Spec) (hr : d2.Spec.Replicas = some r) :
    deploymentSpecEqual d1 d2 = some true := by
  unfold deploymentSpecEqual
  rw [hspec, hr]
  simp [containersEqual_self]

/-- The CPU and memory requests of the three sizes. -/
theorem requests_of_size :
    (GetResourcesForSize "small").Requests.Cpu.milli = 100
      ∧ (GetResourcesForSize "medium").Requests.Cpu.milli = 250
      ∧ (GetResourcesForSize "large").Requests.Cpu.milli = 500 := by
  refine ⟨?_, ?_, ?_⟩ <;> rw [GetResourcesForSize] <;>
    simp [ResourceList.Cpu, MustParse_m]

/-- The comparison of two built workloads looks at the tiers only: replica counts and the
requests of the size. -/
theorem deploymentSpecEqual_built (e1 e2 : PortalExpose) (t1 t2 : TunnelClass) :
    deploymentSpecEqual (BuildDeployment e1 t1) (BuildDeployment e2 t2)
      = some (t1.Spec.Replicas == t2.Spec.Replicas
          && ((GetResourcesForSize t1.Spec.Size).Requests.Cpu.milli
                == (GetResourcesForSize t2.Spec.Size).Requests.Cpu.milli)
          && ((GetResourcesForSize t1.Spec.Size).Requests.Memory.milli
                == (GetResourcesForSize t2.Spec.Size).Requests.Memory.milli)) := by
  unfold deploymentSpecEqual
  simp only [BuildDeployment, List.length_singleton, bne_self_eq_false, Bool.false_eq_true,
    if_false, containersEqual, Quantity.Equal]
  by_cases hr : t1.Spec.Replicas = t2.Spec.Replicas
  · by_cases hc : (GetResourcesForSize t1.Spec.Size).Requests.Cpu.milli
        = (GetResourcesForSize t2.Spec.Size).Requests.Cpu.milli
    · by_cases hm : (GetResourcesForSize t1.Spec.Size).Requests.Memory.milli
          = (GetResourcesForSize t2.Spec.Size).Requests.Memory.milli
      · simp [hr, hc, hm]
      · simp [hr, hc, hm]
    · simp [hr, hc]
  · simp [hr]

/-- A pass that finds the live workload equal to the desired one runs the steady-state
steps: no workload is written and no requeue is asked for. -/
theorem Reconcile_no_update (faults : Faults) (clock : Nat → Nat) (w : World)
    (req : NamespacedName) (pe : PortalExpose) (svc : Service) (tc : TunnelClass)
    (existing : Deployment)
    (hget : Client.GetPortalExpose faults w req = Except.ok pe)
    (hdel : Time.IsZero pe.DeletionTimestamp = true)
    (hfin : HasFinalizer pe.toObjectMeta FinalizerName = true)
    (hsvc : Client.GetService faults w
      { Name := pe.Spec.App.Service.Name, Namespace := pe.Namespace } = Except.ok svc)
    (htc : GetTunnelClass faults w pe.Spec.TunnelClassName = Except.ok tc)
    (hown : faults Op.SetControllerReference = none)
    (hlive : Client.GetDeployment faults w
      { Name := pe.Name ++ "-tunnel", Namespace := pe.Namespace } = Except.ok existing)
    (heq : deploymentSpecEqual existing (ownedDeployment pe tc) = some true) :
    Reconcile faults clock w req
        = Reconcile.computeStatus faults clock w (serviceFound clock pe) tc existing
      ∧ (∀ d, Call.UpdateDeployment d ∉ (Reconcile faults clock w req).calls)
      ∧ (∀ d, Call.CreateDeployment d ∉ (Reconcile faults clock w req).calls)
      ∧ (Reconcile faults clock w req).result.Requeue = false
      ∧ (Reconcile faults clock w req).world.Deployments = w.Deployments := by
  have hR : Reconcile faults clock w req
      = Reconcile.reconcileDeployment faults clock w (serviceFound clock pe) tc :=
    Reconcile_main_path faults clock w req pe svc tc hget hdel hfin hsvc htc
  have hF := reconcileDeployment_found faults clock w (serviceFound clock pe) tc existing
    hown hlive
  have hO : ownedDeployment (serviceFound clock pe) tc = ownedDeployment pe tc := rfl
  rw [hO, heq] at hF
  simp only at hF
  rw [hR, hF]
  exact ⟨rfl, computeStatus_no_workload_write faults clock w _ tc existing⟩

/-- The lookups of the service and of the tier read only the services and the tiers. -/
theorem lookups_same (faults : Faults) (w w1 : World)
    (hs : w1.Services = w.Services) (ht : w1.TunnelClasses = w.TunnelClasses) :
    (∀ key, Client.GetService faults w1 key = Client.GetService faults w key)
      ∧ (∀ name, GetTunnelClass faults w1 name = GetTunnelClass faults w name) := by
  constructor
  · intro key
    unfold Client.GetService
    rw [hs]
  · intro name
    unfold GetTunnelClass GetDefaultTunnelClass Client.GetTunnelClass Client.ListTunnelClasses
    rw [ht]

/-- Reading back a workload after an update of the objects under its key. -/
theorem find_after_deployment_update (l : List Deployment) (key : NamespacedName)
    (existing obj : Deployment)
    (hfind : l.find? (fun o => hasKey key o.toObjectMeta) = some existing)
    (hobj : hasKey key obj.toObjectMeta = true) :
    (l.map (fun o => if hasKey key o.toObjectMeta then { obj with Status := o.Status } else o)).find?
        (fun o => hasKey key o.toObjectMeta)
      = some { obj with Status := existing.Status } := by
  induction l with
  | nil => simp at hfind
  | cons a rest ih =>
    by_cases ha : hasKey key a.toObjectMeta = true
    · have hpe : a = existing := by simpa [List.find?, ha] using hfind
      subst hpe
      simp only [List.map_cons, ha, if_true, List.find?_cons, hobj]
    · have hrest : rest.find? (fun o => hasKey key o.toObjectMeta) = some existing := by
        simpa [List.find?, ha] using hfind
      simp only [Bool.not_eq_true] at ha
      simp only [List.map_cons, ha, Bool.false_eq_true, if_false, List.find?_cons, ih hrest]

/-- The update pass, with its two writes succeeding: what the store holds afterwards. -/
theorem update_pass_world (faults : Faults) (clock : Nat → Nat) (w : World)
    (req : NamespacedName) (pe : PortalExpose) (svc : Service) (tc : TunnelClass)
    (existing : Deployment)
    (hget : Client.GetPortalExpose faults w req = Except.ok pe)
    (hdel : Time.IsZero pe.DeletionTimestamp = true)
    (hfin : HasFinalizer pe.toObjectMeta FinalizerName = true)
    (hsvc : Client.GetService faults w
      { Name := pe.Spec.App.Service.Name, Namespace := pe.Namespace } = Except.ok svc)
    (htc : GetTunnelClass faults w pe.Spec.TunnelClassName = Except.ok tc)
    (hown : faults Op.SetControllerReference = none)
    (hlive : Client.GetDeployment faults w
      { Name := pe.Name ++ "-tunnel", Namespace := pe.Namespace } = Except.ok existing)
    (hne : deploymentSpecEqual existing (ownedDeployment pe tc) = some false)
    (hnu : faults Op.UpdateDeployment = none)
    (hns : faults Op.StatusUpdatePortalExpose = none) :
    (Reconcile faults clock w req).result.Requeue = true
      ∧ (Reconcile faults clock w req).calls.head?
          = some (Call.UpdateDeployment { existing with Spec := (ownedDeployment pe tc).Spec })
      ∧ (Reconcile faults clock w req).world.Services = w.Services
      ∧ (Reconcile faults clock w req).world.TunnelClasses = w.TunnelClasses
      ∧ (∃ pe2, Client.GetPortalExpose faults (Reconcile faults clock w req).world req
            = Except.ok pe2
          ∧ pe2.toObjectMeta = pe.toObjectMeta ∧ pe2.Spec = pe.Spec)
      ∧ Client.GetDeployment faults (Reconcile faults clock w req).world
            { Name := pe.Name ++ "-tunnel", Namespace := pe.Namespace }
          = Except.ok { existing with Spec := (ownedDeployment pe tc).Spec } := by
  obtain ⟨hgf, hfind, hkey⟩ := GetPortalExpose_ok faults w req pe hget
  have hk := keyOf_eq_of_hasKey _ _ hkey
  obtain ⟨hgd, hemem, hekey⟩ := GetDeployment_ok faults w _ existing hlive
  have hek := keyOf_eq_of_hasKey _ _ hekey
  have hefind : w.Deployments.find? (fun o =>
      hasKey { Name := pe.Name ++ "-tunnel", Namespace := pe.Namespace } o.toObjectMeta)
      = some existing := by
    unfold Client.GetDeployment at hlive
    simp only [hgd] at hlive
    split at hlive
    · rename_i obj hf
      simp only [Except.ok.injEq] at hlive
      rw [hf, hlive]
    · simp at hlive
  have hR : Reconcile faults clock w req
      = Reconcile.reconcileDeployment faults clock w (serviceFound clock pe) tc :=
    Reconcile_main_path faults clock w req pe svc tc hget hdel hfin hsvc htc
  have hF := reconcileDeployment_found faults clock w (serviceFound clock pe) tc existing
    hown hlive
  have hO : ownedDeployment (serviceFound clock pe) tc = ownedDeployment pe tc := rfl
  rw [hO, hne] at hF
  simp only at hF
  have hU := UpdateDeployment_ok faults w
    { Name := pe.Name ++ "-tunnel", Namespace := pe.Namespace } existing
    { existing with Spec := (ownedDeployment pe tc).Spec } hemem hekey hek hnu
  rw [hU] at hF
  simp only at hF
  obtain ⟨w2, hS, hread, hdep, hsv, htcs⟩ := StatusUpdate_ok faults
    { w with Deployments := w.Deployments.map (fun o =>
        if hasKey { Name := pe.Name ++ "-tunnel", Namespace := pe.Namespace }
            o.toObjectMeta then
          { ({ existing with Spec := (ownedDeployment pe tc).Spec } : Deployment) with
            Status := o.Status }
        else o) }
    req pe
    { serviceFound clock pe with
      Status.Conditions :=
        SetCondition (serviceFound clock pe).Status.Conditions (clock 1)
          ConditionProgressing ConditionTrue "DeploymentUpdating"
          "Rolling update in progress" }
    hfind hk hns
  rw [hS] at hF
  simp only at hF
  rw [hR, hF]
  refine ⟨rfl, rfl, hsv, htcs,
    ⟨{ serviceFound clock pe with
       Status.Conditions :=
         SetCondition (serviceFound clock pe).Status.Conditions (clock 1)
           ConditionProgressing ConditionTrue "DeploymentUpdating"
           "Rolling update in progress" }, ?_, rfl, rfl⟩, ?_⟩
  · unfold Client.GetPortalExpose
    simp only [hgf, hread]
    rfl
  · unfold Client.GetDeployment
    simp only [hgd, hdep]
    rw [find_after_deployment_update w.Deployments _ existing
      { existing with Spec := (ownedDeployment pe tc).Spec } hefind hekey]

/-- The requests of every size have both the CPU and the memory entry. -/
theorem requests_set (size : String) :
    ∃ c m, (GetResourcesForSize size).Requests = { cpu := some c, memory := some m } := by
  have hsmall : ∃ c m, (GetResourcesForSize "small").Requests
      = { cpu := some c, memory := some m } := by
    rw [GetResourcesForSize]
    simp
  by_cases h1 : size = "small"
  · rw [h1]; exact hsmall
  · by_cases h2 : size = "medium"
    · rw [h2, GetResourcesForSize]
      simp
    · by_cases h3 : size = "large"
      · rw [h3, GetResourcesForSize]
        simp
      · rw [GetResourcesForSize]
        simp only [h1, h2, h3, dite_false]
        exact hsmall

/-- The desired workload depends on the exposure's metadata and spec only. -/
theorem ownedDeployment_congr (pe pe2 : PortalExpose) (tc : TunnelClass)
    (hm : pe2.toObjectMeta = pe.toObjectMeta) (hs : pe2.Spec = pe.Spec) :
    ownedDeployment pe2 tc = ownedDeployment pe tc := by
  cases pe
  cases pe2
  simp only at hm hs
  subst hm
  subst hs
  rfl

/-- C27: `deploymentSpecEqual` on a built workload against itself is true and meets no
nil pointer, because `BuildDeployment` always sets the replica count and both requests;
and after an update pass (live spec overwritten by the desired spec, both writes
succeeding) the next pass over the resulting store finds the live workload equal to the
desired one, runs the steady-state steps, issues no workload update and asks for no
requeue. -/
theorem updates_converge (faults : Faults) (clock : Nat → Nat) (w : World)
    (req : NamespacedName) (pe : PortalExpose) (svc : Service) (tc : TunnelClass)
    (existing : Deployment)
    (hget : Client.GetPortalExpose faults w req = Except.ok pe)
    (hdel : Time.IsZero pe.DeletionTimestamp = true)
    (hfin : HasFinalizer pe.toObjectMeta FinalizerName = true)
    (hsvc : Client.GetService faults w
      { Name := pe.Spec.App.Service.Name, Namespace := pe.Namespace } = Except.ok svc)
    (htc : GetTunnelClass faults w pe.Spec.TunnelClassName = Except.ok tc)
    (hown : faults Op.SetControllerReference = none)
    (hlive : Client.GetDeployment faults w
      { Name := pe.Name ++ "-tunnel", Namespace := pe.Namespace } = Except.ok existing)
    (hne : deploymentSpecEqual existing (ownedDeployment pe tc) = some false)
    (hnu : faults Op.UpdateDeployment = none)
    (hns : faults Op.StatusUpdatePortalExpose = none) :
    (∀ (e : PortalExpose) (t : TunnelClass),
        deploymentSpecEqual (BuildDeployment e t) (BuildDeployment e t) = some true
          ∧ (BuildDeployment e t).Spec.Replicas = some t.Spec.Replicas
          ∧ ∃ c cpu memory, (BuildDeployment e t).Spec.Template.Spec.Containers = [c]
              ∧ c.Resources.Requests = { cpu := some cpu, memory := some memory })
      ∧ (Reconcile faults clock w req).calls.head?
          = some (Call.UpdateDeployment { existing with Spec := (ownedDeployment pe tc).Spec })
      ∧ (Reconcile faults clock w req).result.Requeue = true
      ∧ (∀ clock2 : Nat → Nat,
          (∀ d, Call.UpdateDeployment d
              ∉ (Reconcile faults clock2 (Reconcile faults clock w req).world req).calls)
            ∧ (Reconcile faults clock2 (Reconcile faults clock w req).world req).result.Requeue
                = false
            ∧ (Reconcile faults clock2 (Reconcile faults clock w req).world req).world.Deployments
                = (Reconcile faults clock w req).world.Deployments
            ∧ ∃ pe2, Reconcile faults clock2 (Reconcile faults clock w req).world req
                = Reconcile.computeStatus faults clock2 (Reconcile faults clock w req).world
                    (serviceFound clock2 pe2) tc
                    { existing with Spec := (ownedDeployment pe tc).Spec }) := by
  obtain ⟨hq, hhead, hsv, htcs, ⟨pe2, hget2, hm2, hs2⟩, hlive2⟩ :=
    update_pass_world faults clock w req pe svc tc existing hget hdel hfin hsvc htc hown hlive
      hne hnu hns
  refine ⟨?_, hhead, hq, ?_⟩
  · intro e t
    refine ⟨deploymentSpecEqual_same_spec _ _ t.Spec.Replicas rfl rfl, rfl, ?_⟩
    obtain ⟨c, m, hcm⟩ := requests_set t.Spec.Size
    exact ⟨_, c, m, rfl, hcm⟩
  · intro clock2
    generalize hW : (Reconcile faults clock w req).world = W1 at hsv htcs hget2 hlive2
    obtain ⟨ls, lt⟩ := lookups_same faults w W1 hsv htcs
    have hn2 : pe2.Name = pe.Name := by rw [hm2]
    have hns2 : pe2.Namespace = pe.Namespace := by rw [hm2]
    have hdel2 : Time.IsZero pe2.DeletionTimestamp = true := by
      have : pe2.DeletionTimestamp = pe.DeletionTimestamp := by rw [hm2]
      rw [this]; exact hdel
    have hfin2 : HasFinalizer pe2.toObjectMeta FinalizerName = true := by rw [hm2]; exact hfin
    have hsvc2 : Client.GetService faults W1
        { Name := pe2.Spec.App.Service.Name, Namespace := pe2.Namespace } = Except.ok svc := by
      rw [ls, hs2, hns2]; exact hsvc
    have htc2 : GetTunnelClass faults W1 pe2.Spec.TunnelClassName = Except.ok tc := by
      rw [lt, hs2]; exact htc
    have hlive3 : Client.GetDeployment faults W1
        { Name := pe2.Name ++ "-tunnel", Namespace := pe2.Namespace }
        = Except.ok { existing with Spec := (ownedDeployment pe tc).Spec } := by
      rw [hn2, hns2]; exact hlive2
    have heq2 : deploymentSpecEqual
        ({ existing with Spec := (ownedDeployment pe tc).Spec } : Deployment)
        (ownedDeployment pe2 tc) = some true := by
      rw [ownedDeployment_congr pe pe2 tc hm2 hs2]
      exact deploymentSpecEqual_same_spec _ _ tc.Spec.Replicas rfl rfl
    obtain ⟨r1, r2, _, r4, r5⟩ := Reconcile_no_update faults clock2 W1 req pe2 svc tc
      { existing with Spec := (ownedDeployment pe tc).Spec }
      hget2 hdel2 hfin2 hsvc2 htc2 hown hlive3 heq2
    exact ⟨r2, r4, r5, pe2, r1⟩

/-- Witness for C27: the drifted sample workload is updated once; the pass after that
neither updates nor requeues. -/
theorem updates_converge_witness :
    (Reconcile noFaults sampleClock (sampleWorld [sampleDrifted]) sampleReq).result.Requeue
        = true
      ∧ (Reconcile noFaults sampleClock
          (Reconcile noFaults sampleClock (sampleWorld [sampleDrifted]) sampleReq).world
          sampleReq).result.Requeue = false
      ∧ (∀ d, Call.UpdateDeployment d
          ∉ (Reconcile noFaults sampleClock
              (Reconcile noFaults sampleClock (sampleWorld [sampleDrifted]) sampleReq).world
              sampleReq).calls) := by
  have h := updates_converge noFaults sampleClock (sampleWorld [sampleDrifted])
    sampleReq sampleExpose sampleService sampleClass sampleDrifted
    rfl (by decide) (by decide) rfl rfl rfl rfl rfl rfl rfl
  exact ⟨h.2.2.1, (h.2.2.2 sampleClock).2.1, (h.2.2.2 sampleClock).1⟩

/-- The comparison reads the specs only. -/
theorem deploymentSpecEqual_congr (d1 d2 e1 e2 : Deployment)
    (h1 : d1.Spec = e1.Spec) (h2 : d2.Spec = e2.Spec) :
    deploymentSpecEqual d1 d2 = deploymentSpecEqual e1 e2 := by
  unfold deploymentSpecEqual
  rw [h1, h2]

/-- C28: two workloads built for any two exposures and the same tier are equal for
`deploymentSpecEqual`, so a pass whose live workload was built for an earlier version of
the exposure (other app name, service name, port or relay targets) issues no workload
update and leaves the live workload, with its container arguments, as it is; two tiers
with different replica counts, or with different sizes among small, medium and large, make
`deploymentSpecEqual` false. -/
theorem args_not_drift (faults : Faults) (clock : Nat → Nat) (w : World)
    (req : NamespacedName) (pe earlier : PortalExpose) (svc : Service) (tc : TunnelClass)
    (existing : Deployment)
    (hget : Client.GetPortalExpose faults w req = Except.ok pe)
    (hdel : Time.IsZero pe.DeletionTimestamp = true)
    (hfin : HasFinalizer pe.toObjectMeta FinalizerName = true)
    (hsvc : Client.GetService faults w
      { Name := pe.Spec.App.Service.Name, Namespace := pe.Namespace } = Except.ok svc)
    (htc : GetTunnelClass faults w pe.Spec.TunnelClassName = Except.ok tc)
    (hown : faults Op.SetControllerReference = none)
    (hlive : Client.GetDeployment faults w
      { Name := pe.Name ++ "-tunnel", Namespace := pe.Namespace } = Except.ok existing)
    (hbuilt : existing.Spec = (BuildDeployment earlier tc).Spec) :
    (∀ (e1 e2 : PortalExpose) (t : TunnelClass),
        deploymentSpecEqual (BuildDeployment e1 t) (BuildDeployment e2 t) = some true)
      ∧ deploymentSpecEqual existing (ownedDeployment pe tc) = some true
      ∧ (∀ d, Call.UpdateDeployment d ∉ (Reconcile faults clock w req).calls)
      ∧ (Reconcile faults clock w req).world.Deployments = w.Deployments
      ∧ Client.GetDeployment faults (Reconcile faults clock w req).world
            { Name := pe.Name ++ "-tunnel", Namespace := pe.Namespace } = Except.ok existing
      ∧ (∀ (e1 e2 : PortalExpose) (t1 t2 : TunnelClass),
          t1.Spec.Replicas ≠ t2.Spec.Replicas →
          deploymentSpecEqual (BuildDeployment e1 t1) (BuildDeployment e2 t2) = some false)
      ∧ (∀ (e1 e2 : PortalExpose) (t1 t2 : TunnelClass),
          t1.Spec.Size ∈ ["small", "medium", "large"] →
          t2.Spec.Size ∈ ["small", "medium", "large"] →
          t1.Spec.Size ≠ t2.Spec.Size →
          deploymentSpecEqual (BuildDeployment e1 t1) (BuildDeployment e2 t2) = some false) := by
  have hsame : ∀ (e1 e2 : PortalExpose) (t : TunnelClass),
      deploymentSpecEqual (BuildDeployment e1 t) (BuildDeployment e2 t) = some true := by
    intro e1 e2 t
    rw [deploymentSpecEqual_built]
    simp
  have heq : deploymentSpecEqual existing (ownedDeployment pe tc) = some true := by
    rw [deploymentSpecEqual_congr existing (ownedDeployment pe tc) (BuildDeployment earlier tc)
      (BuildDeployment pe tc) hbuilt rfl]
    exact hsame earlier pe tc
  obtain ⟨_, r2, _, _, r5⟩ := Reconcile_no_update faults clock w req pe svc tc existing
    hget hdel hfin hsvc htc hown hlive heq
  obtain ⟨s1, s2, s3⟩ := requests_of_size
  refine ⟨hsame, heq, r2, r5, ?_, ?_, ?_⟩
  · have : Client.GetDeployment faults (Reconcile faults clock w req).world
        { Name := pe.Name ++ "-tunnel", Namespace := pe.Namespace }
        = Client.GetDeployment faults w
            { Name := pe.Name ++ "-tunnel", Namespace := pe.Namespace } := by
      unfold Client.GetDeployment
      rw [r5]
    rw [this, hlive]
  · intro e1 e2 t1 t2 hr
    rw [deploymentSpecEqual_built]
    simp [hr]
  · intro e1 e2 t1 t2 h1 h2 hne
    rw [deploymentSpecEqual_built]
    simp only [List.mem_cons, List.mem_singleton, List.not_mem_nil, or_false] at h1 h2
    rcases h1 with h1 | h1 | h1 <;> rcases h2 with h2 | h2 | h2 <;>
      first
        | exact absurd (h1.trans h2.symm) hne
        | (rw [h1, h2]; simp [s1, s2, s3])

/-- Witness for C28: the sample exposure was edited after its workload was built. -/
theorem args_not_drift_witness :
    deploymentSpecEqual sampleDeployment (ownedDeployment sampleExposeEdited sampleClass)
        = some true
      ∧ (Reconcile noFaults sampleClock
          { PortalExposes := [sampleExposeEdited], Services := [sampleService],
            TunnelClasses := [sampleClass], Deployments := [sampleDeployment] }
          sampleReq).world.Deployments = [sampleDeployment] := by
  have h := args_not_drift noFaults sampleClock
    { PortalExposes := [sampleExposeEdited], Services := [sampleService],
      TunnelClasses := [sampleClass], Deployments := [sampleDeployment] }
    sampleReq sampleExposeEdited sampleExpose sampleService sampleClass sampleDeployment
    rfl (by decide) (by decide) rfl rfl rfl rfl rfl
  exact ⟨h.2.1, h.2.2.2.1⟩

end Portal
